import Mathlib

/-! 9P2000 client (libraries/AP_Networking/AP_Networking_NineP2000.cpp)

A shallow embedding of the 9P2000 client of ArduPilot and proofs about it.

* The two message buffers are byte lists; header and body fields are read and
  written little-endian at their packed offsets.
* Every member function of `NineP2000` is a function on `Session`, the fields
  of the object, and returns the new session (and the C++ return value).
* `sock->send` appends the frame to `Session.sent`; `INTERNAL_ERROR` bumps
  `Session.internal_errors`; an access that is undefined behaviour in C++
  (null socket, out-of-range table write) sets `Session.fault`.
* `parse` recurses on the residual bytes and is given fuel.
* The header `AP_Networking_NineP2000.h` is not among the sources: the packed sizes
  and enumerators it declares are constants below, `sizeof(Message)` is a field of
  `Config`, and `ARRAY_SIZE(request)` and `ARRAY_SIZE(fileIds)` are the lengths of the
  two tables of a `Session` (at most 255, the loops over them counting in `uint8_t`).
* The semaphores are left out: the functions are taken one at a time.
-/

namespace NineP2000

/-! ## Constants of the absent header `AP_Networking_NineP2000.h` -/

/-- Modelled from the spec: `NOTAG`, the tag reserved for the version handshake
(declared in the absent header). -/
def NOTAG : Nat := 0xFFFF

/-- Modelled from the spec: `qidType::QTDIR`, the directory bit of a qid type. -/
def QTDIR : Nat := 0x80

/-- Modelled from the spec: `qidType::QTFILE`. -/
def QTFILE : Nat := 0x00

/-- Modelled from the spec: `openMode::OREAD`. -/
def OREAD : Nat := 0

/-- Modelled from the spec: `openMode::OWRITE`. -/
def OWRITE : Nat := 1

/-- Modelled from the spec: `openMode::ORDWR`. -/
def ORDWR : Nat := 2

/-- Modelled from the spec: `sizeof(Message::header)`: length u32, type u8, tag u16. -/
def sizeof_header : Nat := 7

/-- Modelled from the spec: `sizeof(qid_t)`: type u8, version u32, path u64. -/
def sizeof_qid_t : Nat := 13

/-- Modelled from the spec: `sizeof(stat_t)`: msg_size u16, type u16, dev u32, qid,
mode u32, atime u32, mtime u32, length u64 (the four strings follow it). -/
def sizeof_stat_t : Nat := 41

/-- Modelled from the spec: `sizeof(Message::Tversion)`: msize u32. -/
def sizeof_Tversion : Nat := 4

/-- Modelled from the spec: `sizeof(Message::Rversion)`: msize u32, version_string_len u16. -/
def sizeof_Rversion : Nat := 6

/-- Modelled from the spec: `sizeof(Message::Tattach)`: fid u32, afid u32. -/
def sizeof_Tattach : Nat := 8

/-- Modelled from the spec: `sizeof(Message::Rattach)`: qid. -/
def sizeof_Rattach : Nat := 13

/-- Modelled from the spec: `sizeof(Message::Tclunk)`: fid u32. -/
def sizeof_Tclunk : Nat := 4

/-- Modelled from the spec: `sizeof(Message::Rerror)`: ename_string_len u16. -/
def sizeof_Rerror : Nat := 2

/-- Modelled from the spec: `sizeof(Message::Topen)`: fid u32, mode u8. -/
def sizeof_Topen : Nat := 5

/-- Modelled from the spec: `sizeof(Message::Ropen)`: qid, iounit u32. -/
def sizeof_Ropen : Nat := 17

/-- Modelled from the spec: `sizeof(Message::Tcreate)`: fid u32 (name, perm, mode follow). -/
def sizeof_Tcreate : Nat := 4

/-- Modelled from the spec: `sizeof(Message::Rcreate)`: qid, iounit u32. -/
def sizeof_Rcreate : Nat := 17

/-- Modelled from the spec: `sizeof(Message::Tread)`: fid u32, offset u64, count u32. -/
def sizeof_Tread : Nat := 16

/-- Modelled from the spec: `sizeof(Message::Rread)`: count u32. -/
def sizeof_Rread : Nat := 4

/-- Modelled from the spec: `sizeof(Message::Twrite)`: fid u32, offset u64, count u32. -/
def sizeof_Twrite : Nat := 16

/-- Modelled from the spec: `sizeof(Message::Rwrite)`: count u32. -/
def sizeof_Rwrite : Nat := 4

/-- Modelled from the spec: `sizeof(Message::Tremove)`: fid u32. -/
def sizeof_Tremove : Nat := 4

/-- Modelled from the spec: `sizeof(Message::Tstat)`: fid u32. -/
def sizeof_Tstat : Nat := 4

/-- Modelled from the spec: `sizeof(Message::Rstat)`: stat_len u16, stat. -/
def sizeof_Rstat : Nat := 43

/-- Modelled from the spec: `sizeof(Message::Twstat)`: fid u32, nstat u16, stat. -/
def sizeof_Twstat : Nat := 47

/-- Modelled from the spec: `sizeof(Message::Twalk)`: fid u32, newfid u32, nwname u16. -/
def sizeof_Twalk : Nat := 10

/-- Modelled from the spec: `sizeof(Message::Rwalk)`: nwqid u16. -/
def sizeof_Rwalk : Nat := 2

/-- Modelled from the spec: the numeric values of `enum class Type`
(`Tversion = 100, Rversion = 101, ... Rwstat = 127`), declared in the absent header. -/
inductive MsgType where
  | Tversion | Rversion | Tauth | Rauth | Tattach | Rattach | Rerror
  | Tflush | Rflush | Twalk | Rwalk | Topen | Ropen | Tcreate | Rcreate
  | Tread | Rread | Twrite | Rwrite | Tclunk | Rclunk | Tremove | Rremove
  | Tstat | Rstat | Twstat | Rwstat
  deriving DecidableEq, Repr

/-- The byte that stands for a message type on the wire. -/
def MsgType.toByte : MsgType → Nat
  | .Tversion => 100 | .Rversion => 101 | .Tauth => 102 | .Rauth => 103
  | .Tattach => 104 | .Rattach => 105 | .Rerror => 107
  | .Tflush => 108 | .Rflush => 109 | .Twalk => 110 | .Rwalk => 111
  | .Topen => 112 | .Ropen => 113 | .Tcreate => 114 | .Rcreate => 115
  | .Tread => 116 | .Rread => 117 | .Twrite => 118 | .Rwrite => 119
  | .Tclunk => 120 | .Rclunk => 121 | .Tremove => 122 | .Rremove => 123
  | .Tstat => 124 | .Rstat => 125 | .Twstat => 126 | .Rwstat => 127

/-- The cast `(Type)receive.header.type`: a byte that is no enumerator matches
no `case` of the switch in `parse`. -/
def MsgType.ofByte (n : Nat) : Option MsgType :=
  if n = 100 then some .Tversion else if n = 101 then some .Rversion
  else if n = 102 then some .Tauth else if n = 103 then some .Rauth
  else if n = 104 then some .Tattach else if n = 105 then some .Rattach
  else if n = 107 then some .Rerror
  else if n = 108 then some .Tflush else if n = 109 then some .Rflush
  else if n = 110 then some .Twalk else if n = 111 then some .Rwalk
  else if n = 112 then some .Topen else if n = 113 then some .Ropen
  else if n = 114 then some .Tcreate else if n = 115 then some .Rcreate
  else if n = 116 then some .Tread else if n = 117 then some .Rread
  else if n = 118 then some .Twrite else if n = 119 then some .Rwrite
  else if n = 120 then some .Tclunk else if n = 121 then some .Rclunk
  else if n = 122 then some .Tremove else if n = 123 then some .Rremove
  else if n = 124 then some .Tstat else if n = 125 then some .Rstat
  else if n = 126 then some .Twstat else if n = 127 then some .Rwstat
  else none

/-- The session states the source uses (`State::Version`, `State::Attach`,
`State::Mounted`). -/
inductive State where
  | Version | Attach | Mounted
  deriving DecidableEq, Repr

/-- The kind a walk expects (`walkType`). -/
inductive walkType where
  | Any | File | Directory
  deriving DecidableEq, Repr

/-- What the absent headers fix: `sizeof(Message)` (taken to fit the type of
`bufferLen`), `sizeof(dirent::d_name)`, and the constants of `<fcntl.h>`,
`<dirent.h>` and `<sys/stat.h>` the client uses. -/
structure Config where
  msgSize : Nat
  dNameSize : Nat
  O_RDWR : Nat
  O_WRONLY : Nat
  DT_REG : Nat
  DT_DIR : Nat
  S_IFREG : Nat
  S_IFDIR : Nat
  deriving DecidableEq, Repr

/-! ## Bytes -/

/-- Little-endian encoding of `v` in `n` bytes (the value is reduced modulo `256 ^ n`). -/
def le : Nat → Nat → List Nat
  | 0, _ => []
  | n + 1, v => (v % 256) :: le n (v / 256)

/-- Little-endian read of `n` bytes of `buf` at offset `off`. A byte past the end
of the list reads as 0. -/
def rd (buf : List Nat) (off : Nat) : Nat → Nat
  | 0 => 0
  | n + 1 => (buf.getD off 0) % 256 + 256 * rd buf (off + 1) n

/-- The `memcpy` of `bytes` to `buf` at offset `off`; the buffer keeps its size. -/
def writeAt : List Nat → Nat → List Nat → List Nat
  | buf, _, [] => buf
  | buf, off, b :: bs => writeAt (buf.set off b) (off + 1) bs

/-- The `n` bytes of `buf` from offset `off` (a byte past the end reads as 0). -/
def readBytes (buf : List Nat) (off : Nat) : Nat → List Nat
  | 0 => []
  | n + 1 => buf.getD off 0 :: readBytes buf (off + 1) n

/-- The field `header.length` (u32 at offset 0). -/
def hdr_length (m : List Nat) : Nat := rd m 0 4

/-- The field `header.type` (u8 at offset 4). -/
def hdr_type (m : List Nat) : Nat := rd m 4 1

/-- The field `header.tag` (u16 at offset 5). -/
def hdr_tag (m : List Nat) : Nat := rd m 5 2

/-- The assignment `msg.header.length = v`. -/
def set_hdr_length (m : List Nat) (v : Nat) : List Nat := writeAt m 0 (le 4 v)

/-- The assignment `msg.header.type = v`. -/
def set_hdr_type (m : List Nat) (v : Nat) : List Nat := writeAt m 4 (le 1 v)

/-- The assignment `msg.header.tag = v`. -/
def set_hdr_tag (m : List Nat) (v : Nat) : List Nat := writeAt m 5 (le 2 v)

/-- The conversion of an unsigned 32-bit value to `int32_t`. -/
def toInt32 (v : Nat) : Int :=
  if v % 2 ^ 32 < 2 ^ 31 then ((v % 2 ^ 32 : Nat) : Int) else ((v % 2 ^ 32 : Nat) : Int) - 2 ^ 32

/-- The conversion `uint32_t(x)` of an `int32_t`. -/
def toUInt32 (x : Int) : Nat := (x % 2 ^ 32).toNat

/-- The bytes of a string literal of the source. -/
def cstr (s : String) : List Nat := s.toList.map Char.toNat

/-- Whether `strncmp(a, b, n) == 0`, for `a` the bytes of a C string before its
terminator and `b` the bytes at the second pointer. -/
def strncmp_eq : List Nat → List Nat → Nat → Bool
  | _, _, 0 => true
  | [], b, _ + 1 => b.headD 0 % 256 == 0
  | x :: a, b, n + 1 => if b.headD 0 % 256 == x then strncmp_eq a b.tail n else false

/-! ## Tables and session -/

/-- A slot of `request[]`. The result members are a union in the source; they are
kept as separate fields here, every read of the source being of the member its
`expectedType` selects, on a slot that `clear_tag` zeroed before it was handed out. -/
structure Request where
  active : Bool
  pending : Bool
  expectedType : Nat
  walk_fileId : Nat
  walk_type : walkType
  clunk_fileId : Nat
  open_result : Bool
  create_result : Bool
  read_is_dir : Bool
  read_buf : Option Nat
  read_dir : Option Nat
  read_count : Int
  write_count : Int
  remove_result : Bool
  stat_stbuf : Option Nat
  stat_result : Bool
  rwstat_result : Bool
  deriving DecidableEq, Repr

/-- A slot after `memset(&request[tag], 0, sizeof(request[tag]))`. -/
def Request.zero : Request :=
  { active := false, pending := false, expectedType := 0, walk_fileId := 0,
    walk_type := walkType.Any, clunk_fileId := 0, open_result := false,
    create_result := false, read_is_dir := false, read_buf := none, read_dir := none,
    read_count := 0, write_count := 0, remove_result := false, stat_stbuf := none,
    stat_result := false, rwstat_result := false }

/-- A slot of `fileIds[]`. -/
structure FileId where
  active : Bool
  clunked : Bool
  deriving DecidableEq, Repr

/-- A slot after `memset(&fileIds, 0, sizeof(fileIds))`. -/
def FileId.zero : FileId := { active := false, clunked := false }

/-- The members of `struct dirent` the client fills. -/
structure Dirent where
  d_name : List Nat
  d_type : Nat
  deriving DecidableEq, Repr

/-- The members of `struct stat` the client fills. -/
structure StatBuf where
  st_size : Nat
  st_atime : Nat
  st_mtime : Nat
  st_mode : Nat
  deriving DecidableEq, Repr

/-- The fields of a `NineP2000` object, the caller memory its requests point to
(`bufs`, `dirents`, `stats`; a pointer is an index, `none` is `nullptr`), and what
an observer sees: the frames given to `sock->send`, the number of
`INTERNAL_ERROR`s, and whether undefined behaviour was reached. -/
structure Session where
  state : State
  bufferLen : Nat
  request : List Request
  fileIds : List FileId
  send : List Nat
  receive : List Nat
  connected : Bool
  sock : Bool
  bufs : List (List Nat)
  dirents : List Dirent
  stats : List StatBuf
  sent : List (List Nat)
  internal_errors : Nat
  fault : Bool
  deriving DecidableEq, Repr

/-- Apply `f` to element `i` of a list (nothing when `i` is out of range). -/
def upd {α : Type} : List α → Nat → (α → α) → List α
  | [], _, _ => []
  | x :: xs, 0, f => f x :: xs
  | x :: xs, i + 1, f => x :: upd xs i f

/-- Index of the first element that does not satisfy `p`, counted from `i`. -/
def scan_free {α : Type} (p : α → Bool) : List α → Nat → Option Nat
  | [], _ => none
  | x :: xs, i => if p x then scan_free p xs (i + 1) else some i

/-- The slot `request[tag]`. -/
def Session.req (s : Session) (tag : Nat) : Request := s.request.getD tag Request.zero

/-- The slot `fileIds[index]`. -/
def Session.fid (s : Session) (index : Nat) : FileId := s.fileIds.getD index FileId.zero

/-- The statement `INTERNAL_ERROR(AP_InternalError::error_t::flow_of_control)`: it
records the error and execution goes on. -/
def internal_error (s : Session) : Session :=
  { s with internal_errors := s.internal_errors + 1 }

/-- The call `sock->send(send.buffer, send.header.length)`. -/
def sock_send (s : Session) : Session :=
  if s.sock then { s with sent := s.sent ++ [s.send.take (hdr_length s.send)] }
  else { s with fault := true }

/-! ## Handshake -/

/-- The function `NineP2000::add_string`: the flag it returns and the message. `str`
is the bytes of the C string before its terminator. -/
def add_string (cfg : Config) (bufferLen : Nat) (msg : List Nat) (str : List Nat) :
    Bool × List Nat :=
  let offset := hdr_length msg
  let len := str.length % 65536
  if offset + 2 + len > min bufferLen cfg.msgSize then (false, msg)
  else
    let msg1 := writeAt msg offset (le 2 len)
    let msg2 := writeAt msg1 (offset + 2) (str.take len)
    (true, set_hdr_length msg2 (hdr_length msg2 + (2 + len)))

/-- The function `NineP2000::request_version`. -/
def request_version (cfg : Config) (s : Session) : Session :=
  let s1 := { s with state := State.Version, bufferLen := 32 }
  let m1 := set_hdr_type s1.send MsgType.Tversion.toByte
  let m2 := set_hdr_tag m1 NOTAG
  let m3 := set_hdr_length m2 (sizeof_header + sizeof_Tversion)
  let m4 := writeAt m3 7 (le 4 cfg.msgSize)
  let r := add_string cfg s1.bufferLen m4 (cstr "9P2000")
  if r.1 then sock_send { s1 with send := r.2 }
  else internal_error { s1 with send := r.2 }

/-- The function `NineP2000::request_attach`. -/
def request_attach (cfg : Config) (s : Session) : Session :=
  let s1 := { s with state := State.Attach }
  let m1 := set_hdr_type s1.send MsgType.Tattach.toByte
  let m2 := set_hdr_tag m1 s1.request.length
  let m3 := set_hdr_length m2 (sizeof_header + sizeof_Tattach)
  let m4 := writeAt m3 7 (le 4 0)
  let m5 := writeAt m4 11 (le 4 0)
  let r1 := add_string cfg s1.bufferLen m5 (cstr "ArduPilot")
  if r1.1 then
    let r2 := add_string cfg s1.bufferLen r1.2 (cstr "")
    if r2.1 then sock_send { s1 with send := r2.2 }
    else internal_error { s1 with send := r2.2 }
  else internal_error { s1 with send := r1.2 }

/-- The value of `max_len` that `handle_version` computes. -/
def handle_version_max_len : Nat :=
  let m0 := sizeof_Tversion + 2
  let m1 := max m0 sizeof_Rversion
  let m2 := max m1 (sizeof_Tattach + 2 * 2)
  let m3 := max m2 sizeof_Rattach
  let m4 := max m3 sizeof_Tclunk
  let m5 := max m4 sizeof_Rerror
  let m6 := max m5 sizeof_Topen
  let m7 := max m6 sizeof_Ropen
  let m8 := max m7 (sizeof_Tcreate + 2 + 4 + 1)
  let m9 := max m8 sizeof_Rcreate
  let m10 := max m9 sizeof_Tread
  let m11 := max m10 sizeof_Rread
  let m12 := max m11 sizeof_Twrite
  let m13 := max m12 sizeof_Rwrite
  let m14 := max m13 sizeof_Tstat
  let m15 := max m14 (sizeof_Rstat + 4 * 2)
  let m16 := max m15 (sizeof_Twstat + 4 * 2)
  let m17 := max m16 (sizeof_Twalk + 2)
  max m17 (sizeof_Rwalk + sizeof_qid_t)

/-- The function `NineP2000::handle_version`. `receive.Rversion.msize` is the u32 at
offset 7 and `version_string_len` the u16 at offset 11. -/
def handle_version (cfg : Config) (s : Session) : Session :=
  let version_len := sizeof_header + sizeof_Rversion
  if hdr_length s.receive < version_len then s
  else if hdr_tag s.receive ≠ NOTAG then s
  else if rd s.receive 7 4 > cfg.msgSize then s
  else if rd s.receive 7 4 < sizeof_header + handle_version_max_len then s
  else
    let expected_string_len := hdr_length s.receive - version_len
    if rd s.receive 11 2 ≠ expected_string_len then s
    else if !strncmp_eq (cstr "9P2000") (s.send.drop version_len) expected_string_len then s
    else request_attach cfg { s with bufferLen := rd s.receive 7 4 }

/-- The function `NineP2000::handle_attach`. `receive.Rattach.qid.type` is the byte at
offset 7. -/
def handle_attach (s : Session) : Session :=
  if hdr_length s.receive ≠ sizeof_header + sizeof_Rattach then s
  else if hdr_tag s.receive ≠ s.request.length then s
  else if rd s.receive 7 1 ≠ QTDIR then s
  else { s with state := State.Mounted }

/-! ## Tag table and FID table -/

/-- The function `NineP2000::get_free_tag`: the tag it returns and the session. -/
def get_free_tag (s : Session) : Nat × Session :=
  if s.state ≠ State.Mounted then (NOTAG, s)
  else
    match scan_free Request.active s.request 0 with
    | some i => (i, { s with request := upd s.request i (fun q => { q with active := true }) })
    | none => (NOTAG, s)

/-- The function `NineP2000::tag_response`. -/
def tag_response (s : Session) (tag : Nat) : Bool :=
  if tag ≥ s.request.length then false
  else (s.req tag).active && !(s.req tag).pending

/-- The function `NineP2000::tag_response_type`. -/
def tag_response_type (s : Session) (tag : Nat) (type : MsgType) : Bool :=
  tag_response s tag && ((s.req tag).expectedType == type.toByte)

/-- The function `NineP2000::clear_tag`. -/
def clear_tag (s : Session) (tag : Nat) : Session :=
  if tag ≥ s.request.length then s
  else { s with request := upd s.request tag (fun _ => Request.zero) }

/-- The function `NineP2000::generate_unique_file_id`: the id it returns and the session. -/
def generate_unique_file_id (s : Session) : Nat × Session :=
  match scan_free FileId.active s.fileIds 0 with
  | some i =>
    (i + 1, { s with fileIds := upd s.fileIds i (fun _ => { active := true, clunked := false }) })
  | none => (0, s)

/-- The index `fileId - 1`, computed in `uint32_t`. -/
def fid_index (fileId : Nat) : Nat := (fileId + 2 ^ 32 - 1) % 2 ^ 32

/-- The function `NineP2000::clear_file_id`. -/
def clear_file_id (s : Session) (fileId : Nat) : Session :=
  let index := fid_index fileId
  if index ≥ s.fileIds.length || !(s.fid index).active then internal_error s
  else { s with fileIds := upd s.fileIds index (fun f => { f with active := false }) }

/-- The function `NineP2000::valid_file_id`. -/
def valid_file_id (s : Session) (fileId : Nat) : Bool :=
  let index := fid_index fileId
  decide (index < s.fileIds.length) && (s.fid index).active && !(s.fid index).clunked

/-- The function `NineP2000::free_file_id`. The write `fileIds[id - 1].clunked = true`
is made whatever `valid_file_id` said; out of the table it is undefined behaviour. -/
def free_file_id (s : Session) (id : Nat) : Session :=
  let s1 := if !valid_file_id s id then internal_error s else s
  let r := get_free_tag s1
  let tag := r.1
  if tag = NOTAG then r.2
  else
    let s2 := r.2
    let s3 :=
      if fid_index id < s2.fileIds.length then
        { s2 with fileIds := upd s2.fileIds (fid_index id) (fun f => { f with clunked := true }) }
      else { s2 with fault := true }
    let s4 := { s3 with request := upd s3.request tag (fun q =>
      { q with pending := true, expectedType := MsgType.Rclunk.toByte, clunk_fileId := id }) }
    let m1 := set_hdr_type s4.send MsgType.Tclunk.toByte
    let m2 := set_hdr_tag m1 tag
    let m3 := set_hdr_length m2 (sizeof_header + sizeof_Tclunk)
    let m4 := writeAt m3 7 (le 4 id)
    sock_send { s4 with send := m4 }

/-! ## Requests -/

/-- The statements of the loop of `request_walk` that append one name: its u16
length, its bytes, and `send.Twalk.nwname += 1` (the u16 at offset 15). -/
def walk_add_name (send : List Nat) (name_len : Nat) (name : List Nat) : List Nat :=
  let m1 := writeAt send (hdr_length send) (le 2 name_len)
  let m2 := set_hdr_length m1 (hdr_length m1 + 2)
  let m3 := writeAt m2 (hdr_length m2) name
  let m4 := set_hdr_length m3 (hdr_length m3 + name_len)
  writeAt m4 15 (le 2 (rd m4 15 2 + 1))

/-- The loop of `request_walk` over `path[i]`, `i < len`, with `n` iterations left:
the flag is false when a name did not fit, and the message is the send buffer as
the loop left it. -/
def walk_loop (path : List Nat) (len bufferLen : Nat) :
    Nat → Nat → Nat → List Nat → Bool × List Nat
  | 0, _, _, send => (true, send)
  | n + 1, i, name_start, send =>
    let split := path.getD i 0 == 47
    let last := i == len - 1
    if split || last then
      let name_len := (i - name_start + (if split then 0 else 1)) % 65536
      let new_len := (hdr_length send + 2 + name_len) % 2 ^ 32
      if new_len > bufferLen then (false, send)
      else
        walk_loop path len bufferLen n (i + 1) (i + 1)
          (walk_add_name send name_len ((path.drop name_start).take name_len))
    else walk_loop path len bufferLen n (i + 1) name_start send

/-- The function `NineP2000::request_walk`: the tag it returns and the session. `path`
is the bytes of the C string before its terminator. -/
def request_walk (s : Session) (path : List Nat) (type : walkType) : Nat × Session :=
  let r := get_free_tag s
  let tag := r.1
  if tag = NOTAG then (NOTAG, r.2)
  else
    let g := generate_unique_file_id r.2
    let id := g.1
    if id = 0 then (NOTAG, clear_tag g.2 tag)
    else
      let s2 := g.2
      let m1 := set_hdr_type s2.send MsgType.Twalk.toByte
      let m2 := set_hdr_tag m1 tag
      let m3 := set_hdr_length m2 (sizeof_header + sizeof_Twalk)
      let m4 := writeAt m3 7 (le 4 0)
      let m5 := writeAt m4 11 (le 4 id)
      let m6 := writeAt m5 15 (le 2 0)
      let len := path.length % 65536
      let w := walk_loop path len s2.bufferLen len 0 0 m6
      if !w.1 then (NOTAG, clear_tag { s2 with send := w.2 } tag)
      else
        let s3 := { s2 with send := w.2, request := upd s2.request tag (fun q =>
          { q with pending := true, expectedType := MsgType.Rwalk.toByte,
                   walk_fileId := id, walk_type := type }) }
        (tag, sock_send s3)

/-- The function `NineP2000::walk_result`. -/
def walk_result (s : Session) (tag : Nat) : Nat × Session :=
  if !tag_response_type s tag MsgType.Rwalk then (0, clear_tag s tag)
  else ((s.req tag).walk_fileId, clear_tag s tag)

/-- The function `NineP2000::request_open`. `flags` is the bit pattern of the `int`. -/
def request_open (cfg : Config) (s : Session) (id : Nat) (flags : Nat) : Nat × Session :=
  let r := get_free_tag s
  let tag := r.1
  if tag = NOTAG then (NOTAG, r.2)
  else if !valid_file_id r.2 id then (NOTAG, internal_error r.2)
  else
    let s2 := { r.2 with request := upd r.2.request tag (fun q =>
      { q with pending := true, expectedType := MsgType.Ropen.toByte }) }
    let mode :=
      if flags &&& cfg.O_RDWR ≠ 0 then ORDWR
      else if flags &&& cfg.O_WRONLY ≠ 0 then OWRITE
      else OREAD
    let m1 := set_hdr_type s2.send MsgType.Topen.toByte
    let m2 := set_hdr_tag m1 tag
    let m3 := set_hdr_length m2 (sizeof_header + sizeof_Topen)
    let m4 := writeAt m3 7 (le 4 id)
    let m5 := writeAt m4 11 (le 1 mode)
    (tag, sock_send { s2 with send := m5 })

/-- The function `NineP2000::open_result`. -/
def open_result (s : Session) (tag : Nat) : Bool × Session :=
  if !tag_response_type s tag MsgType.Ropen then (false, clear_tag s tag)
  else ((s.req tag).open_result, clear_tag s tag)

/-- The function `NineP2000::max_read_len`, a `uint32_t`. -/
def max_read_len (s : Session) : Nat :=
  (s.bufferLen + 2 ^ 32 - (sizeof_header + sizeof_Rread)) % 2 ^ 32

/-- The function `NineP2000::request_dir_read`. `de` is the pointer to the entry. -/
def request_dir_read (s : Session) (id : Nat) (offset : Nat) (de : Option Nat) :
    Nat × Session :=
  if !valid_file_id s id then (NOTAG, internal_error s)
  else
    let r := get_free_tag s
    let tag := r.1
    if tag = NOTAG then (NOTAG, r.2)
    else
      let s2 := { r.2 with request := upd r.2.request tag (fun q =>
        { q with pending := true, expectedType := MsgType.Rread.toByte,
                 read_is_dir := true, read_dir := de }) }
      let m1 := set_hdr_type s2.send MsgType.Tread.toByte
      let m2 := set_hdr_tag m1 tag
      let m3 := set_hdr_length m2 (sizeof_header + sizeof_Tread)
      let m4 := writeAt m3 7 (le 4 id)
      let m5 := writeAt m4 11 (le 8 offset)
      let m6 := writeAt m5 19 (le 4 (max_read_len s2))
      (tag, sock_send { s2 with send := m6 })

/-- The function `NineP2000::request_file_read`. `buf` is the pointer to the
destination. -/
def request_file_read (s : Session) (id : Nat) (offset : Nat) (count : Nat)
    (buf : Option Nat) : Nat × Session :=
  if !valid_file_id s id then (NOTAG, internal_error s)
  else
    let r := get_free_tag s
    let tag := r.1
    if tag = NOTAG then (NOTAG, r.2)
    else
      let s2 := { r.2 with request := upd r.2.request tag (fun q =>
        { q with pending := true, expectedType := MsgType.Rread.toByte,
                 read_is_dir := false, read_buf := buf, read_count := toInt32 count }) }
      let m1 := set_hdr_type s2.send MsgType.Tread.toByte
      let m2 := set_hdr_tag m1 tag
      let m3 := set_hdr_length m2 (sizeof_header + sizeof_Tread)
      let m4 := writeAt m3 7 (le 4 id)
      let m5 := writeAt m4 11 (le 8 offset)
      let m6 := writeAt m5 19 (le 4 count)
      (tag, sock_send { s2 with send := m6 })

/-- The function `NineP2000::read_result`. -/
def read_result (s : Session) (tag : Nat) (is_dir : Bool) : Int × Session :=
  if !tag_response_type s tag MsgType.Rread then (-1, clear_tag s tag)
  else if (s.req tag).read_is_dir != is_dir then (-1, clear_tag s tag)
  else ((s.req tag).read_count, clear_tag s tag)

/-- The function `NineP2000::request_stat`. `stbuf` is the pointer to the caller's
`struct stat`. -/
def request_stat (s : Session) (id : Nat) (stbuf : Option Nat) : Nat × Session :=
  if !valid_file_id s id then (NOTAG, internal_error s)
  else
    let r := get_free_tag s
    let tag := r.1
    if tag = NOTAG then (NOTAG, r.2)
    else
      let s2 := { r.2 with request := upd r.2.request tag (fun q =>
        { q with pending := true, expectedType := MsgType.Rstat.toByte, stat_stbuf := stbuf }) }
      let m1 := set_hdr_type s2.send MsgType.Tstat.toByte
      let m2 := set_hdr_tag m1 tag
      let m3 := set_hdr_length m2 (sizeof_header + sizeof_Tstat)
      let m4 := writeAt m3 7 (le 4 id)
      (tag, sock_send { s2 with send := m4 })

/-- The function `NineP2000::stat_result`. -/
def stat_result (s : Session) (tag : Nat) : Bool × Session :=
  if !tag_response_type s tag MsgType.Rstat then (false, clear_tag s tag)
  else ((s.req tag).stat_result, clear_tag s tag)

/-- The function `NineP2000::max_write_len`, a `uint32_t`. -/
def max_write_len (s : Session) : Nat :=
  (s.bufferLen + 2 ^ 32 - (sizeof_header + sizeof_Twrite)) % 2 ^ 32

/-- The function `NineP2000::request_write`. `buf` is the caller's data. -/
def request_write (s : Session) (id : Nat) (offset : Nat) (count : Nat) (buf : List Nat) :
    Nat × Session :=
  if !valid_file_id s id then (NOTAG, internal_error s)
  else
    let r := get_free_tag s
    let tag := r.1
    if tag = NOTAG then (NOTAG, r.2)
    else
      let data_offset := sizeof_header + sizeof_Twrite
      let count1 := min count ((r.2.bufferLen + 2 ^ 32 - data_offset) % 2 ^ 32)
      let s2 := { r.2 with request := upd r.2.request tag (fun q =>
        { q with pending := true, expectedType := MsgType.Rwrite.toByte }) }
      let m1 := set_hdr_type s2.send MsgType.Twrite.toByte
      let m2 := set_hdr_tag m1 tag
      let m3 := set_hdr_length m2 (data_offset + count1)
      let m4 := writeAt m3 7 (le 4 id)
      let m5 := writeAt m4 11 (le 8 offset)
      let m6 := writeAt m5 19 (le 4 count1)
      let m7 := writeAt m6 data_offset (readBytes buf 0 count1)
      (tag, sock_send { s2 with send := m7 })

/-- The function `NineP2000::write_result`. -/
def write_result (s : Session) (tag : Nat) : Int × Session :=
  if !tag_response_type s tag MsgType.Rwrite then (-1, clear_tag s tag)
  else if (s.req tag).expectedType ≠ MsgType.Rwrite.toByte then (-1, clear_tag s tag)
  else ((s.req tag).write_count, clear_tag s tag)

/-- The function `NineP2000::request_create`. `perm` and `mode` follow the name. -/
def request_create (cfg : Config) (s : Session) (id : Nat) (name : List Nat) (dir : Bool) :
    Nat × Session :=
  if !valid_file_id s id then (NOTAG, internal_error s)
  else
    let r := get_free_tag s
    let tag := r.1
    if tag = NOTAG then (NOTAG, r.2)
    else
      let s2 := { r.2 with request := upd r.2.request tag (fun q =>
        { q with pending := true, expectedType := MsgType.Rcreate.toByte }) }
      let m1 := set_hdr_type s2.send MsgType.Tcreate.toByte
      let m2 := set_hdr_tag m1 tag
      let m3 := set_hdr_length m2 (sizeof_header + sizeof_Tcreate)
      let m4 := writeAt m3 7 (le 4 id)
      let perm := 0x1FF ||| (if dir then QTDIR <<< 24 else 0)
      let mode := 0
      let tail_len := 4 + 1
      let a := add_string cfg s2.bufferLen m4 name
      if !a.1 || decide (hdr_length a.2 + tail_len > s2.bufferLen) then
        (NOTAG, clear_tag { s2 with send := a.2 } tag)
      else
        let m5 := writeAt a.2 (hdr_length a.2) (le 4 perm)
        let m6 := set_hdr_length m5 (hdr_length m5 + 4)
        let m7 := writeAt m6 (hdr_length m6) (le 1 mode)
        let m8 := set_hdr_length m7 (hdr_length m7 + 1)
        (tag, sock_send { s2 with send := m8 })

/-- The function `NineP2000::create_result`. -/
def create_result (s : Session) (tag : Nat) : Bool × Session :=
  if !tag_response_type s tag MsgType.Rcreate then (false, clear_tag s tag)
  else ((s.req tag).create_result, clear_tag s tag)

/-- The function `NineP2000::request_remove`. -/
def request_remove (s : Session) (id : Nat) : Nat × Session :=
  if !valid_file_id s id then (NOTAG, internal_error s)
  else
    let r := get_free_tag s
    let tag := r.1
    if tag = NOTAG then (NOTAG, r.2)
    else
      let s2 := { r.2 with request := upd r.2.request tag (fun q =>
        { q with pending := true, expectedType := MsgType.Rremove.toByte }) }
      let m1 := set_hdr_type s2.send MsgType.Tremove.toByte
      let m2 := set_hdr_tag m1 tag
      let m3 := set_hdr_length m2 (sizeof_header + sizeof_Tremove)
      let m4 := writeAt m3 7 (le 4 id)
      (tag, sock_send { s2 with send := m4 })

/-- The function `NineP2000::remove_result`. -/
def remove_result (s : Session) (tag : Nat) : Bool × Session :=
  if !tag_response_type s tag MsgType.Rremove then (false, clear_tag s tag)
  else ((s.req tag).remove_result, clear_tag s tag)

/-- The four `add_string` calls that end a Twstat, left to right, stopping at the
first that fails. -/
def add_strings (cfg : Config) (bufferLen : Nat) : List Nat → List (List Nat) → Bool × List Nat
  | msg, [] => (true, msg)
  | msg, str :: rest =>
    let a := add_string cfg bufferLen msg str
    if a.1 then add_strings cfg bufferLen a.2 rest else (false, a.2)

/-- The function `NineP2000::request_rename`. `send.Twstat.nstat` is the u16 at offset
11 and `send.Twstat.stat` the 41 bytes from offset 13. -/
def request_rename (cfg : Config) (s : Session) (id : Nat) (name : List Nat) : Nat × Session :=
  if !valid_file_id s id then (NOTAG, internal_error s)
  else
    let r := get_free_tag s
    let tag := r.1
    if tag = NOTAG then (NOTAG, r.2)
    else
      let s2 := { r.2 with request := upd r.2.request tag (fun q =>
        { q with pending := true, expectedType := MsgType.Rwstat.toByte }) }
      let m1 := set_hdr_type s2.send MsgType.Twstat.toByte
      let m2 := set_hdr_tag m1 tag
      let m3 := set_hdr_length m2 (sizeof_header + sizeof_Twstat)
      let m4 := writeAt m3 7 (le 4 id)
      let m5 := writeAt m4 11 (le 2 1)
      let m6 := writeAt m5 13 (List.replicate sizeof_stat_t 0xFF)
      let a := add_strings cfg s2.bufferLen m6 [name, cstr "", cstr "", cstr ""]
      if !a.1 then (NOTAG, clear_tag { s2 with send := a.2 } tag)
      else (tag, sock_send { s2 with send := a.2 })

/-- The function `NineP2000::stat_update_result`. -/
def stat_update_result (s : Session) (tag : Nat) : Bool × Session :=
  if !tag_response_type s tag MsgType.Rwstat then (false, clear_tag s tag)
  else ((s.req tag).rwstat_result, clear_tag s tag)

/-- The function `NineP2000::request_set_mtime`. `send.Twstat.stat.mtime` is the u32 at
offset 42. -/
def request_set_mtime (cfg : Config) (s : Session) (id : Nat) (mtime : Nat) : Nat × Session :=
  if !valid_file_id s id then (NOTAG, internal_error s)
  else
    let r := get_free_tag s
    let tag := r.1
    if tag = NOTAG then (NOTAG, r.2)
    else
      let s2 := { r.2 with request := upd r.2.request tag (fun q =>
        { q with pending := true, expectedType := MsgType.Rwstat.toByte }) }
      let m1 := set_hdr_type s2.send MsgType.Twstat.toByte
      let m2 := set_hdr_tag m1 tag
      let m3 := set_hdr_length m2 (sizeof_header + sizeof_Twstat)
      let m4 := writeAt m3 7 (le 4 id)
      let m5 := writeAt m4 11 (le 2 1)
      let m6 := writeAt m5 13 (List.replicate sizeof_stat_t 0xFF)
      let m7 := writeAt m6 42 (le 4 mtime)
      let a := add_strings cfg s2.bufferLen m7 [cstr "", cstr "", cstr "", cstr ""]
      if !a.1 then (NOTAG, clear_tag { s2 with send := a.2 } tag)
      else (tag, sock_send { s2 with send := a.2 })

/-! ## Responses -/

/-- The statement `receive.buffer[string_start + MIN(len, 100)] = 0` of `handle_error`,
`len` being `receive.Rerror.ename_string_len`, the u16 at offset 7. Past the end of
the buffer the write is undefined behaviour. -/
def rerror_terminate (s : Session) : Session :=
  let len := rd s.receive 7 2
  let string_start := sizeof_header + sizeof_Rerror
  let at0 := string_start + min len 100
  if at0 < s.receive.length then { s with receive := s.receive.set at0 0 }
  else { s with fault := true }

/-- The function `NineP2000::handle_error`, on `request[tag]`. -/
def handle_error (s : Session) (tag : Nat) : Session :=
  let s1 := rerror_terminate s
  let e := (s1.req tag).expectedType
  if e = MsgType.Rwalk.toByte then
    { s1 with request := upd s1.request tag (fun q => { q with walk_fileId := 0 }) }
  else if e = MsgType.Ropen.toByte then
    { s1 with request := upd s1.request tag (fun q => { q with open_result := false }) }
  else if e = MsgType.Rcreate.toByte then
    { s1 with request := upd s1.request tag (fun q => { q with create_result := false }) }
  else if e = MsgType.Rread.toByte then
    { s1 with request := upd s1.request tag (fun q => { q with read_count := -1 }) }
  else if e = MsgType.Rwrite.toByte then
    { s1 with request := upd s1.request tag (fun q => { q with write_count := -1 }) }
  else if e = MsgType.Rremove.toByte then
    { s1 with request := upd s1.request tag (fun q => { q with remove_result := false }) }
  else if e = MsgType.Rstat.toByte then
    { s1 with request := upd s1.request tag (fun q => { q with stat_result := false }) }
  else if e = MsgType.Rwstat.toByte then
    { s1 with request := upd s1.request tag (fun q => { q with rwstat_result := false }) }
  else internal_error s1

/-- The two statements `free_file_id(result.walk.fileId); result.walk.fileId = 0;` of
`handle_rwalk`. -/
def rwalk_reject (s : Session) (tag : Nat) : Session :=
  let s1 := free_file_id s (s.req tag).walk_fileId
  { s1 with request := upd s1.request tag (fun q => { q with walk_fileId := 0 }) }

/-- The value of `id_offset` in `handle_rwalk`: `num_ids - 1` is an `int`, converted to
`size_t` by the product (32 bits here; the result is reduced to 16 bits, so the width
of `size_t` does not show). -/
def rwalk_id_offset (num_ids : Nat) : Nat :=
  (sizeof_header + sizeof_Rwalk + ((num_ids + 2 ^ 32 - 1) % 2 ^ 32) * sizeof_qid_t) % 2 ^ 32 % 65536

/-- The function `NineP2000::handle_rwalk`, on `request[tag]`. `receive.Rwalk.nwqid` is
the u16 at offset 7. -/
def handle_rwalk (s : Session) (tag : Nat) : Session :=
  let num_ids := rd s.receive 7 2
  if num_ids = 0 ∧ (s.req tag).walk_type ≠ walkType.Directory then rwalk_reject s tag
  else
    let id_offset := rwalk_id_offset num_ids
    if hdr_length s.receive ≠ id_offset + sizeof_qid_t then rwalk_reject s tag
    else if (s.req tag).walk_type ≠ walkType.Any then
      let qid_type := rd s.receive id_offset 1
      let expected_type := if (s.req tag).walk_type = walkType.Directory then QTDIR else QTFILE
      if qid_type ≠ expected_type then rwalk_reject s tag
      else s
    else s

/-- The call `strncpy(dest, src, n)`: the `n` bytes it writes, the bytes of `src`
up to its first zero and zeros after. -/
def strncpy (src : List Nat) : Nat → List Nat
  | 0 => []
  | n + 1 =>
    if src.headD 0 % 256 = 0 then List.replicate (n + 1) 0
    else src.headD 0 :: strncpy src.tail n

/-- The function `NineP2000::handle_dir_Rread`, on `request[tag]`. The stat starts at
offset 11: `msg_size` is the u16 there, `qid.type` the byte at offset 19, and the
length of the name the u16 at `stat_end`. -/
def handle_dir_Rread (cfg : Config) (s : Session) (tag : Nat) : Session :=
  match (s.req tag).read_dir with
  | none => s
  | some d =>
    let stat_end := (sizeof_header + sizeof_Rread + sizeof_stat_t) % 65536
    if hdr_length s.receive < stat_end then s
    else
      let stat_len := (rd s.receive 11 2 + 2) % 65536
      if hdr_length s.receive < sizeof_Rread + stat_len then s
      else
        let qid_type := rd s.receive 19 1
        if qid_type ≠ QTFILE ∧ qid_type ≠ QTDIR then s
        else
          let name_len := rd s.receive stat_end 2
          let n := min cfg.dNameSize name_len
          let name := strncpy (s.receive.drop (stat_end + 2)) n
          let d_name := name ++ List.replicate (cfg.dNameSize - n) 0
          let d_type := if qid_type = QTFILE then cfg.DT_REG else cfg.DT_DIR
          { s with
            dirents := upd s.dirents d (fun _ => { d_name := d_name, d_type := d_type }),
            request := upd s.request tag (fun q => { q with read_count := (stat_len : Int) }) }

/-- The function `NineP2000::handle_file_Rread`, on `request[tag]`. `receive.Rread.count`
is the u32 at offset 7. -/
def handle_file_Rread (s : Session) (tag : Nat) : Session :=
  match (s.req tag).read_buf with
  | none => { s with request := upd s.request tag (fun q => { q with read_count := -1 }) }
  | some b =>
    if rd s.receive 7 4 > toUInt32 (s.req tag).read_count then
      { s with request := upd s.request tag (fun q => { q with read_count := -1 }) }
    else
      let count := toInt32 (rd s.receive 7 4)
      let data := readBytes s.receive (sizeof_header + sizeof_Rread) (toUInt32 count)
      { s with
        request := upd s.request tag (fun q => { q with read_count := count }),
        bufs := upd s.bufs b (fun old => data ++ old.drop data.length) }

/-- The function `NineP2000::handle_Rstat`, on `request[tag]`. The stat starts at offset
9: `qid.type` is the byte at offset 17, `atime` and `mtime` the u32 at 34 and 38, and
`length` the u64 at 42. A null `stbuf` is dereferenced. -/
def handle_Rstat (cfg : Config) (s : Session) (tag : Nat) : Session :=
  let mode := rd s.receive 17 1
  let st_mode :=
    if mode = QTFILE then cfg.S_IFREG else if mode = QTDIR then cfg.S_IFDIR else 0
  let st : StatBuf :=
    { st_size := rd s.receive 42 8, st_atime := rd s.receive 34 4,
      st_mtime := rd s.receive 38 4, st_mode := st_mode }
  let s1 :=
    match (s.req tag).stat_stbuf with
    | none => { s with fault := true }
    | some p => { s with stats := upd s.stats p (fun _ => st) }
  { s1 with request := upd s1.request tag (fun q => { q with stat_result := true }) }

/-- The inner `switch (msg_type)` of `parse`, on `request[tag]`. -/
def handle_reply (cfg : Config) (s : Session) (t : MsgType) (tag : Nat) : Session :=
  match t with
  | .Rerror => handle_error s tag
  | .Rwalk => handle_rwalk s tag
  | .Ropen =>
    { s with request := upd s.request tag (fun q =>
      { q with open_result := decide (hdr_length s.receive = sizeof_header + sizeof_Ropen) }) }
  | .Rcreate =>
    { s with request := upd s.request tag (fun q =>
      { q with create_result := decide (hdr_length s.receive = sizeof_header + sizeof_Rcreate) }) }
  | .Rread =>
    if (s.req tag).read_is_dir then handle_dir_Rread cfg s tag else handle_file_Rread s tag
  | .Rwrite =>
    if hdr_length s.receive = sizeof_header + sizeof_Rwrite then
      { s with request := upd s.request tag (fun q =>
        { q with write_count := toInt32 (rd s.receive 7 4) }) }
    else s
  | .Rremove =>
    { s with request := upd s.request tag (fun q =>
      { q with remove_result := decide (hdr_length s.receive = sizeof_header) }) }
  | .Rstat => handle_Rstat cfg s tag
  | .Rwstat =>
    { s with request := upd s.request tag (fun q =>
      { q with rwstat_result := decide (hdr_length s.receive = sizeof_header) }) }
  | _ => internal_error s

/-- The `case` of `parse` shared by Rerror, Rwalk, Ropen, Rcreate, Rread, Rwrite,
Rremove, Rstat and Rwstat. The flag is true when the case ends in `return`. -/
def parse_reply (cfg : Config) (s : Session) (t : MsgType) : Session × Bool :=
  if s.state ≠ State.Mounted then (internal_error s, true)
  else
    let tag := hdr_tag s.receive
    if tag ≥ s.request.length || !(s.req tag).pending then (internal_error s, true)
    else if t ≠ MsgType.Rerror ∧ (s.req tag).expectedType ≠ t.toByte then
      (internal_error s, true)
    else
      let s1 := handle_reply cfg s t tag
      ({ s1 with request := upd s1.request tag (fun q => { q with pending := false }) }, false)

/-- The `switch (msg_type)` of `parse`. The flag is true when the case taken ends in
`return`, so that the bytes after the frame are not looked at. -/
def dispatch (cfg : Config) (s : Session) : Session × Bool :=
  match MsgType.ofByte (hdr_type s.receive) with
  | none => (s, false)
  | some .Rversion =>
    (handle_version cfg (if s.state ≠ State.Version then internal_error s else s), false)
  | some .Rattach =>
    (handle_attach (if s.state ≠ State.Attach then internal_error s else s), false)
  | some .Rauth => (s, false)
  | some .Rflush => (s, false)
  | some .Rclunk =>
    let tag := hdr_tag s.receive
    if tag ≥ s.request.length || !(s.req tag).pending then (internal_error s, true)
    else if (s.req tag).expectedType ≠ MsgType.Rclunk.toByte then (internal_error s, true)
    else (clear_tag (clear_file_id s (s.req tag).clunk_fileId) tag, false)
  | some .Rerror => parse_reply cfg s .Rerror
  | some .Rwalk => parse_reply cfg s .Rwalk
  | some .Ropen => parse_reply cfg s .Ropen
  | some .Rcreate => parse_reply cfg s .Rcreate
  | some .Rread => parse_reply cfg s .Rread
  | some .Rwrite => parse_reply cfg s .Rwrite
  | some .Rremove => parse_reply cfg s .Rremove
  | some .Rstat => parse_reply cfg s .Rstat
  | some .Rwstat => parse_reply cfg s .Rwstat
  | some _ => (internal_error s, false)

/-- One activation of `NineP2000::parse(len)` up to its recursive call: the session
it leaves, and the argument of the recursive call when it makes one. -/
def parse_frame (cfg : Config) (s : Session) (len : Nat) : Session × Option Nat :=
  if len < hdr_length s.receive then (s, none)
  else if hdr_length s.receive > s.bufferLen then (s, none)
  else
    let r := dispatch cfg s
    if r.2 then (r.1, none)
    else if hdr_length r.1.receive ≥ len then (r.1, none)
    else
      let remaining := (len - hdr_length r.1.receive) % 65536
      let moved := writeAt r.1.receive 0 (readBytes r.1.receive (hdr_length r.1.receive) remaining)
      ({ r.1 with receive := moved }, some remaining)

/-- The function `NineP2000::parse`, with fuel for its recursion: `none` when the fuel
runs out before the recursion ends. -/
def parse (cfg : Config) : Nat → Session → Nat → Option Session
  | 0, _, _ => none
  | fuel + 1, s, len =>
    match (parse_frame cfg s len).2 with
    | none => some (parse_frame cfg s len).1
    | some remaining => parse cfg fuel (parse_frame cfg s len).1 remaining

/-- The function `NineP2000::mounted`. -/
def mounted (s : Session) : Bool := s.connected && (s.state == State.Mounted)

/-- What `sock->recv(receive.buffer, sizeof(receive.buffer), 0)` returns. -/
inductive Recv where
  | closed
  | nothing
  | data (bytes : List Nat)
  deriving DecidableEq, Repr

/-- The function `NineP2000::update`, which `loop` calls with the socket there:
`sock->recv` has put `bytes` at the start of the receive buffer, at most
`sizeof(receive.buffer)` of them, and a length of 0 is a closed connection. -/
def update (cfg : Config) (fuel : Nat) (s : Session) : Recv → Option (Session × Bool)
  | .closed => some ({ s with sock := false }, false)
  | .nothing => some (s, false)
  | .data bytes =>
    let got := bytes.take cfg.msgSize
    if got.length = 0 then some ({ s with sock := false }, false)
    else match parse cfg fuel { s with receive := writeAt s.receive 0 got } got.length with
    | none => none
    | some s1 => some (s1, true)

/-! ## Example sessions -/

/-- A platform with a 128-byte `Message` and POSIX constants. -/
def cfg0 : Config :=
  { msgSize := 128, dNameSize := 16, O_RDWR := 2, O_WRONLY := 1,
    DT_REG := 8, DT_DIR := 4, S_IFREG := 0x8000, S_IFDIR := 0x4000 }

/-- A zero-initialised object with `nt` tag slots and `nf` FID slots, connected. -/
def fresh (cfg : Config) (nt nf : Nat) : Session :=
  { state := State.Version, bufferLen := 0,
    request := List.replicate nt Request.zero,
    fileIds := List.replicate nf FileId.zero,
    send := List.replicate cfg.msgSize 0,
    receive := List.replicate cfg.msgSize 0,
    connected := true, sock := true,
    bufs := [], dirents := [], stats := [],
    sent := [], internal_errors := 0, fault := false }

/-- A frame: header with `length`, `type` and `tag`, then the body. -/
def frame (type : MsgType) (tag : Nat) (body : List Nat) : List Nat :=
  le 4 (sizeof_header + body.length) ++ [type.toByte] ++ le 2 tag ++ body

/-- A string on the wire: u16 length, then the bytes. -/
def wire_string (str : List Nat) : List Nat := le 2 str.length ++ str

/-- The session after `request_version` on the fresh object with 4 tags and 4 FIDs. -/
def s_version : Session := request_version cfg0 (fresh cfg0 4 4)

/-- The session `s_version` after receiving bytes with `update`, when the fuel
suffices, and the same session otherwise. -/
def recv_frame (cfg : Config) (s : Session) (bytes : List Nat) : Session :=
  match update cfg 4 s (Recv.data bytes) with
  | some r => r.1
  | none => s

/-- The session after the server accepted the version with `msize = 64`. -/
def s_attach : Session :=
  recv_frame cfg0 s_version (frame .Rversion NOTAG (le 4 64 ++ wire_string (cstr "9P2000")))

/-- The session after the server answered the attach with a directory qid. -/
def s_mounted : Session :=
  recv_frame cfg0 s_attach (frame .Rattach 4 (QTDIR :: List.replicate 12 0))

/-! ## Frames on the socket -/

/-- A frame whose `header.length` is at most `b` and is the number of bytes sent. -/
def FrameOK (b : Nat) (f : List Nat) : Prop := hdr_length f ≤ b ∧ f.length = hdr_length f

/-- From `s` to `s'` the socket was given only frames that are `FrameOK b`, after
those `s` had sent. -/
def SentWithin (b : Nat) (s s' : Session) : Prop :=
  ∃ new, s'.sent = s.sent ++ new ∧ ∀ f ∈ new, FrameOK b f

/-- From `s` to `s'` the send buffer kept its size, `bufferLen` its value, and the
frames sent are `FrameOK b`. -/
def Eff (b : Nat) (s s' : Session) : Prop :=
  s'.send.length = s.send.length ∧ s'.bufferLen = s.bufferLen ∧ SentWithin b s s'

/-- The send buffer has `sizeof(Message)` bytes and `bufferLen` lies between the 32
of `request_version` and `sizeof(Message)`. -/
def Inv (cfg : Config) (s : Session) : Prop :=
  s.send.length = cfg.msgSize ∧ 32 ≤ s.bufferLen ∧ s.bufferLen ≤ cfg.msgSize

/-- One step of a session: bytes arrive, `parse` runs (whole, or one activation
of it), or a caller uses the request interface. -/
inductive Step (cfg : Config) : Session → Session → Prop
  | update (s : Session) (fuel : Nat) (r : Recv) (s' : Session) (active : Bool) :
      update cfg fuel s r = some (s', active) → Step cfg s s'
  | recv (s : Session) (bytes : List Nat) :
      Step cfg s { s with receive := writeAt s.receive 0 bytes }
  | parse_frame (s : Session) (len : Nat) : Step cfg s (parse_frame cfg s len).1
  | request_version (s : Session) : Step cfg s (request_version cfg s)
  | request_walk (s : Session) (path : List Nat) (type : walkType) :
      Step cfg s (request_walk s path type).2
  | request_open (s : Session) (id flags : Nat) : Step cfg s (request_open cfg s id flags).2
  | request_create (s : Session) (id : Nat) (name : List Nat) (dir : Bool) :
      Step cfg s (request_create cfg s id name dir).2
  | request_file_read (s : Session) (id offset count : Nat) (buf : Option Nat) :
      Step cfg s (request_file_read s id offset count buf).2
  | request_dir_read (s : Session) (id offset : Nat) (de : Option Nat) :
      Step cfg s (request_dir_read s id offset de).2
  | request_write (s : Session) (id offset count : Nat) (buf : List Nat) :
      Step cfg s (request_write s id offset count buf).2
  | request_remove (s : Session) (id : Nat) : Step cfg s (request_remove s id).2
  | request_stat (s : Session) (id : Nat) (stbuf : Option Nat) :
      Step cfg s (request_stat s id stbuf).2
  | request_rename (s : Session) (id : Nat) (name : List Nat) :
      Step cfg s (request_rename cfg s id name).2
  | request_set_mtime (s : Session) (id mtime : Nat) :
      Step cfg s (request_set_mtime cfg s id mtime).2
  | free_file_id (s : Session) (id : Nat) : Step cfg s (free_file_id s id)
  | clear_tag (s : Session) (tag : Nat) : Step cfg s (clear_tag s tag)
  | walk_result (s : Session) (tag : Nat) : Step cfg s (walk_result s tag).2
  | open_result (s : Session) (tag : Nat) : Step cfg s (open_result s tag).2
  | create_result (s : Session) (tag : Nat) : Step cfg s (create_result s tag).2
  | read_result (s : Session) (tag : Nat) (is_dir : Bool) :
      Step cfg s (read_result s tag is_dir).2
  | write_result (s : Session) (tag : Nat) : Step cfg s (write_result s tag).2
  | remove_result (s : Session) (tag : Nat) : Step cfg s (remove_result s tag).2
  | stat_result (s : Session) (tag : Nat) : Step cfg s (stat_result s tag).2
  | stat_update_result (s : Session) (tag : Nat) : Step cfg s (stat_update_result s tag).2

/-- The sessions reached from `request_version()`, called on an object whose send
buffer has `sizeof(Message)` bytes, by any sequence of steps. -/
inductive Reachable (cfg : Config) : Session → Prop
  | init (s0 : Session) : s0.send.length = cfg.msgSize → Reachable cfg (request_version cfg s0)
  | step (s s' : Session) : Reachable cfg s → Step cfg s s' → Reachable cfg s'

/-- Modelled from the spec: `NOFID`, the 9P2000 value for "no fid" (it does not occur
in the source file). -/
def NOFID : Nat := 0xFFFFFFFF

/-- The mounted example session after `walk("data/log.bin", File)` was sent, answered
with two qids (the last a file) and collected: FID 1 is valid and every tag is free. -/
def s_walked : Session :=
  let s1 := (request_walk s_mounted (cstr "data/log.bin") walkType.File).2
  let s2 := recv_frame cfg0 s1
    (frame .Rwalk 0 (le 2 2 ++ (QTDIR :: List.replicate 12 0) ++ (QTFILE :: List.replicate 12 0)))
  (walk_result s2 0).2

/-- The mounted example session after `walk("", Directory)` was sent. -/
def s_walk_root : Session := (request_walk s_mounted (cstr "") walkType.Directory).2

/-- From `s` to `s'` nothing was given to the socket, and the send buffer, the tag
table, the FID table, the state and `bufferLen` are the same. -/
def Untouched (s s' : Session) : Prop :=
  s'.sent = s.sent ∧ s'.send = s.send ∧ s'.request = s.request ∧ s'.fileIds = s.fileIds ∧
    s'.state = s.state ∧ s'.bufferLen = s.bufferLen ∧ s'.fault = s.fault

/-- Every entry point refuses in session `s`: `get_free_tag` and each `request_*`
return NOTAG and, like `free_file_id`, leave the socket, the send buffer and both
tables as they are. -/
def Refused (cfg : Config) (s : Session) : Prop :=
    get_free_tag s = (NOTAG, s) ∧
    (∀ path type, (request_walk s path type).1 = NOTAG ∧
      Untouched s (request_walk s path type).2) ∧
    (∀ id flags, (request_open cfg s id flags).1 = NOTAG ∧
      Untouched s (request_open cfg s id flags).2) ∧
    (∀ id name dir, (request_create cfg s id name dir).1 = NOTAG ∧
      Untouched s (request_create cfg s id name dir).2) ∧
    (∀ id offset count buf, (request_file_read s id offset count buf).1 = NOTAG ∧
      Untouched s (request_file_read s id offset count buf).2) ∧
    (∀ id offset de, (request_dir_read s id offset de).1 = NOTAG ∧
      Untouched s (request_dir_read s id offset de).2) ∧
    (∀ id offset count buf, (request_write s id offset count buf).1 = NOTAG ∧
      Untouched s (request_write s id offset count buf).2) ∧
    (∀ id, (request_remove s id).1 = NOTAG ∧ Untouched s (request_remove s id).2) ∧
    (∀ id stbuf, (request_stat s id stbuf).1 = NOTAG ∧
      Untouched s (request_stat s id stbuf).2) ∧
    (∀ id name, (request_rename cfg s id name).1 = NOTAG ∧
      Untouched s (request_rename cfg s id name).2) ∧
    (∀ id mtime, (request_set_mtime cfg s id mtime).1 = NOTAG ∧
      Untouched s (request_set_mtime cfg s id mtime).2) ∧
    (∀ id, Untouched s (free_file_id s id))

/-- The first `L` bytes of message `m` are a frame: the length field `L` and then
`body` (type, tag and message body). -/
def Framed (m : List Nat) (L : Nat) (body : List Nat) : Prop :=
  L ≤ m.length ∧ L < 2 ^ 32 ∧ m.take L = le 4 L ++ body

/-- The path made of the given segments joined by single `/` (byte 47): no leading,
trailing or doubled slash when every segment is non-empty. -/
def join_path : List (List Nat) → List Nat
  | [] => []
  | [seg] => seg
  | seg :: next :: rest => seg ++ 47 :: join_path (next :: rest)

/-! ## The worker -/

/-- The body of the `while (true)` of `NineP2000::loop` up to the call of `update`.
`alloc` says whether `NEW_NOTHROW SocketAPM` gave a socket and `conn` what
`sock->connect` returned; the flag is true when the pass ends in `continue`. -/
def loop_connect (cfg : Config) (s : Session) (alloc conn : Bool) : Session × Bool :=
  if !s.sock && !alloc then (s, true)
  else
    let s1 := if !s.sock then { s with sock := true, connected := false } else s
    if !s1.connected then
      if !conn then ({ s1 with connected := false, sock := false }, true)
      else
        let s2 := { s1 with
          connected := true,
          receive := List.replicate s1.receive.length 0,
          fileIds := List.replicate s1.fileIds.length FileId.zero }
        (request_version cfg s2, false)
    else (s1, false)

/-- One pass of the `while (true)` of `NineP2000::loop`: `loop_connect`, then
`active = update()` with `r` what `sock->recv` returns. -/
def loop_pass (cfg : Config) (fuel : Nat) (s : Session) (alloc conn : Bool) (r : Recv) :
    Option Session :=
  if (loop_connect cfg s alloc conn).2 then some (loop_connect cfg s alloc conn).1
  else (update cfg fuel (loop_connect cfg s alloc conn).1 r).map Prod.fst

/-- The mounted example session with a walk in flight (tag 0 pending, FID 1 taken),
after `update` saw the peer close the connection. -/
def s_closed : Session := { s_walk_root with sock := false }

/-- The mounted example session after four tags were handed out and none collected. -/
def s_full : Session :=
  (get_free_tag (get_free_tag (get_free_tag (get_free_tag s_mounted).2).2).2).2

/-- The session once `sock->recv` has put `bytes` at the start of the receive buffer,
as `update` hands it to `parse`. -/
def received (s : Session) (bytes : List Nat) : Session :=
  { s with receive := writeAt s.receive 0 bytes }

/-- The mounted example session after `walk("data/log.bin", File)` was sent: tag 0 is
pending for the Rwalk and FID 1 is the new file id. -/
def s_walk_file : Session := (request_walk s_mounted (cstr "data/log.bin") walkType.File).2

/-- The mounted example session after `walk("data", Directory)` was sent. -/
def s_walk_dir : Session := (request_walk s_mounted (cstr "data") walkType.Directory).2

/-- An Rwalk for tag 0 with two qids: a directory, then one of type `last`. -/
def rwalk_two (last : Nat) : List Nat :=
  frame .Rwalk 0 (le 2 2 ++ (QTDIR :: List.replicate 12 0) ++ (last :: List.replicate 12 0))

/-- An Rwalk for tag 0 with one qid of type `last`. -/
def rwalk_one (last : Nat) : List Nat :=
  frame .Rwalk 0 (le 2 1 ++ (last :: List.replicate 12 0))

/-- An Rerror for tag 0 with the text "not found". -/
def rerror_not_found : List Nat := frame .Rerror 0 (wire_string (cstr "not found"))

/-- The example session with FID 1 valid after `request_file_read(1, 0, 8, buf)` was
sent on tag 0, `buf` being an 8-byte destination. -/
def s_reading : Session :=
  (request_file_read { s_walked with bufs := [List.replicate 8 0xEE] } 1 0 8 (some 0)).2

/-- An Rread for tag 0 with the five bytes "hello". -/
def rread_hello : List Nat := frame .Rread 0 (le 4 5 ++ cstr "hello")

/-- The example session with FID 1 valid after `request_dir_read(1, 0, de)` was sent
on tag 0, `de` being the caller's entry. -/
def s_dir_reading : Session :=
  (request_dir_read { s_walked with dirents := [{ d_name := [], d_type := 0 }] } 1 0 (some 0)).2

/-- An Rread for tag 0 with the stat of a directory called "logs" (stat of 53 bytes:
the fixed 41, the name and three empty strings). -/
def rread_stat_logs : List Nat :=
  frame .Rread 0 (le 4 53 ++ (le 2 51 ++ le 2 0 ++ le 4 0 ++ (QTDIR :: List.replicate 12 0) ++
    le 4 0 ++ le 4 0 ++ le 4 0 ++ le 8 0 ++ wire_string (cstr "logs") ++ wire_string [] ++
    wire_string [] ++ wire_string []))

/-- An Ropen for tag 3 (qid and iounit zero). -/
def ropen_tag3 : List Nat := frame .Ropen 3 (List.replicate 17 0)

/-- An Rstat for tag 0 with the stat of a file of 1234 bytes, atime 1000 and mtime
2000 (stat of 49 bytes: the fixed 41 and four empty strings). -/
def rstat_file : List Nat :=
  frame .Rstat 0 (le 2 49 ++ (le 2 47 ++ le 2 0 ++ le 4 0 ++ (QTFILE :: List.replicate 12 0) ++
    le 4 0 ++ le 4 1000 ++ le 4 2000 ++ le 8 1234 ++ wire_string [] ++ wire_string [] ++
    wire_string [] ++ wire_string []))

/-- A zeroed `struct stat`. -/
def StatBuf.zero : StatBuf := { st_size := 0, st_atime := 0, st_mtime := 0, st_mode := 0 }

/-- The example session with FID 1 valid after `request_stat(1, st0)` was sent on tag
0, the caller holding two zeroed `struct stat`. -/
def s_stat : Session :=
  (request_stat { s_walked with stats := [StatBuf.zero, StatBuf.zero] } 1 (some 0)).2

/-- The session `s_stat` after the Rstat `rstat_file` was handled and collected with
`stat_result`, and `request_stat(1, st1)` was sent, again on tag 0. -/
def s_stat_again : Session :=
  (request_stat (stat_result (recv_frame cfg0 s_stat rstat_file) 0).2 1 (some 1)).2

/-- One failed walk: `walk("data/log.bin", File)` is sent, answered by the Rerror
"not found" and collected with `walk_result`. -/
def failed_walk (s : Session) : Session :=
  (walk_result (recv_frame cfg0 (request_walk s (cstr "data/log.bin") walkType.File).2
    rerror_not_found) 0).2

/-- The mounted example session after `walk("data/log.bin", Any)` was sent: tag 0 is
pending for the Rwalk, FID 1 is the new file id and the Twalk carries two names. -/
def s_walk_any : Session := (request_walk s_mounted (cstr "data/log.bin") walkType.Any).2

/-- The mounted example session after `walk("data/logs", Directory)` was sent. -/
def s_walk_dir_two : Session :=
  (request_walk s_mounted (cstr "data/logs") walkType.Directory).2

/-- The example session with FID 1 valid after `free_file_id(1)`: the Tclunk was sent
on tag 0. -/
def s_clunking : Session := free_file_id s_walked 1

/-- A platform like `cfg0` whose `d_name` has 4 bytes. -/
def cfg_short : Config := { cfg0 with dNameSize := 4 }

/-- The session `s_reading` after the Rread with "hello" was handled and collected
with `read_result`, and `request_file_read(1, 5, 8, buf)` was sent, again on tag 0. -/
def s_read_again : Session :=
  (request_file_read (read_result (recv_frame cfg0 s_reading rread_hello) 0 false).2
    1 5 8 (some 0)).2

/-- The session `s_reading` after `request_open(1, 0)` was sent as well: tag 0 is
pending for the Rread and tag 1 for the Ropen. -/
def s_read_open : Session := (request_open cfg0 s_reading 1 0).2

/-- An Ropen for tag 1 (qid and iounit zero). -/
def ropen_tag1 : List Nat := frame .Ropen 1 (List.replicate 17 0)

/-- An Rread for tag 0 whose 7 data bytes are those of a bare Rerror header for
tag 0. -/
def rread_forged : List Nat := frame .Rread 0 (le 4 7 ++ frame .Rerror 0 [])

/-! # Proofs -/

/-! ## Bytes -/

set_option maxRecDepth 100000
set_option maxHeartbeats 1000000

@[simp] theorem length_writeAt (buf : List Nat) (off : Nat) (bs : List Nat) :
    (writeAt buf off bs).length = buf.length := by
  induction bs generalizing buf off with
  | nil => rfl
  | cons b bs ih => simp [writeAt, ih]

theorem getD_writeAt (buf : List Nat) (off : Nat) (bs : List Nat) (i : Nat) :
    (writeAt buf off bs).getD i 0 =
      if off ≤ i ∧ i < off + bs.length ∧ i < buf.length then bs.getD (i - off) 0
      else buf.getD i 0 := by
  induction bs generalizing buf off with
  | nil =>
    have : ¬ (off ≤ i ∧ i < off + ([] : List Nat).length ∧ i < buf.length) := by simp; omega
    rw [if_neg this]; rfl
  | cons b bs ih =>
    simp only [writeAt, ih, List.length_set, List.length_cons]
    by_cases h1 : off + 1 ≤ i ∧ i < off + 1 + bs.length ∧ i < buf.length
    · obtain ⟨ha, hb, hc⟩ := h1
      have h2 : off ≤ i ∧ i < off + (bs.length + 1) ∧ i < buf.length := ⟨by omega, by omega, hc⟩
      rw [if_pos ⟨ha, hb, hc⟩, if_pos h2]
      have : i - off = (i - (off + 1)) + 1 := by omega
      rw [this]; simp
    · rw [if_neg h1]
      by_cases h3 : i = off
      · subst h3
        by_cases h4 : i < buf.length
        · rw [if_pos ⟨le_refl _, by omega, h4⟩]
          simp [List.getD, h4]
        · rw [if_neg (by omega)]
          simp [List.getD]
          rw [List.getElem?_eq_none (by simp; omega), List.getElem?_eq_none (by omega)]
      · rw [if_neg (by omega)]
        simp [List.getD, List.getElem?_set, Ne.symm h3]


@[simp] theorem length_le (n v : Nat) : (le n v).length = n := by
  induction n generalizing v with
  | zero => rfl
  | succ n ih => simp [le, ih]

theorem rd_congr (a b : List Nat) (off n : Nat)
    (h : ∀ i, off ≤ i → i < off + n → a.getD i 0 = b.getD i 0) : rd a off n = rd b off n := by
  induction n generalizing off with
  | zero => rfl
  | succ n ih =>
    simp only [rd]
    rw [h off (le_refl _) (by omega), ih (off + 1) (fun i h1 h2 => h i (by omega) (by omega))]

theorem rd_writeAt_disjoint (buf : List Nat) (off1 : Nat) (bs : List Nat) (off2 n : Nat)
    (h : off2 + n ≤ off1 ∨ off1 + bs.length ≤ off2) :
    rd (writeAt buf off1 bs) off2 n = rd buf off2 n := by
  apply rd_congr
  intro i h1 h2
  rw [getD_writeAt, if_neg (by omega)]

theorem rd_lt (buf : List Nat) (off n : Nat) : rd buf off n < 256 ^ n := by
  induction n generalizing off with
  | zero => simp [rd]
  | succ n ih =>
    simp only [rd]
    have h1 := ih (off + 1)
    have h2 : buf.getD off 0 % 256 < 256 := Nat.mod_lt _ (by norm_num)
    rw [pow_succ]; omega

theorem rd_le_append (n v : Nat) (rest : List Nat) : rd (le n v ++ rest) 0 n = v % 256 ^ n := by
  induction n generalizing v with
  | zero => simp [rd, Nat.mod_one]
  | succ n ih =>
    simp only [rd, le, List.cons_append]
    have h1 : rd ((v % 256) :: (le n (v / 256) ++ rest)) (0 + 1) n = rd (le n (v / 256) ++ rest) 0 n := by
      clear ih
      generalize le n (v / 256) ++ rest = l
      generalize (0:Nat) = o
      induction n generalizing o with
      | zero => rfl
      | succ n ih2 =>
        simp only [rd]
        rw [ih2 (o + 1)]
        simp [List.getD]
    rw [h1, ih]
    simp only [List.getD_cons_zero, Nat.mod_mod]
    rw [pow_succ, mul_comm (256 ^ n) 256, Nat.mod_mul]


theorem ext_getD (a b : List Nat) (hl : a.length = b.length)
    (h : ∀ i, i < a.length → a.getD i 0 = b.getD i 0) : a = b := by
  apply List.ext_getElem hl
  intro i h1 h2
  have := h i h1
  simpa [List.getD, h1, h2] using this

theorem writeAt_eq (buf : List Nat) (off : Nat) (bs : List Nat) (h : off + bs.length ≤ buf.length) :
    writeAt buf off bs = buf.take off ++ bs ++ buf.drop (off + bs.length) := by
  apply ext_getD
  · simp; omega
  · intro i hi
    rw [getD_writeAt]
    simp only [length_writeAt] at hi
    by_cases h1 : off ≤ i ∧ i < off + bs.length ∧ i < buf.length
    · rw [if_pos h1]
      simp only [List.getD_eq_getElem?_getD, List.append_assoc]
      rw [List.getElem?_append_right (by simp; omega)]
      rw [List.getElem?_append_left (by simp; omega)]
      simp
      congr 2
      omega
    · rw [if_neg h1]
      simp only [List.getD_eq_getElem?_getD, List.append_assoc]
      by_cases h2 : i < off
      · rw [List.getElem?_append_left (by simp; omega)]
        simp [List.getElem?_take, h2]
      · rw [List.getElem?_append_right (by simp; omega)]
        rw [List.getElem?_append_right (by simp; omega)]
        simp
        congr 2
        omega

theorem rd_append_right (a b : List Nat) (o n : Nat) : rd (a ++ b) (a.length + o) n = rd b o n := by
  induction n generalizing o with
  | zero => rfl
  | succ n ih =>
    simp only [rd]
    rw [← ih (o + 1)]
    simp [List.getD_eq_getElem?_getD, List.getElem?_append_right, Nat.add_assoc]

theorem rd_take (buf : List Nat) (k off n : Nat) (h : off + n ≤ k) :
    rd (buf.take k) off n = rd buf off n := by
  apply rd_congr
  intro i h1 h2
  simp [List.getD_eq_getElem?_getD, List.getElem?_take, show i < k by omega]

theorem rd_writeAt_same (buf : List Nat) (off n v : Nat) (h : off + n ≤ buf.length) :
    rd (writeAt buf off (le n v)) off n = v % 256 ^ n := by
  rw [writeAt_eq _ _ _ (by simpa using h), List.append_assoc]
  have := rd_append_right (buf.take off) (le n v ++ buf.drop (off + (le n v).length)) 0 n
  simp only [List.length_take, Nat.add_zero, min_eq_left (show off ≤ buf.length by omega)] at this
  rw [this, rd_le_append]

theorem hdr_length_writeAt (m : List Nat) (off : Nat) (bs : List Nat) (h : 4 ≤ off) :
    hdr_length (writeAt m off bs) = hdr_length m :=
  rd_writeAt_disjoint _ _ _ _ _ (Or.inl (by omega))

theorem hdr_length_set_hdr_type (m : List Nat) (v : Nat) :
    hdr_length (set_hdr_type m v) = hdr_length m :=
  hdr_length_writeAt _ _ _ (le_refl _)

theorem hdr_length_set_hdr_tag (m : List Nat) (v : Nat) :
    hdr_length (set_hdr_tag m v) = hdr_length m :=
  hdr_length_writeAt _ _ _ (by norm_num)

theorem hdr_length_set_hdr_length (m : List Nat) (v : Nat) (h : 4 ≤ m.length) :
    hdr_length (set_hdr_length m v) = v % 2 ^ 32 := by
  have := rd_writeAt_same m 0 4 v (by omega)
  simpa [hdr_length, set_hdr_length] using this

@[simp] theorem length_set_hdr_length (m : List Nat) (v : Nat) :
    (set_hdr_length m v).length = m.length := length_writeAt _ _ _

@[simp] theorem length_set_hdr_type (m : List Nat) (v : Nat) :
    (set_hdr_type m v).length = m.length := length_writeAt _ _ _

@[simp] theorem length_set_hdr_tag (m : List Nat) (v : Nat) :
    (set_hdr_tag m v).length = m.length := length_writeAt _ _ _

/-! ## Frames within the negotiated size -/

theorem sentWithin_refl (b : Nat) (s : Session) : SentWithin b s s := ⟨[], by simp, by simp⟩

theorem sentWithin_same {b : Nat} {s s' : Session} (h : s'.sent = s.sent) : SentWithin b s s' :=
  ⟨[], by simp [h], by simp⟩

theorem sentWithin_trans {b : Nat} {s1 s2 s3 : Session} (h1 : SentWithin b s1 s2)
    (h2 : SentWithin b s2 s3) : SentWithin b s1 s3 := by
  obtain ⟨n1, e1, f1⟩ := h1
  obtain ⟨n2, e2, f2⟩ := h2
  refine ⟨n1 ++ n2, by rw [e2, e1, List.append_assoc], ?_⟩
  intro f hf
  rcases List.mem_append.mp hf with h | h
  · exact f1 f h
  · exact f2 f h

theorem sentWithin_mono {b c : Nat} {s1 s2 : Session} (h1 : SentWithin b s1 s2) (h : b ≤ c) :
    SentWithin c s1 s2 := by
  obtain ⟨n1, e1, f1⟩ := h1
  exact ⟨n1, e1, fun f hf => ⟨le_trans (f1 f hf).1 h, (f1 f hf).2⟩⟩

theorem frameOK_take (m : List Nat) (b : Nat) (h1 : 4 ≤ hdr_length m) (h2 : hdr_length m ≤ b)
    (h3 : hdr_length m ≤ m.length) : FrameOK b (m.take (hdr_length m)) := by
  have h : hdr_length (m.take (hdr_length m)) = hdr_length m := rd_take _ _ _ _ (by omega)
  exact ⟨by rw [h]; exact h2, by rw [h, List.length_take]; omega⟩

theorem eff_same {b : Nat} {s0 s : Session} (hsent : s.sent = s0.sent)
    (hlen : s.send.length = s0.send.length) (hbl : s.bufferLen = s0.bufferLen) : Eff b s0 s :=
  ⟨hlen, hbl, [], by simp [hsent], by simp⟩

theorem eff_sock_send {b : Nat} {s0 s : Session} (hsent : s.sent = s0.sent)
    (hlen : s.send.length = s0.send.length) (hbl : s.bufferLen = s0.bufferLen)
    (h1 : 4 ≤ hdr_length s.send) (h2 : hdr_length s.send ≤ b) (h3 : b ≤ s0.send.length) :
    Eff b s0 (sock_send s) := by
  unfold sock_send
  split
  · refine ⟨hlen, hbl, [s.send.take (hdr_length s.send)], by simp [hsent], ?_⟩
    intro f hf
    simp only [List.mem_singleton] at hf
    subst hf
    exact frameOK_take _ _ h1 h2 (by omega)
  · exact eff_same hsent hlen hbl

theorem eff_trans {b : Nat} {s1 s2 s3 : Session} (h1 : Eff b s1 s2) (h2 : Eff b s2 s3) :
    Eff b s1 s3 :=
  ⟨h2.1.trans h1.1, h2.2.1.trans h1.2.1, sentWithin_trans h1.2.2 h2.2.2⟩

theorem eff_then {b : Nat} {s1 s2 s3 : Session} (h1 : Eff b s1 s2) (hsent : s3.sent = s2.sent)
    (hlen : s3.send.length = s2.send.length) (hbl : s3.bufferLen = s2.bufferLen) : Eff b s1 s3 :=
  eff_trans h1 (eff_same hsent hlen hbl)

theorem get_free_tag_shape (s : Session) :
    ∃ r, (get_free_tag s).2 = { s with request := r } := by
  unfold get_free_tag
  split
  · exact ⟨s.request, rfl⟩
  · split
    · exact ⟨_, rfl⟩
    · exact ⟨s.request, rfl⟩

theorem clear_tag_shape (s : Session) (tag : Nat) :
    ∃ r, clear_tag s tag = { s with request := r } := by
  unfold clear_tag
  split
  · exact ⟨s.request, rfl⟩
  · exact ⟨_, rfl⟩

theorem generate_unique_file_id_shape (s : Session) :
    ∃ f, (generate_unique_file_id s).2 = { s with fileIds := f } := by
  unfold generate_unique_file_id
  split
  · exact ⟨_, rfl⟩
  · exact ⟨s.fileIds, rfl⟩

theorem clear_file_id_shape (s : Session) (fileId : Nat) :
    ∃ f e, clear_file_id s fileId = { s with fileIds := f, internal_errors := e } := by
  unfold clear_file_id internal_error
  simp only []
  split
  · exact ⟨s.fileIds, _, rfl⟩
  · exact ⟨_, s.internal_errors, rfl⟩

theorem get_free_tag_eff (b : Nat) (s : Session) : Eff b s (get_free_tag s).2 := by
  obtain ⟨r, hr⟩ := get_free_tag_shape s
  rw [hr]; exact eff_same rfl rfl rfl

theorem clear_tag_eff (b : Nat) (s : Session) (tag : Nat) : Eff b s (clear_tag s tag) := by
  obtain ⟨r, hr⟩ := clear_tag_shape s tag
  rw [hr]; exact eff_same rfl rfl rfl

theorem free_file_id_eff (b : Nat) (s : Session) (id : Nat)
    (h1 : 4 ≤ s.send.length) (h2 : 11 ≤ b) (h3 : b ≤ s.send.length) :
    Eff b s (free_file_id s id) := by
  unfold free_file_id
  simp only []
  generalize hs1 : (if (!valid_file_id s id) = true then internal_error s else s) = s1
  have e1 : s1.send = s.send ∧ s1.bufferLen = s.bufferLen ∧ s1.sent = s.sent := by
    rw [← hs1]; unfold internal_error; split <;> exact ⟨rfl, rfl, rfl⟩
  obtain ⟨r, hr⟩ := get_free_tag_shape s1
  rw [hr]
  split_ifs <;> first
    | exact eff_same e1.2.2 (by simp [e1.1]) e1.2.1
    | (refine eff_sock_send e1.2.2 (by simp [e1.1]) e1.2.1 ?_ ?_ h3
       all_goals
        simp [hdr_length_writeAt, hdr_length_set_hdr_length, hdr_length_set_hdr_tag,
          hdr_length_set_hdr_type, e1.1, h1, sizeof_header, sizeof_Tclunk]
       all_goals omega)

theorem request_open_eff (cfg : Config) (s : Session) (id flags : Nat)
    (h1 : 4 ≤ s.send.length) (h2 : 32 ≤ s.bufferLen) (h3 : s.bufferLen ≤ s.send.length) :
    Eff s.bufferLen s (request_open cfg s id flags).2 := by
  unfold request_open
  simp only []
  obtain ⟨r, hr⟩ := get_free_tag_shape s
  rw [hr]
  generalize (if flags &&& cfg.O_RDWR ≠ 0 then ORDWR
    else if flags &&& cfg.O_WRONLY ≠ 0 then OWRITE else OREAD) = mode
  split_ifs
  · exact eff_same rfl rfl rfl
  · exact eff_same rfl rfl rfl
  · refine eff_sock_send rfl (by simp) rfl ?_ ?_ h3
    · simp [hdr_length_writeAt, hdr_length_set_hdr_length, hdr_length_set_hdr_tag,
        hdr_length_set_hdr_type, h1, sizeof_header, sizeof_Topen]
    · simp [hdr_length_writeAt, hdr_length_set_hdr_length, hdr_length_set_hdr_tag,
        hdr_length_set_hdr_type, h1, sizeof_header, sizeof_Topen]
      omega

theorem add_string_inv (cfg : Config) (bl : Nat) (m str : List Nat)
    (hm : 4 ≤ m.length) (h4 : 4 ≤ hdr_length m) (hmsg : cfg.msgSize < 2 ^ 32) :
    (add_string cfg bl m str).2.length = m.length ∧ 4 ≤ hdr_length (add_string cfg bl m str).2 ∧
      ((add_string cfg bl m str).1 = true →
        hdr_length (add_string cfg bl m str).2 ≤ min bl cfg.msgSize ∧
        hdr_length (add_string cfg bl m str).2 = hdr_length m + 2 + str.length % 65536) := by
  unfold add_string
  simp only []
  split_ifs with h
  · exact ⟨rfl, h4, by simp⟩
  · have e : hdr_length (writeAt (writeAt m (hdr_length m) (le 2 (str.length % 65536)))
        (hdr_length m + 2) (List.take (str.length % 65536) str)) = hdr_length m := by
      rw [hdr_length_writeAt _ _ _ (by omega), hdr_length_writeAt _ _ _ h4]
    have hle : hdr_length m + 2 + str.length % 65536 ≤ min bl cfg.msgSize := by omega
    have hlt : hdr_length m + (2 + str.length % 65536) < 2 ^ 32 := by
      have := min_le_right bl cfg.msgSize
      omega
    rw [hdr_length_set_hdr_length _ _ (by simpa using hm), e, Nat.mod_eq_of_lt hlt]
    refine ⟨by simp, by omega, fun _ => ⟨by omega, by omega⟩⟩

theorem add_strings_inv (cfg : Config) (bl : Nat) (strs : List (List Nat)) (m : List Nat)
    (hm : 4 ≤ m.length) (h4 : 4 ≤ hdr_length m) (hmsg : cfg.msgSize < 2 ^ 32) :
    (add_strings cfg bl m strs).2.length = m.length ∧
      4 ≤ hdr_length (add_strings cfg bl m strs).2 ∧
      ((add_strings cfg bl m strs).1 = true → strs ≠ [] →
        hdr_length (add_strings cfg bl m strs).2 ≤ min bl cfg.msgSize) := by
  induction strs generalizing m with
  | nil => exact ⟨rfl, h4, fun _ h => absurd rfl h⟩
  | cons str rest ih =>
    obtain ⟨a1, a2, a3⟩ := add_string_inv cfg bl m str hm h4 hmsg
    unfold add_strings
    simp only []
    split_ifs with h
    · obtain ⟨b1, b2, b3⟩ := ih (add_string cfg bl m str).2 (by omega) a2
      refine ⟨by omega, b2, fun hok _ => ?_⟩
      cases rest with
      | nil => simpa [add_strings] using (a3 h).1
      | cons r rs => exact b3 hok (by simp)
    · exact ⟨a1, a2, by simp⟩

theorem walk_add_name_hdr (m : List Nat) (nl : Nat) (name : List Nat)
    (hm : 4 ≤ m.length) (h4 : 4 ≤ hdr_length m) (hlt : hdr_length m + 2 + nl < 2 ^ 32) :
    (walk_add_name m nl name).length = m.length ∧
      hdr_length (walk_add_name m nl name) = hdr_length m + 2 + nl := by
  unfold walk_add_name
  simp only []
  have e1 : hdr_length (writeAt m (hdr_length m) (le 2 nl)) = hdr_length m :=
    hdr_length_writeAt _ _ _ h4
  rw [e1]
  have e2 : hdr_length (set_hdr_length (writeAt m (hdr_length m) (le 2 nl)) (hdr_length m + 2))
      = hdr_length m + 2 := by
    rw [hdr_length_set_hdr_length _ _ (by simpa using hm), Nat.mod_eq_of_lt (by omega)]
  rw [e2]
  have e3 : hdr_length (writeAt (set_hdr_length (writeAt m (hdr_length m) (le 2 nl))
      (hdr_length m + 2)) (hdr_length m + 2) name) = hdr_length m + 2 := by
    rw [hdr_length_writeAt _ _ _ (by omega), e2]
  rw [e3]
  constructor
  · simp
  · rw [hdr_length_writeAt _ _ _ (by norm_num),
      hdr_length_set_hdr_length _ _ (by simpa using hm), Nat.mod_eq_of_lt hlt]

theorem walk_loop_inv (path : List Nat) (len bl : Nat) (hbl : bl < 2 ^ 31) (n : Nat) :
    ∀ (i ns : Nat) (m : List Nat), 4 ≤ m.length → 4 ≤ hdr_length m → hdr_length m ≤ bl →
      (walk_loop path len bl n i ns m).2.length = m.length ∧
      4 ≤ hdr_length (walk_loop path len bl n i ns m).2 ∧
      hdr_length (walk_loop path len bl n i ns m).2 ≤ bl := by
  induction n with
  | zero => intro i ns m hm h4 hb; exact ⟨rfl, h4, hb⟩
  | succ n ih =>
    intro i ns m hm h4 hb
    unfold walk_loop
    simp only []
    generalize hnl : (i - ns + if (path.getD i 0 == 47) = true then 0 else 1) % 65536 = nl
    have hnl2 : nl < 65536 := by rw [← hnl]; exact Nat.mod_lt _ (by norm_num)
    by_cases h1 : (path.getD i 0 == 47 || i == len - 1) = true
    · rw [if_pos h1]
      by_cases h2 : (hdr_length m + 2 + nl) % 2 ^ 32 > bl
      · rw [if_pos h2]; exact ⟨rfl, h4, hb⟩
      · rw [if_neg h2]
        by_cases h3 : hdr_length m + 2 + nl < 2 ^ 32
        · rw [Nat.mod_eq_of_lt h3] at h2
          obtain ⟨w1, w2⟩ := walk_add_name_hdr m nl (List.take nl (List.drop ns path)) hm h4 h3
          have := ih (i + 1) (i + 1) (walk_add_name m nl (List.take nl (List.drop ns path)))
            (by omega) (by omega) (by omega)
          rw [w1] at this
          exact this
        · exfalso
          omega
    · rw [if_neg h1]
      exact ih (i + 1) ns m hm h4 hb

theorem request_stat_eff (s : Session) (id : Nat) (stbuf : Option Nat)
    (h1 : 4 ≤ s.send.length) (h2 : 32 ≤ s.bufferLen) (h3 : s.bufferLen ≤ s.send.length) :
    Eff s.bufferLen s (request_stat s id stbuf).2 := by
  unfold request_stat internal_error
  simp only []
  obtain ⟨r, hr⟩ := get_free_tag_shape s
  rw [hr]
  split_ifs <;> first
    | exact eff_same rfl rfl rfl
    | (refine eff_sock_send rfl (by simp) rfl ?_ ?_ h3
       all_goals
        simp [hdr_length_writeAt, hdr_length_set_hdr_length, hdr_length_set_hdr_tag,
          hdr_length_set_hdr_type, h1, sizeof_header, sizeof_Tstat]
       all_goals omega)

theorem request_remove_eff (s : Session) (id : Nat)
    (h1 : 4 ≤ s.send.length) (h2 : 32 ≤ s.bufferLen) (h3 : s.bufferLen ≤ s.send.length) :
    Eff s.bufferLen s (request_remove s id).2 := by
  unfold request_remove internal_error
  simp only []
  obtain ⟨r, hr⟩ := get_free_tag_shape s
  rw [hr]
  split_ifs <;> first
    | exact eff_same rfl rfl rfl
    | (refine eff_sock_send rfl (by simp) rfl ?_ ?_ h3
       all_goals
        simp [hdr_length_writeAt, hdr_length_set_hdr_length, hdr_length_set_hdr_tag,
          hdr_length_set_hdr_type, h1, sizeof_header, sizeof_Tremove]
       all_goals omega)

theorem request_file_read_eff (s : Session) (id offset count : Nat) (buf : Option Nat)
    (h1 : 4 ≤ s.send.length) (h2 : 32 ≤ s.bufferLen) (h3 : s.bufferLen ≤ s.send.length) :
    Eff s.bufferLen s (request_file_read s id offset count buf).2 := by
  unfold request_file_read internal_error
  simp only []
  obtain ⟨r, hr⟩ := get_free_tag_shape s
  rw [hr]
  split_ifs <;> first
    | exact eff_same rfl rfl rfl
    | (refine eff_sock_send rfl (by simp) rfl ?_ ?_ h3
       all_goals
        simp [hdr_length_writeAt, hdr_length_set_hdr_length, hdr_length_set_hdr_tag,
          hdr_length_set_hdr_type, h1, sizeof_header, sizeof_Tread]
       all_goals omega)

theorem request_dir_read_eff (s : Session) (id offset : Nat) (de : Option Nat)
    (h1 : 4 ≤ s.send.length) (h2 : 32 ≤ s.bufferLen) (h3 : s.bufferLen ≤ s.send.length) :
    Eff s.bufferLen s (request_dir_read s id offset de).2 := by
  unfold request_dir_read internal_error
  simp only []
  obtain ⟨r, hr⟩ := get_free_tag_shape s
  rw [hr]
  split_ifs <;> first
    | exact eff_same rfl rfl rfl
    | (refine eff_sock_send rfl (by simp) rfl ?_ ?_ h3
       all_goals
        simp [hdr_length_writeAt, hdr_length_set_hdr_length, hdr_length_set_hdr_tag,
          hdr_length_set_hdr_type, h1, sizeof_header, sizeof_Tread]
       all_goals omega)

theorem request_write_eff (s : Session) (id offset count : Nat) (buf : List Nat)
    (h1 : 4 ≤ s.send.length) (h2 : 32 ≤ s.bufferLen) (h3 : s.bufferLen ≤ s.send.length)
    (h4 : s.bufferLen < 2 ^ 31) :
    Eff s.bufferLen s (request_write s id offset count buf).2 := by
  unfold request_write internal_error
  simp only []
  obtain ⟨r, hr⟩ := get_free_tag_shape s
  rw [hr]
  simp only []
  have hc : (s.bufferLen + 2 ^ 32 - (sizeof_header + sizeof_Twrite)) % 2 ^ 32 = s.bufferLen - 23 := by
    simp only [sizeof_header, sizeof_Twrite]
    have : s.bufferLen + 2 ^ 32 - (7 + 16) = (s.bufferLen - 23) + 2 ^ 32 := by omega
    rw [this, Nat.add_mod_right, Nat.mod_eq_of_lt (by omega)]
  rw [hc]
  generalize hcount : min count (s.bufferLen - 23) = c
  have hc2 : c ≤ s.bufferLen - 23 := by rw [← hcount]; exact min_le_right _ _
  split_ifs <;> first
    | exact eff_same rfl rfl rfl
    | (refine eff_sock_send rfl (by simp) rfl ?_ ?_ h3
       all_goals
        simp only [sizeof_header, sizeof_Twrite]
        rw [hdr_length_writeAt _ _ _ (by norm_num), hdr_length_writeAt _ _ _ (by norm_num),
          hdr_length_writeAt _ _ _ (by norm_num), hdr_length_writeAt _ _ _ (by norm_num),
          hdr_length_set_hdr_length _ _ (by simpa using h1), Nat.mod_eq_of_lt (by omega)]
        omega)

theorem request_create_eff (cfg : Config) (s : Session) (id : Nat) (name : List Nat) (dir : Bool)
    (h1 : 4 ≤ s.send.length) (h2 : 32 ≤ s.bufferLen) (h3 : s.bufferLen ≤ s.send.length)
    (h4 : s.bufferLen < 2 ^ 31) (hmsg : cfg.msgSize < 2 ^ 32) :
    Eff s.bufferLen s (request_create cfg s id name dir).2 := by
  unfold request_create internal_error
  simp only []
  obtain ⟨r, hr⟩ := get_free_tag_shape s
  rw [hr]
  simp only []
  generalize hm4 : writeAt (set_hdr_length (set_hdr_tag (set_hdr_type s.send MsgType.Tcreate.toByte)
    (get_free_tag s).1) (sizeof_header + sizeof_Tcreate)) 7 (le 4 id) = m4
  have hm4l : m4.length = s.send.length := by rw [← hm4]; simp
  have hm4h : hdr_length m4 = 11 := by
    rw [← hm4, hdr_length_writeAt _ _ _ (by norm_num),
      hdr_length_set_hdr_length _ _ (by simpa using h1)]
    rfl
  obtain ⟨a1, a2, a3⟩ := add_string_inv cfg s.bufferLen m4 name (by omega) (by omega) hmsg
  generalize add_string cfg s.bufferLen m4 name = a at a1 a2 a3
  obtain ⟨c, hc⟩ := clear_tag_shape
    { s with request := upd r (get_free_tag s).1 (fun q =>
        { q with pending := true, expectedType := MsgType.Rcreate.toByte }), send := a.2 }
    (get_free_tag s).1
  generalize (511 ||| if dir = true then QTDIR <<< 24 else 0) = perm
  split_ifs with g1 g2 g3
  · exact eff_same rfl rfl rfl
  · exact eff_same rfl rfl rfl
  · rw [hc]; exact eff_same rfl (by simp; omega) rfl
  · simp only [Bool.or_eq_true, Bool.not_eq_true', decide_eq_true_eq, not_or,
      Bool.not_eq_false, not_lt] at g3
    have hfit : hdr_length a.2 + (4 + 1) ≤ s.bufferLen := by omega
    have e1 : hdr_length (set_hdr_length (writeAt a.2 (hdr_length a.2) (le 4 perm))
        (hdr_length (writeAt a.2 (hdr_length a.2) (le 4 perm)) + 4)) = hdr_length a.2 + 4 := by
      rw [hdr_length_set_hdr_length _ _ (by simp; omega), hdr_length_writeAt _ _ _ a2,
        Nat.mod_eq_of_lt (by omega)]
    refine eff_sock_send rfl (by simp; omega) rfl ?_ ?_ h3
    · simp only []
      rw [hdr_length_set_hdr_length _ _ (by simp; omega), hdr_length_writeAt _ _ _ (by omega), e1,
        Nat.mod_eq_of_lt (by omega)]
      omega
    · simp only []
      rw [hdr_length_set_hdr_length _ _ (by simp; omega), hdr_length_writeAt _ _ _ (by omega), e1,
        Nat.mod_eq_of_lt (by omega)]
      omega

theorem request_rename_eff (cfg : Config) (s : Session) (id : Nat) (name : List Nat)
    (h1 : 4 ≤ s.send.length) (h3 : s.bufferLen ≤ s.send.length) (hmsg : cfg.msgSize < 2 ^ 32) :
    Eff s.bufferLen s (request_rename cfg s id name).2 := by
  unfold request_rename internal_error
  simp only []
  obtain ⟨r, hr⟩ := get_free_tag_shape s
  rw [hr]
  simp only []
  generalize hm6 : writeAt (writeAt (writeAt (set_hdr_length (set_hdr_tag
    (set_hdr_type s.send MsgType.Twstat.toByte) (get_free_tag s).1)
    (sizeof_header + sizeof_Twstat)) 7 (le 4 id)) 11 (le 2 1)) 13
    (List.replicate sizeof_stat_t 255) = m6
  have hm6l : m6.length = s.send.length := by rw [← hm6]; simp
  have hm6h : hdr_length m6 = 54 := by
    rw [← hm6, hdr_length_writeAt _ _ _ (by norm_num), hdr_length_writeAt _ _ _ (by norm_num),
      hdr_length_writeAt _ _ _ (by norm_num), hdr_length_set_hdr_length _ _ (by simpa using h1)]
    rfl
  obtain ⟨a1, a2, a3⟩ := add_strings_inv cfg s.bufferLen [name, cstr "", cstr "", cstr ""] m6
    (by omega) (by omega) hmsg
  generalize add_strings cfg s.bufferLen m6 [name, cstr "", cstr "", cstr ""] = a at a1 a2 a3
  obtain ⟨c, hc⟩ := clear_tag_shape
    { s with request := upd r (get_free_tag s).1 (fun q =>
        { q with pending := true, expectedType := MsgType.Rwstat.toByte }), send := a.2 }
    (get_free_tag s).1
  split_ifs with g1 g2 g3
  · exact eff_same rfl rfl rfl
  · exact eff_same rfl rfl rfl
  · rw [hc]; exact eff_same rfl (by simp; omega) rfl
  · simp only [Bool.not_eq_true', Bool.not_eq_false] at g3
    have := a3 g3 (by simp)
    have hmin := min_le_left s.bufferLen cfg.msgSize
    exact eff_sock_send rfl (by simp; omega) rfl a2 (by simp; omega) h3

theorem request_set_mtime_eff (cfg : Config) (s : Session) (id mtime : Nat)
    (h1 : 4 ≤ s.send.length) (h3 : s.bufferLen ≤ s.send.length) (hmsg : cfg.msgSize < 2 ^ 32) :
    Eff s.bufferLen s (request_set_mtime cfg s id mtime).2 := by
  unfold request_set_mtime internal_error
  simp only []
  obtain ⟨r, hr⟩ := get_free_tag_shape s
  rw [hr]
  simp only []
  generalize hm7 : writeAt (writeAt (writeAt (writeAt (set_hdr_length (set_hdr_tag
    (set_hdr_type s.send MsgType.Twstat.toByte) (get_free_tag s).1)
    (sizeof_header + sizeof_Twstat)) 7 (le 4 id)) 11 (le 2 1)) 13
    (List.replicate sizeof_stat_t 255)) 42 (le 4 mtime) = m7
  have hm7l : m7.length = s.send.length := by rw [← hm7]; simp
  have hm7h : hdr_length m7 = 54 := by
    rw [← hm7, hdr_length_writeAt _ _ _ (by norm_num), hdr_length_writeAt _ _ _ (by norm_num),
      hdr_length_writeAt _ _ _ (by norm_num), hdr_length_writeAt _ _ _ (by norm_num),
      hdr_length_set_hdr_length _ _ (by simpa using h1)]
    rfl
  obtain ⟨a1, a2, a3⟩ := add_strings_inv cfg s.bufferLen [cstr "", cstr "", cstr "", cstr ""] m7
    (by omega) (by omega) hmsg
  generalize add_strings cfg s.bufferLen m7 [cstr "", cstr "", cstr "", cstr ""] = a at a1 a2 a3
  obtain ⟨c, hc⟩ := clear_tag_shape
    { s with request := upd r (get_free_tag s).1 (fun q =>
        { q with pending := true, expectedType := MsgType.Rwstat.toByte }), send := a.2 }
    (get_free_tag s).1
  split_ifs with g1 g2 g3
  · exact eff_same rfl rfl rfl
  · exact eff_same rfl rfl rfl
  · rw [hc]; exact eff_same rfl (by simp; omega) rfl
  · simp only [Bool.not_eq_true', Bool.not_eq_false] at g3
    have := a3 g3 (by simp)
    have hmin := min_le_left s.bufferLen cfg.msgSize
    exact eff_sock_send rfl (by simp; omega) rfl a2 (by simp; omega) h3

theorem request_walk_eff (s : Session) (path : List Nat) (type : walkType)
    (h1 : 4 ≤ s.send.length) (h2 : 32 ≤ s.bufferLen) (h3 : s.bufferLen ≤ s.send.length)
    (h4 : s.bufferLen < 2 ^ 31) :
    Eff s.bufferLen s (request_walk s path type).2 := by
  unfold request_walk
  simp only []
  obtain ⟨r, hr⟩ := get_free_tag_shape s
  rw [hr]
  obtain ⟨f, hf⟩ := generate_unique_file_id_shape { s with request := r }
  rw [hf]
  simp only []
  generalize hm6 : writeAt (writeAt (writeAt (set_hdr_length (set_hdr_tag
    (set_hdr_type s.send MsgType.Twalk.toByte) (get_free_tag s).1)
    (sizeof_header + sizeof_Twalk)) 7 (le 4 0)) 11
    (le 4 (generate_unique_file_id { s with request := r }).1)) 15 (le 2 0) = m6
  have hm6l : m6.length = s.send.length := by rw [← hm6]; simp
  have hm6h : hdr_length m6 = 17 := by
    rw [← hm6, hdr_length_writeAt _ _ _ (by norm_num), hdr_length_writeAt _ _ _ (by norm_num),
      hdr_length_writeAt _ _ _ (by norm_num), hdr_length_set_hdr_length _ _ (by simpa using h1)]
    rfl
  obtain ⟨w1, w2, w3⟩ := walk_loop_inv path (path.length % 65536) s.bufferLen h4
    (path.length % 65536) 0 0 m6 (by omega) (by omega) (by omega)
  generalize walk_loop path (path.length % 65536) s.bufferLen (path.length % 65536) 0 0 m6 = w
    at w1 w2 w3
  obtain ⟨c1, hc1⟩ := clear_tag_shape { s with request := r, fileIds := f } (get_free_tag s).1
  obtain ⟨c2, hc2⟩ := clear_tag_shape { s with request := r, fileIds := f, send := w.2 }
    (get_free_tag s).1
  split_ifs with g1 g2 g3
  · exact eff_same rfl rfl rfl
  · rw [hc1]; exact eff_same rfl rfl rfl
  · rw [hc2]; exact eff_same rfl (by simp; omega) rfl
  · exact eff_sock_send rfl (by simp; omega) rfl w2 w3 h3

theorem eff_inv {cfg : Config} {b : Nat} {s s' : Session} (h : Eff b s s') (hi : Inv cfg s) :
    Inv cfg s' :=
  ⟨h.1.trans hi.1, by rw [h.2.1]; exact hi.2.1, by rw [h.2.1]; exact hi.2.2⟩

theorem eff_mono {b c : Nat} {s s' : Session} (h : Eff b s s') (hbc : b ≤ c) : Eff c s s' :=
  ⟨h.1, h.2.1, sentWithin_mono h.2.2 hbc⟩

theorem request_version_pres (cfg : Config) (s : Session) (h1 : s.send.length = cfg.msgSize)
    (h2 : 32 ≤ cfg.msgSize) (hmsg : cfg.msgSize < 2 ^ 32) :
    Inv cfg (request_version cfg s) ∧ SentWithin 32 s (request_version cfg s) := by
  unfold request_version internal_error
  simp only []
  generalize hm4 : writeAt (set_hdr_length (set_hdr_tag (set_hdr_type s.send
    MsgType.Tversion.toByte) NOTAG) (sizeof_header + sizeof_Tversion)) 7 (le 4 cfg.msgSize) = m4
  have hm4l : m4.length = s.send.length := by rw [← hm4]; simp
  have hm4h : hdr_length m4 = 11 := by
    rw [← hm4, hdr_length_writeAt _ _ _ (by norm_num),
      hdr_length_set_hdr_length _ _ (by simp; omega)]
    rfl
  obtain ⟨a1, a2, a3⟩ := add_string_inv cfg 32 m4 (cstr "9P2000") (by omega) (by omega) hmsg
  generalize add_string cfg 32 m4 (cstr "9P2000") = a at a1 a2 a3
  split_ifs with g
  · have hmin := min_le_left 32 cfg.msgSize
    have := a3 g
    have e : Eff 32 { s with state := State.Version, bufferLen := 32, send := a.2 }
        (sock_send { s with state := State.Version, bufferLen := 32, send := a.2 }) :=
      eff_sock_send rfl rfl rfl a2 (by simp; omega) (by simp; omega)
    refine ⟨⟨?_, ?_, ?_⟩, ?_⟩
    · rw [e.1]; simp; omega
    · rw [e.2.1]
    · rw [e.2.1]; exact h2
    · exact e.2.2
  · exact ⟨⟨by simp; omega, le_refl _, h2⟩, sentWithin_same rfl⟩

theorem request_attach_eff (cfg : Config) (s : Session) (h1 : 4 ≤ s.send.length)
    (h3 : s.bufferLen ≤ s.send.length) (hmsg : cfg.msgSize < 2 ^ 32) :
    Eff 32 s (request_attach cfg s) := by
  unfold request_attach internal_error
  simp only []
  generalize hm5 : writeAt (writeAt (set_hdr_length (set_hdr_tag (set_hdr_type s.send
    MsgType.Tattach.toByte) s.request.length) (sizeof_header + sizeof_Tattach)) 7 (le 4 0)) 11
    (le 4 0) = m5
  have hm5l : m5.length = s.send.length := by rw [← hm5]; simp
  have hm5h : hdr_length m5 = 15 := by
    rw [← hm5, hdr_length_writeAt _ _ _ (by norm_num), hdr_length_writeAt _ _ _ (by norm_num),
      hdr_length_set_hdr_length _ _ (by simpa using h1)]
    rfl
  obtain ⟨a1, a2, a3⟩ := add_string_inv cfg s.bufferLen m5 (cstr "ArduPilot") (by omega)
    (by omega) hmsg
  generalize add_string cfg s.bufferLen m5 (cstr "ArduPilot") = a at a1 a2 a3
  obtain ⟨b1, b2, b3⟩ := add_string_inv cfg s.bufferLen a.2 (cstr "") (by omega) a2 hmsg
  generalize add_string cfg s.bufferLen a.2 (cstr "") = b at b1 b2 b3
  split_ifs with g1 g2
  · have ha := a3 g1
    have hb := b3 g2
    have hmin := min_le_left s.bufferLen cfg.msgSize
    have e9 : (cstr "ArduPilot").length = 9 := by decide
    have e0 : (cstr "").length = 0 := by decide
    rw [e9] at ha
    rw [e0] at hb
    have hb28 : hdr_length b.2 = 28 := by omega
    unfold sock_send
    split
    · refine ⟨by simp; omega, rfl, [b.2.take (hdr_length b.2)], rfl, ?_⟩
      intro f hf
      simp only [List.mem_singleton] at hf
      subst hf
      exact frameOK_take _ _ b2 (by omega) (by omega)
    · exact eff_same rfl (by simp; omega) rfl
  · exact eff_same rfl (by simp; omega) rfl
  · exact eff_same rfl (by simp; omega) rfl

theorem handle_version_pres (cfg : Config) (s : Session) (hi : Inv cfg s)
    (hmsg : cfg.msgSize < 2 ^ 32) :
    Inv cfg (handle_version cfg s) ∧ SentWithin 32 s (handle_version cfg s) := by
  unfold handle_version
  simp only []
  split_ifs with g1 g2 g3 g4 g5 g6
  · exact ⟨hi, sentWithin_refl _ _⟩
  · exact ⟨hi, sentWithin_refl _ _⟩
  · exact ⟨hi, sentWithin_refl _ _⟩
  · exact ⟨hi, sentWithin_refl _ _⟩
  · exact ⟨hi, sentWithin_refl _ _⟩
  · exact ⟨hi, sentWithin_refl _ _⟩
  have hmax : handle_version_max_len = 55 := by decide
  rw [hmax] at g4
  simp only [sizeof_header, not_lt] at g4
  have e := request_attach_eff cfg { s with bufferLen := rd s.receive 7 4 }
    (by simp; have := hi.1; omega) (by simp; have := hi.1; omega) hmsg
  refine ⟨⟨?_, ?_, ?_⟩, e.2.2⟩
  · rw [e.1]; exact hi.1
  · rw [e.2.1]; simp; omega
  · rw [e.2.1]; simp; omega

theorem rerror_terminate_shape (s : Session) :
    ∃ r f, rerror_terminate s = { s with receive := r, fault := f } := by
  unfold rerror_terminate
  simp only []
  split
  · exact ⟨_, s.fault, rfl⟩
  · exact ⟨s.receive, true, rfl⟩

theorem handle_error_eff (b : Nat) (s : Session) (tag : Nat) : Eff b s (handle_error s tag) := by
  unfold handle_error internal_error
  simp only []
  obtain ⟨r, f, h⟩ := rerror_terminate_shape s
  rw [h]
  split_ifs <;> exact eff_same rfl rfl rfl

theorem rwalk_reject_eff (s : Session) (tag : Nat) (h1 : 32 ≤ s.send.length) :
    Eff 32 s (rwalk_reject s tag) := by
  unfold rwalk_reject
  exact eff_then (free_file_id_eff 32 s _ (by omega) (by norm_num) h1) rfl rfl rfl

theorem handle_rwalk_eff (s : Session) (tag : Nat) (h1 : 32 ≤ s.send.length) :
    Eff 32 s (handle_rwalk s tag) := by
  unfold handle_rwalk
  simp only []
  split_ifs <;> first
    | exact rwalk_reject_eff s tag h1
    | exact eff_same rfl rfl rfl

theorem handle_dir_Rread_eff (cfg : Config) (b : Nat) (s : Session) (tag : Nat) :
    Eff b s (handle_dir_Rread cfg s tag) := by
  unfold handle_dir_Rread
  simp only []
  split
  · exact eff_same rfl rfl rfl
  · split_ifs <;> exact eff_same rfl rfl rfl

theorem handle_file_Rread_eff (b : Nat) (s : Session) (tag : Nat) :
    Eff b s (handle_file_Rread s tag) := by
  unfold handle_file_Rread
  simp only []
  split
  · exact eff_same rfl rfl rfl
  · split_ifs <;> exact eff_same rfl rfl rfl

theorem handle_Rstat_eff (cfg : Config) (b : Nat) (s : Session) (tag : Nat) :
    Eff b s (handle_Rstat cfg s tag) := by
  unfold handle_Rstat
  simp only []
  split <;> exact eff_same rfl rfl rfl

theorem handle_reply_eff (cfg : Config) (s : Session) (t : MsgType) (tag : Nat)
    (h1 : 32 ≤ s.send.length) : Eff 32 s (handle_reply cfg s t tag) := by
  unfold handle_reply internal_error
  cases t
  case Rerror => exact handle_error_eff 32 s tag
  case Rwalk => exact handle_rwalk_eff s tag h1
  case Rread =>
    simp only []
    split
    · exact handle_dir_Rread_eff cfg 32 s tag
    · exact handle_file_Rread_eff 32 s tag
  case Rwrite =>
    simp only []
    split <;> exact eff_same rfl rfl rfl
  case Rstat => exact handle_Rstat_eff cfg 32 s tag
  all_goals exact eff_same rfl rfl rfl

theorem parse_reply_eff (cfg : Config) (s : Session) (t : MsgType) (h1 : 32 ≤ s.send.length) :
    Eff 32 s (parse_reply cfg s t).1 := by
  unfold parse_reply internal_error
  simp only []
  split_ifs
  · exact eff_same rfl rfl rfl
  · exact eff_same rfl rfl rfl
  · exact eff_same rfl rfl rfl
  · exact eff_then (handle_reply_eff cfg s t _ h1) rfl rfl rfl

theorem dispatch_pres (cfg : Config) (s : Session) (hi : Inv cfg s) (hmsg : cfg.msgSize < 2 ^ 32) :
    Inv cfg (dispatch cfg s).1 ∧ SentWithin 32 s (dispatch cfg s).1 := by
  have h32 : 32 ≤ s.send.length := by have := hi.1; have := hi.2.1; have := hi.2.2; omega
  have key : ∀ t, Inv cfg (parse_reply cfg s t).1 ∧ SentWithin 32 s (parse_reply cfg s t).1 :=
    fun t => ⟨eff_inv (parse_reply_eff cfg s t h32) hi, (parse_reply_eff cfg s t h32).2.2⟩
  have same : Inv cfg s ∧ SentWithin 32 s s := ⟨hi, sentWithin_refl _ _⟩
  have err : Inv cfg (internal_error s) ∧ SentWithin 32 s (internal_error s) :=
    ⟨hi, sentWithin_same rfl⟩
  unfold dispatch
  split
  · exact same
  · simp only []
    split_ifs
    · have := handle_version_pres cfg (internal_error s) hi hmsg
      exact ⟨this.1, this.2⟩
    · exact handle_version_pres cfg s hi hmsg
  · simp only []
    have hs : ∀ s1 : Session, Inv cfg s1 → s1.sent = s.sent →
        Inv cfg (handle_attach s1) ∧ SentWithin 32 s (handle_attach s1) := by
      intro s1 hi1 hsent
      unfold handle_attach
      split_ifs
      · exact ⟨hi1, [], by simp [hsent], by simp⟩
      · exact ⟨hi1, [], by simp [hsent], by simp⟩
      · exact ⟨hi1, [], by simp [hsent], by simp⟩
      · exact ⟨hi1, [], by simp [hsent], by simp⟩
    split_ifs
    · exact hs (internal_error s) hi rfl
    · exact hs s hi rfl
  · exact same
  · exact same
  · simp only []
    split_ifs
    · exact err
    · exact err
    · obtain ⟨f, e, hf⟩ := clear_file_id_shape s (s.req (hdr_tag s.receive)).clunk_fileId
      rw [hf]
      obtain ⟨c, hc⟩ := clear_tag_shape { s with fileIds := f, internal_errors := e }
        (hdr_tag s.receive)
      rw [hc]
      exact ⟨hi, sentWithin_same rfl⟩
  all_goals first | exact key _ | exact err

theorem inv_same {cfg : Config} {s s' : Session} (hi : Inv cfg s)
    (hlen : s'.send.length = s.send.length) (hbl : s'.bufferLen = s.bufferLen) : Inv cfg s' :=
  ⟨hlen.trans hi.1, by rw [hbl]; exact hi.2.1, by rw [hbl]; exact hi.2.2⟩

theorem parse_frame_pres (cfg : Config) (s : Session) (len : Nat) (hi : Inv cfg s)
    (hmsg : cfg.msgSize < 2 ^ 32) :
    Inv cfg (parse_frame cfg s len).1 ∧ SentWithin 32 s (parse_frame cfg s len).1 := by
  have hd := dispatch_pres cfg s hi hmsg
  unfold parse_frame
  simp only []
  generalize dispatch cfg s = r at hd ⊢
  split_ifs
  · exact ⟨hi, sentWithin_same rfl⟩
  · exact ⟨hi, sentWithin_same rfl⟩
  · exact hd
  · exact hd
  · exact ⟨inv_same hd.1 rfl rfl, sentWithin_trans hd.2 (sentWithin_same rfl)⟩

theorem parse_pres (cfg : Config) (hmsg : cfg.msgSize < 2 ^ 32) (fuel : Nat) :
    ∀ (s : Session) (len : Nat) (s' : Session), Inv cfg s → parse cfg fuel s len = some s' →
      Inv cfg s' ∧ SentWithin 32 s s' := by
  induction fuel with
  | zero => intro s len s' _ h; simp [parse] at h
  | succ fuel ih =>
    intro s len s' hi h
    have hf := parse_frame_pres cfg s len hi hmsg
    unfold parse at h
    split at h
    · cases h; exact hf
    · have := ih _ _ _ hf.1 h
      exact ⟨this.1, sentWithin_trans hf.2 this.2⟩

theorem update_pres (cfg : Config) (hmsg : cfg.msgSize < 2 ^ 32) (fuel : Nat) (s : Session)
    (r : Recv) (s' : Session) (active : Bool) (hi : Inv cfg s)
    (h : update cfg fuel s r = some (s', active)) : Inv cfg s' ∧ SentWithin 32 s s' := by
  cases r with
  | closed => simp only [update, Option.some.injEq, Prod.mk.injEq] at h; rw [← h.1]
              exact ⟨hi, sentWithin_same rfl⟩
  | nothing => simp only [update, Option.some.injEq, Prod.mk.injEq] at h; rw [← h.1]
               exact ⟨hi, sentWithin_same rfl⟩
  | data bytes =>
    simp only [update] at h
    split_ifs at h
    · simp only [Option.some.injEq, Prod.mk.injEq] at h; rw [← h.1]
      exact ⟨hi, sentWithin_same rfl⟩
    · cases hp : parse cfg fuel { s with receive := writeAt s.receive 0 (List.take cfg.msgSize bytes) } (List.take cfg.msgSize bytes).length with
      | none => rw [hp] at h; cases h
      | some s1 =>
        rw [hp] at h
        simp only [Option.some.injEq, Prod.mk.injEq] at h
        rw [← h.1]
        have := parse_pres cfg hmsg fuel _ _ _ (show Inv cfg
          { s with receive := writeAt s.receive 0 (List.take cfg.msgSize bytes) } from hi) hp
        exact ⟨this.1, this.2⟩

theorem walk_result_eff (b : Nat) (s : Session) (tag : Nat) : Eff b s (walk_result s tag).2 := by
  unfold walk_result; split <;> exact clear_tag_eff b s tag

theorem open_result_eff (b : Nat) (s : Session) (tag : Nat) : Eff b s (open_result s tag).2 := by
  unfold open_result; split <;> exact clear_tag_eff b s tag

theorem create_result_eff (b : Nat) (s : Session) (tag : Nat) :
    Eff b s (create_result s tag).2 := by
  unfold create_result; split <;> exact clear_tag_eff b s tag

theorem remove_result_eff (b : Nat) (s : Session) (tag : Nat) :
    Eff b s (remove_result s tag).2 := by
  unfold remove_result; split <;> exact clear_tag_eff b s tag

theorem stat_result_eff (b : Nat) (s : Session) (tag : Nat) : Eff b s (stat_result s tag).2 := by
  unfold stat_result; split <;> exact clear_tag_eff b s tag

theorem stat_update_result_eff (b : Nat) (s : Session) (tag : Nat) :
    Eff b s (stat_update_result s tag).2 := by
  unfold stat_update_result; split <;> exact clear_tag_eff b s tag

theorem read_result_eff (b : Nat) (s : Session) (tag : Nat) (is_dir : Bool) :
    Eff b s (read_result s tag is_dir).2 := by
  unfold read_result; split_ifs <;> exact clear_tag_eff b s tag

theorem write_result_eff (b : Nat) (s : Session) (tag : Nat) :
    Eff b s (write_result s tag).2 := by
  unfold write_result; split_ifs <;> exact clear_tag_eff b s tag

/-- Every step from a session that satisfies `Inv` ends in one that does, and the
frames it gives to the socket are within the `bufferLen` it ends with. -/
theorem step_pres (cfg : Config) (h1 : 32 ≤ cfg.msgSize) (h2 : cfg.msgSize < 2 ^ 31)
    (s s' : Session) (hi : Inv cfg s) (hs : Step cfg s s') :
    Inv cfg s' ∧ SentWithin s'.bufferLen s s' := by
  have hmsg : cfg.msgSize < 2 ^ 32 := by omega
  have a1 : 4 ≤ s.send.length := by have := hi.1; omega
  have a2 : 32 ≤ s.bufferLen := hi.2.1
  have a3 : s.bufferLen ≤ s.send.length := by have := hi.1; have := hi.2.2; omega
  have a4 : s.bufferLen < 2 ^ 31 := by have := hi.2.2; omega
  have fromEff : ∀ {t : Session}, Eff s.bufferLen s t → Inv cfg t ∧ SentWithin t.bufferLen s t :=
    fun {t} e => ⟨eff_inv e hi, by rw [e.2.1]; exact e.2.2⟩
  have fromPres : ∀ {t : Session}, Inv cfg t ∧ SentWithin 32 s t →
      Inv cfg t ∧ SentWithin t.bufferLen s t :=
    fun {t} p => ⟨p.1, sentWithin_mono p.2 p.1.2.1⟩
  cases hs
  case update fuel r active h => exact fromPres (update_pres cfg hmsg fuel s r s' active hi h)
  case recv => exact ⟨hi, sentWithin_same rfl⟩
  case parse_frame => exact fromPres (parse_frame_pres cfg s _ hi hmsg)
  case request_version => exact fromPres (request_version_pres cfg s hi.1 h1 hmsg)
  case request_walk => exact fromEff (request_walk_eff s _ _ a1 a2 a3 a4)
  case request_open => exact fromEff (request_open_eff cfg s _ _ a1 a2 a3)
  case request_create => exact fromEff (request_create_eff cfg s _ _ _ a1 a2 a3 a4 hmsg)
  case request_file_read => exact fromEff (request_file_read_eff s _ _ _ _ a1 a2 a3)
  case request_dir_read => exact fromEff (request_dir_read_eff s _ _ _ a1 a2 a3)
  case request_write => exact fromEff (request_write_eff s _ _ _ _ a1 a2 a3 a4)
  case request_remove => exact fromEff (request_remove_eff s _ a1 a2 a3)
  case request_stat => exact fromEff (request_stat_eff s _ _ a1 a2 a3)
  case request_rename => exact fromEff (request_rename_eff cfg s _ _ a1 a3 hmsg)
  case request_set_mtime => exact fromEff (request_set_mtime_eff cfg s _ _ a1 a3 hmsg)
  case free_file_id => exact fromEff (free_file_id_eff s.bufferLen s _ a1 (by omega) a3)
  case clear_tag => exact fromEff (clear_tag_eff _ s _)
  case walk_result => exact fromEff (walk_result_eff _ s _)
  case open_result => exact fromEff (open_result_eff _ s _)
  case create_result => exact fromEff (create_result_eff _ s _)
  case read_result => exact fromEff (read_result_eff _ s _ _)
  case write_result => exact fromEff (write_result_eff _ s _)
  case remove_result => exact fromEff (remove_result_eff _ s _)
  case stat_result => exact fromEff (stat_result_eff _ s _)
  case stat_update_result => exact fromEff (stat_update_result_eff _ s _)

theorem reachable_inv (cfg : Config) (h1 : 32 ≤ cfg.msgSize) (h2 : cfg.msgSize < 2 ^ 31)
    (s : Session) (hr : Reachable cfg s) : Inv cfg s := by
  induction hr with
  | init s0 h0 => exact (request_version_pres cfg s0 h0 h1 (by omega)).1
  | step s s' _ hs ih => exact (step_pres cfg h1 h2 s s' ih hs).1

theorem request_version_bufferLen (cfg : Config) (s : Session) :
    (request_version cfg s).bufferLen = 32 := by
  unfold request_version internal_error sock_send
  simp only []
  split_ifs <;> rfl

theorem reachable_s_version : Reachable cfg0 s_version :=
  Reachable.init _ (by simp [fresh, cfg0])

theorem reachable_s_attach : Reachable cfg0 s_attach :=
  Reachable.step _ _ reachable_s_version (Step.update s_version 4
    (Recv.data (frame .Rversion NOTAG (le 4 64 ++ wire_string (cstr "9P2000")))) s_attach true
    (by rfl))

theorem reachable_s_mounted : Reachable cfg0 s_mounted :=
  Reachable.step _ _ reachable_s_attach (Step.update s_attach 4
    (Recv.data (frame .Rattach 4 (QTDIR :: List.replicate 12 0))) s_mounted true (by rfl))

/-! ## C1 -/

/-- C1: frame-length invariant. For a `Message` of at least 32 bytes (and fewer than
2^31): `request_version` sets `bufferLen` to 32 and gives the socket only frames whose
`header.length` is at most 32; in every session reachable from it by received bytes,
`parse` and the request interface, `bufferLen ≤ sizeof(Message)`; and every step from
such a session gives the socket only frames whose `header.length` is at most
`bufferLen` and is the number of bytes sent. -/
theorem frame_length_invariant (cfg : Config) (h1 : 32 ≤ cfg.msgSize)
    (h2 : cfg.msgSize < 2 ^ 31) :
    (∀ s0 : Session, s0.send.length = cfg.msgSize →
      (request_version cfg s0).bufferLen = 32 ∧ SentWithin 32 s0 (request_version cfg s0)) ∧
    (∀ s : Session, Reachable cfg s → s.bufferLen ≤ cfg.msgSize) ∧
    (∀ s s' : Session, Reachable cfg s → Step cfg s s' → SentWithin s'.bufferLen s s') :=
  ⟨fun s0 h0 => ⟨request_version_bufferLen cfg s0,
      (request_version_pres cfg s0 h0 h1 (by omega)).2⟩,
    fun s hr => (reachable_inv cfg h1 h2 s hr).2.2,
    fun s s' hr hs => (step_pres cfg h1 h2 s s' (reachable_inv cfg h1 h2 s hr) hs).2⟩

/-- C1 at the example platform: the mounted example session is reachable, its
`bufferLen` is within the 128-byte `Message`, and a walk from it sends frames within
`bufferLen`. -/
theorem frame_length_invariant_witness :
    (32 ≤ cfg0.msgSize ∧ cfg0.msgSize < 2 ^ 31) ∧ s_mounted.bufferLen ≤ cfg0.msgSize ∧
      SentWithin (request_walk s_mounted (cstr "data/log.bin") walkType.File).2.bufferLen
        s_mounted (request_walk s_mounted (cstr "data/log.bin") walkType.File).2 :=
  ⟨⟨by decide, by decide⟩,
    (frame_length_invariant cfg0 (by decide) (by decide)).2.1 s_mounted reachable_s_mounted,
    (frame_length_invariant cfg0 (by decide) (by decide)).2.2 s_mounted _ reachable_s_mounted
      (Step.request_walk s_mounted (cstr "data/log.bin") walkType.File)⟩

/-! ## C2 -/

/-- C2 (the code at the failing input): in the mounted example session, with FID 1
valid and four free tags, two consecutive `free_file_id(1)` calls give the socket two
Tclunk frames for fid 1 (tags 0 and 1), and the second call takes tag slot 1. -/
theorem free_file_id_twice_sends_two_clunks :
    s_walked.state = State.Mounted ∧ valid_file_id s_walked 1 = true ∧
    (s_walked.request.map Request.active) = [false, false, false, false] ∧
    (free_file_id s_walked 1).sent = s_walked.sent ++ [frame .Tclunk 0 (le 4 1)] ∧
    valid_file_id (free_file_id s_walked 1) 1 = false ∧
    (free_file_id (free_file_id s_walked 1) 1).sent =
      s_walked.sent ++ [frame .Tclunk 0 (le 4 1), frame .Tclunk 1 (le 4 1)] ∧
    (free_file_id (free_file_id s_walked 1) 1).request ≠ (free_file_id s_walked 1).request := by
  decide

/-! ## C3 -/

/-- C3 (the code at the failing input): `walk("", Directory)` takes tag 0 and FID 1;
when `update` receives the Rwalk with `nwqid = 0` and `header.length = 9`, `parse`
returns, a Tclunk for FID 1 has been sent, and `walk_result(0)` is 0. The offset of
"the last id" is computed as 65532, so the length check fails. -/
theorem zero_hop_walk_is_rejected :
    (request_walk s_mounted (cstr "") walkType.Directory).1 = 0 ∧
    (s_walk_root.req 0).walk_fileId = 1 ∧ (s_walk_root.req 0).walk_type = walkType.Directory ∧
    hdr_length (frame .Rwalk 0 (le 2 0)) = sizeof_header + sizeof_Rwalk ∧
    rwalk_id_offset 0 = 65532 ∧
    (update cfg0 1 s_walk_root (Recv.data (frame .Rwalk 0 (le 2 0)))).map
        (fun r => (r.1.sent.drop s_walk_root.sent.length, (walk_result r.1 0).1)) =
      some ([frame .Tclunk 1 (le 4 1)], 0) := by
  decide

/-! ## C7 -/

/-- C7 (the code at the failing input): after `request_version`, an Rversion with tag
NOTAG and msize 64 whose version string is "9P1999", or is empty, moves the session
to Attach and sets `bufferLen` to 64: the string that is compared is the one in the
send buffer. -/
theorem rversion_string_is_not_checked :
    s_version.state = State.Version ∧ s_version.bufferLen = 32 ∧
    (update cfg0 1 s_version
        (Recv.data (frame .Rversion NOTAG (le 4 64 ++ wire_string (cstr "9P1999"))))).map
        (fun r => (r.1.state, r.1.bufferLen)) = some (State.Attach, 64) ∧
    (update cfg0 1 s_version
        (Recv.data (frame .Rversion NOTAG (le 4 64 ++ wire_string (cstr ""))))).map
        (fun r => (r.1.state, r.1.bufferLen)) = some (State.Attach, 64) := by
  decide

/-! ## C9 -/

/-- C9 (the code at the failing input): an Rversion received while Mounted (tag
NOTAG, msize 62, empty version string) moves the session to Attach, sets `bufferLen`
from 64 to 62 and sends a Tattach; an Rattach with a directory qid received while in
state Version moves the session to Mounted. In both cases the only effect of the
state test is one more `INTERNAL_ERROR`. -/
theorem handshake_replies_are_not_gated :
    s_mounted.state = State.Mounted ∧ s_mounted.bufferLen = 64 ∧
    (update cfg0 1 s_mounted
        (Recv.data (frame .Rversion NOTAG (le 4 62 ++ wire_string (cstr ""))))).map
        (fun r => (r.1.state, r.1.bufferLen, r.1.sent.drop s_mounted.sent.length,
                   r.1.internal_errors)) =
      some (State.Attach, 62,
        [frame .Tattach 4 (le 4 0 ++ le 4 0 ++ wire_string (cstr "ArduPilot") ++
          wire_string (cstr ""))], s_mounted.internal_errors + 1) ∧
    s_version.state = State.Version ∧
    (update cfg0 1 s_version
        (Recv.data (frame .Rattach 4 (QTDIR :: List.replicate 12 0)))).map
        (fun r => (r.1.state, r.1.internal_errors)) =
      some (State.Mounted, s_version.internal_errors + 1) := by
  decide

/-! ## C6 -/

theorem request_attach_bufferLen (cfg : Config) (s : Session) :
    (request_attach cfg s).bufferLen = s.bufferLen := by
  unfold request_attach internal_error sock_send
  simp only []
  split_ifs <;> rfl

theorem request_attach_state (cfg : Config) (s : Session) :
    (request_attach cfg s).state = State.Attach := by
  unfold request_attach internal_error sock_send
  simp only []
  split_ifs <;> rfl

theorem handle_version_max_len_eq : handle_version_max_len = 55 := by decide

/-- C6: Rversion size negotiation. The largest fixed body computed in `handle_version`
is 55 bytes. If `handle_version` takes a session that is not in Attach to Attach, the
received tag was NOTAG, the received msize `m` satisfied
`sizeof(header) + max_len ≤ m ≤ sizeof(Message)`, and `bufferLen` is `m` afterwards.
If the tag is not NOTAG, or `m` is above `sizeof(Message)` or below
`sizeof(header) + max_len`, the session is left exactly as it was (same state, same
`bufferLen`, nothing sent). -/
theorem handle_version_negotiation (cfg : Config) (s : Session) :
    handle_version_max_len = 55 ∧
    ((handle_version cfg s).state = State.Attach → s.state ≠ State.Attach →
      hdr_tag s.receive = NOTAG ∧
      sizeof_header + handle_version_max_len ≤ rd s.receive 7 4 ∧
      62 ≤ rd s.receive 7 4 ∧
      rd s.receive 7 4 ≤ cfg.msgSize ∧
      (handle_version cfg s).bufferLen = rd s.receive 7 4) ∧
    ((hdr_tag s.receive ≠ NOTAG ∨ cfg.msgSize < rd s.receive 7 4 ∨
        rd s.receive 7 4 < sizeof_header + handle_version_max_len) →
      handle_version cfg s = s) := by
  refine ⟨handle_version_max_len_eq, ?_, ?_⟩
  · intro h hne
    unfold handle_version at h ⊢
    simp only [] at h ⊢
    split_ifs at h ⊢ with g1 g2 g3 g4 g5 g6
    · exact absurd h hne
    · exact absurd h hne
    · exact absurd h hne
    · exact absurd h hne
    · exact absurd h hne
    · exact absurd h hne
    · rw [request_attach_bufferLen]
      have hm := handle_version_max_len_eq
      rw [hm] at g4 ⊢
      simp only [sizeof_header] at g4 ⊢
      exact ⟨not_not.mp g2, by omega, by omega, by omega, trivial⟩
  · intro h
    unfold handle_version
    simp only []
    split_ifs with g1 g2 g3 g4 g5 g6
    · rfl
    · rfl
    · rfl
    · rfl
    · rfl
    · rfl
    · exfalso
      rcases h with h | h | h
      · exact g2 h
      · exact g3 h
      · exact g4 h

/-- C6 at the example session: the Rversion with tag NOTAG and msize 64 takes
`s_version` (state Version, a 128-byte `Message`) to Attach with `bufferLen = 64`. -/
theorem handle_version_negotiation_witness :
    (recv_frame cfg0 s_version (frame .Rversion NOTAG (le 4 64 ++ wire_string (cstr "9P2000"))))
      = s_attach ∧ s_attach.state = State.Attach ∧ s_version.state ≠ State.Attach ∧
    62 ≤ (64 : Nat) ∧ (64 : Nat) ≤ cfg0.msgSize ∧ s_attach.bufferLen = 64 ∧
    (handle_version cfg0
      { s_version with receive := frame .Rversion 7 (le 4 64 ++ wire_string (cstr "9P2000")) })
      = { s_version with receive := frame .Rversion 7 (le 4 64 ++ wire_string (cstr "9P2000")) } :=
  ⟨rfl, by decide, by decide, by decide, by decide, by decide,
    (handle_version_negotiation cfg0
      { s_version with receive := frame .Rversion 7 (le 4 64 ++ wire_string (cstr "9P2000")) }).2.2
      (Or.inl (by decide))⟩

/-! ## C8 -/

theorem handle_attach_state (s : Session) (h : s.state = State.Attach) :
    (handle_attach s).state = State.Mounted ↔
      (hdr_length s.receive = sizeof_header + sizeof_Rattach ∧
        hdr_tag s.receive = s.request.length ∧ rd s.receive 7 1 = QTDIR) := by
  unfold handle_attach
  split_ifs with g1 g2 g3
  · simp [h, g1]
  · simp [h, g2]
  · simp [h, g3]
  · simp only [not_not] at g1 g2 g3
    simp [g1, g2, g3]

theorem handle_attach_shape (s : Session) :
    handle_attach s = s ∨ handle_attach s = { s with state := State.Mounted } := by
  unfold handle_attach
  split_ifs
  · exact Or.inl rfl
  · exact Or.inl rfl
  · exact Or.inl rfl
  · exact Or.inr rfl

theorem dispatch_rattach (cfg : Config) (s : Session) (ht : hdr_type s.receive = MsgType.Rattach.toByte)
    (h : s.state = State.Attach) : dispatch cfg s = (handle_attach s, false) := by
  unfold dispatch
  rw [ht]
  simp [MsgType.ofByte, MsgType.toByte, h]

theorem rattach_validation_handled (cfg : Config) (s : Session) (len : Nat)
    (hs : s.state = State.Attach) (ht : hdr_type s.receive = MsgType.Rattach.toByte)
    (hlen : hdr_length s.receive ≤ len) (hbl : hdr_length s.receive ≤ s.bufferLen) :
    ((parse_frame cfg s len).1.state = State.Mounted ↔
      (hdr_length s.receive = sizeof_header + sizeof_Rattach ∧
        hdr_tag s.receive = s.request.length ∧ rd s.receive 7 1 = QTDIR)) ∧
    ((parse_frame cfg s len).1.state = State.Mounted ∨
      (parse_frame cfg s len).1.state = State.Attach) ∧
    (len = hdr_length s.receive → ∀ fuel,
      parse cfg (fuel + 1) s len = some (parse_frame cfg s len).1) := by
  have hst : (parse_frame cfg s len).1.state = (handle_attach s).state := by
    unfold parse_frame
    simp only []
    rw [dispatch_rattach cfg s ht hs]
    rw [if_neg (by omega), if_neg (by omega)]
    simp only [Bool.false_eq_true, if_false]
    split_ifs <;> rfl
  refine ⟨by rw [hst]; exact handle_attach_state s hs, ?_, ?_⟩
  · rw [hst]
    rcases handle_attach_shape s with h | h
    · rw [h]; exact Or.inr hs
    · rw [h]; exact Or.inl rfl
  · intro hl fuel
    have hnone : (parse_frame cfg s len).2 = none := by
      unfold parse_frame
      simp only []
      rw [dispatch_rattach cfg s ht hs]
      rw [if_neg (by omega), if_neg (by omega)]
      simp only [Bool.false_eq_true, if_false]
      have : hdr_length (handle_attach s).receive = hdr_length s.receive := by
        rcases handle_attach_shape s with h | h <;> rw [h]
      rw [if_pos (by rw [this]; omega)]
    unfold parse
    rw [hnone]

/-- C8: Rattach validation. In state Attach (where `bufferLen` holds at least the
20 bytes of an Rattach), when the receive buffer starts with a complete Rattach
frame, the activation of `parse` that meets it leaves the state Mounted if and only
if `header.length = sizeof(header) + sizeof(Rattach)`, the tag is
`ARRAY_SIZE(request)` and `qid.type = QTDIR`, and leaves it Attach otherwise; when the
frame is all that was received (`len = header.length`), `parse` returns with that
session. -/
theorem rattach_validation (cfg : Config) (s : Session) (len : Nat)
    (hs : s.state = State.Attach) (ht : hdr_type s.receive = MsgType.Rattach.toByte)
    (hlen : hdr_length s.receive ≤ len)
    (h20 : sizeof_header + sizeof_Rattach ≤ s.bufferLen) :
    ((parse_frame cfg s len).1.state = State.Mounted ↔
      (hdr_length s.receive = sizeof_header + sizeof_Rattach ∧
        hdr_tag s.receive = s.request.length ∧ rd s.receive 7 1 = QTDIR)) ∧
    ((parse_frame cfg s len).1.state = State.Mounted ∨
      (parse_frame cfg s len).1.state = State.Attach) ∧
    (len = hdr_length s.receive → ∀ fuel,
      parse cfg (fuel + 1) s len = some (parse_frame cfg s len).1) := by
  by_cases hbl : hdr_length s.receive ≤ s.bufferLen
  · exact rattach_validation_handled cfg s len hs ht hlen hbl
  · have hpf : parse_frame cfg s len = (s, none) := by
      unfold parse_frame
      simp only []
      rw [if_neg (by omega), if_pos (by omega)]
    rw [hpf]
    refine ⟨?_, Or.inr hs, ?_⟩
    · constructor
      · intro h; rw [hs] at h; cases h
      · intro h; exfalso; omega
    · intro _ fuel
      unfold parse
      rw [hpf]

/-- C8 at the example session: in `s_attach` the Rattach with tag 4 and a directory
qid mounts, and one with a file qid does not. -/
theorem rattach_validation_witness :
    (parse cfg0 1 { s_attach with receive := frame .Rattach 4 (QTDIR :: List.replicate 12 0) } 20
      ).map Session.state = some State.Mounted ∧
    ((parse_frame cfg0
      { s_attach with receive := frame .Rattach 4 (QTFILE :: List.replicate 12 0) } 20).1.state
        = State.Mounted ↔
      (hdr_length (frame .Rattach 4 (QTFILE :: List.replicate 12 0))
          = sizeof_header + sizeof_Rattach ∧
        hdr_tag (frame .Rattach 4 (QTFILE :: List.replicate 12 0)) = s_attach.request.length ∧
        rd (frame .Rattach 4 (QTFILE :: List.replicate 12 0)) 7 1 = QTDIR)) :=
  ⟨by decide,
   (rattach_validation cfg0
      { s_attach with receive := frame .Rattach 4 (QTFILE :: List.replicate 12 0) } 20
      (by decide) (by decide) (by decide) (by decide)).1⟩

/-! ## C10 -/

theorem get_free_tag_not_mounted (s : Session) (h : s.state ≠ State.Mounted) :
    get_free_tag s = (NOTAG, s) := by
  unfold get_free_tag
  rw [if_pos h]

theorem untouched_refl (s : Session) : Untouched s s := ⟨rfl, rfl, rfl, rfl, rfl, rfl, rfl⟩

theorem untouched_internal_error (s : Session) : Untouched s (internal_error s) :=
  ⟨rfl, rfl, rfl, rfl, rfl, rfl, rfl⟩

/-- When the state is not Mounted every entry point refuses. -/
theorem refused_of_not_mounted (cfg : Config) (s : Session)
    (h : s.state ≠ State.Mounted) : Refused cfg s := by
  unfold Refused
  have hg := get_free_tag_not_mounted s h
  have hg' : get_free_tag (internal_error s) = (NOTAG, internal_error s) :=
    get_free_tag_not_mounted (internal_error s) h
  refine ⟨hg, ?_, ?_, ?_, ?_, ?_, ?_, ?_, ?_, ?_, ?_, ?_⟩
  · intro path type
    unfold request_walk
    simp only [hg, if_true]
    exact ⟨trivial, untouched_refl s⟩
  · intro id flags
    unfold request_open
    simp only [hg, if_true]
    exact ⟨trivial, untouched_refl s⟩
  · intro id name dir
    unfold request_create
    simp only [hg, if_true]
    split_ifs
    · exact ⟨rfl, untouched_internal_error s⟩
    · exact ⟨rfl, untouched_refl s⟩
  · intro id offset count buf
    unfold request_file_read
    simp only [hg, if_true]
    split_ifs
    · exact ⟨rfl, untouched_internal_error s⟩
    · exact ⟨rfl, untouched_refl s⟩
  · intro id offset de
    unfold request_dir_read
    simp only [hg, if_true]
    split_ifs
    · exact ⟨rfl, untouched_internal_error s⟩
    · exact ⟨rfl, untouched_refl s⟩
  · intro id offset count buf
    unfold request_write
    simp only [hg, if_true]
    split_ifs
    · exact ⟨rfl, untouched_internal_error s⟩
    · exact ⟨rfl, untouched_refl s⟩
  · intro id
    unfold request_remove
    simp only [hg, if_true]
    split_ifs
    · exact ⟨rfl, untouched_internal_error s⟩
    · exact ⟨rfl, untouched_refl s⟩
  · intro id stbuf
    unfold request_stat
    simp only [hg, if_true]
    split_ifs
    · exact ⟨rfl, untouched_internal_error s⟩
    · exact ⟨rfl, untouched_refl s⟩
  · intro id name
    unfold request_rename
    simp only [hg, if_true]
    split_ifs
    · exact ⟨rfl, untouched_internal_error s⟩
    · exact ⟨rfl, untouched_refl s⟩
  · intro id mtime
    unfold request_set_mtime
    simp only [hg, if_true]
    split_ifs
    · exact ⟨rfl, untouched_internal_error s⟩
    · exact ⟨rfl, untouched_refl s⟩
  · intro id
    unfold free_file_id
    simp only []
    by_cases gv : (!valid_file_id s id) = true
    · rw [if_pos gv, hg']
      simp only [if_true]
      exact untouched_internal_error s
    · rw [if_neg gv, hg]
      simp only [if_true]
      exact untouched_refl s

/-- C10: only Mounted permits requests. When the state is not Mounted, `get_free_tag`
returns NOTAG and leaves the session as it is; each of `request_walk`, `request_open`,
`request_create`, `request_file_read`, `request_dir_read`, `request_write`,
`request_remove`, `request_stat`, `request_rename` and `request_set_mtime` returns
NOTAG, and `free_file_id` returns, with nothing given to the socket and the send
buffer, tag table and FID table unchanged. -/
theorem only_mounted_permits_requests (cfg : Config) (s : Session)
    (h : s.state ≠ State.Mounted) :
    get_free_tag s = (NOTAG, s) ∧
    (∀ path type, (request_walk s path type).1 = NOTAG ∧
      Untouched s (request_walk s path type).2) ∧
    (∀ id flags, (request_open cfg s id flags).1 = NOTAG ∧
      Untouched s (request_open cfg s id flags).2) ∧
    (∀ id name dir, (request_create cfg s id name dir).1 = NOTAG ∧
      Untouched s (request_create cfg s id name dir).2) ∧
    (∀ id offset count buf, (request_file_read s id offset count buf).1 = NOTAG ∧
      Untouched s (request_file_read s id offset count buf).2) ∧
    (∀ id offset de, (request_dir_read s id offset de).1 = NOTAG ∧
      Untouched s (request_dir_read s id offset de).2) ∧
    (∀ id offset count buf, (request_write s id offset count buf).1 = NOTAG ∧
      Untouched s (request_write s id offset count buf).2) ∧
    (∀ id, (request_remove s id).1 = NOTAG ∧ Untouched s (request_remove s id).2) ∧
    (∀ id stbuf, (request_stat s id stbuf).1 = NOTAG ∧
      Untouched s (request_stat s id stbuf).2) ∧
    (∀ id name, (request_rename cfg s id name).1 = NOTAG ∧
      Untouched s (request_rename cfg s id name).2) ∧
    (∀ id mtime, (request_set_mtime cfg s id mtime).1 = NOTAG ∧
      Untouched s (request_set_mtime cfg s id mtime).2) ∧
    (∀ id, Untouched s (free_file_id s id)) :=
  refused_of_not_mounted cfg s h

/-- C10 at the example session in state Attach: a walk and a release are refused. -/
theorem only_mounted_permits_requests_witness :
    s_attach.state ≠ State.Mounted ∧
    (request_walk s_attach (cstr "a/b") walkType.Any).1 = NOTAG ∧
    Untouched s_attach (request_walk s_attach (cstr "a/b") walkType.Any).2 ∧
    Untouched s_attach (free_file_id s_attach 1) :=
  ⟨by decide,
   ((only_mounted_permits_requests cfg0 s_attach (by decide)).2.1 (cstr "a/b") walkType.Any).1,
   ((only_mounted_permits_requests cfg0 s_attach (by decide)).2.1 (cstr "a/b") walkType.Any).2,
   (only_mounted_permits_requests cfg0 s_attach (by decide)).2.2.2.2.2.2.2.2.2.2.2 1⟩

/-! ## Frames as lists -/

theorem take_writeAt (m : List Nat) (off : Nat) (bs : List Nat) (k : Nat) :
    (writeAt m off bs).take k = writeAt (m.take k) off bs := by
  induction bs generalizing m off with
  | nil => rfl
  | cons b bs ih => simp only [writeAt, ih, List.set_take]

theorem writeAt_append_right (a b : List Nat) (off : Nat) (bs : List Nat) (h : a.length ≤ off) :
    writeAt (a ++ b) off bs = a ++ writeAt b (off - a.length) bs := by
  induction bs generalizing b off with
  | nil => rfl
  | cons x bs ih =>
    simp only [writeAt]
    rw [List.set_append_right _ _ h, ih _ _ (by omega)]
    congr 2
    omega

theorem writeAt_prefix (a b bs : List Nat) (h : bs.length = a.length) :
    writeAt (a ++ b) 0 bs = bs ++ b := by
  rw [writeAt_eq _ _ _ (by simp; omega)]
  simp [h]

theorem writeAt_writeAt (m : List Nat) (off : Nat) (a b : List Nat) :
    writeAt (writeAt m off a) (off + a.length) b = writeAt m off (a ++ b) := by
  induction a generalizing m off with
  | nil => simp [writeAt]
  | cons x a ih =>
    simp only [writeAt, List.cons_append, List.length_cons]
    have := ih (m.set off x) (off + 1)
    rw [show off + (a.length + 1) = off + 1 + a.length by omega]
    exact this

theorem writeAt_all (a bs : List Nat) (h : bs.length = a.length) : writeAt a 0 bs = bs := by
  have := writeAt_prefix a [] bs h
  simpa using this

theorem framed_length {m : List Nat} {L : Nat} {body : List Nat} (h : Framed m L body) :
    body.length + 4 = L := by
  have := congrArg List.length h.2.2
  simp only [List.length_take, List.length_append, length_le] at this
  have := h.1
  omega

theorem framed_hdr {m : List Nat} {L : Nat} {body : List Nat} (h : Framed m L body) :
    hdr_length m = L := by
  have h4 := framed_length h
  unfold hdr_length
  rw [← rd_take m L 0 4 (by omega), h.2.2, rd_le_append]
  exact Nat.mod_eq_of_lt h.2.1

theorem framed_append {m : List Nat} {L : Nat} {body : List Nat} (h : Framed m L body)
    (bs : List Nat) (h1 : L + bs.length ≤ m.length) (h2 : L + bs.length < 2 ^ 32) :
    Framed (set_hdr_length (writeAt m L bs) (L + bs.length)) (L + bs.length) (body ++ bs) := by
  have h4 := framed_length h
  refine ⟨by simpa using h1, h2, ?_⟩
  unfold set_hdr_length
  rw [take_writeAt, take_writeAt]
  have e1 : List.take (L + bs.length) m = (le 4 L ++ body) ++ List.take bs.length (List.drop L m) := by
    rw [List.take_add, h.2.2]
  have e3 : (le 4 L ++ body).length = L := by simp; omega
  have e4 : (List.take bs.length (List.drop L m)).length = bs.length := by
    simp only [List.length_take, List.length_drop]; omega
  rw [e1, writeAt_append_right _ _ _ _ (by omega), e3, Nat.sub_self,
    writeAt_all _ _ e4.symm, List.append_assoc]
  exact writeAt_prefix _ _ _ (by simp)

theorem framed_poke {m : List Nat} {L : Nat} {body : List Nat} (h : Framed m L body)
    (off : Nat) (bs : List Nat) (h1 : 4 ≤ off) :
    Framed (writeAt m off bs) L (writeAt body (off - 4) bs) := by
  refine ⟨by simpa using h.1, h.2.1, ?_⟩
  rw [take_writeAt, h.2.2, writeAt_append_right _ _ _ _ (by simpa using h1)]
  simp

theorem add_string_framed (cfg : Config) (bl : Nat) {m : List Nat} {L : Nat} {body : List Nat}
    (h : Framed m L body) (str : List Nat) (hs : str.length < 65536)
    (h1 : L + 2 + str.length ≤ min bl cfg.msgSize) (h2 : L + 2 + str.length ≤ m.length)
    (h3 : L + 2 + str.length < 2 ^ 32) :
    (add_string cfg bl m str).1 = true ∧
      Framed (add_string cfg bl m str).2 (L + 2 + str.length) (body ++ wire_string str) := by
  have hL := framed_hdr h
  have h4 := framed_length h
  have hmod : str.length % 65536 = str.length := Nat.mod_eq_of_lt hs
  unfold add_string
  simp only [hL, hmod]
  rw [if_neg (by omega)]
  refine ⟨rfl, ?_⟩
  simp only [List.take_length]
  have e := writeAt_writeAt m L (le 2 str.length) str
  simp only [length_le] at e
  rw [e, hdr_length_writeAt _ _ _ (by omega), hL]
  have := framed_append h (le 2 str.length ++ str) (by simp; omega) (by simp; omega)
  simp only [List.length_append, length_le] at this
  unfold wire_string
  rw [show L + (2 + str.length) = L + 2 + str.length by omega] at this ⊢
  exact this

theorem sock_send_framed (s : Session) (L : Nat) (body : List Nat) (hsock : s.sock = true)
    (h : Framed s.send L body) : (sock_send s).sent = s.sent ++ [le 4 L ++ body] := by
  unfold sock_send
  rw [if_pos hsock, framed_hdr h, h.2.2]

theorem take_eq_of_getD (m e : List Nat) (k : Nat) (hk : k ≤ m.length) (he : e.length = k)
    (h : ∀ i, i < k → m.getD i 0 = e.getD i 0) : m.take k = e := by
  apply ext_getD
  · simp [he]; omega
  · intro i hi
    simp only [List.length_take] at hi
    rw [← h i (by omega)]
    simp [List.getD_eq_getElem?_getD, List.getElem?_take, show i < k by omega]

theorem eq_of_getD_lt (a e : List Nat) (k : Nat) (ha : a.length = k) (he : e.length = k)
    (h : ∀ i, i < k → a.getD i 0 = e.getD i 0) : a = e :=
  ext_getD a e (by omega) (fun i hi => h i (by omega))

theorem framed_tattach (send : List Nat) (n : Nat) (h : 15 ≤ send.length) :
    Framed (writeAt (writeAt (set_hdr_length (set_hdr_tag (set_hdr_type send
        MsgType.Tattach.toByte) n) (sizeof_header + sizeof_Tattach)) 7 (le 4 0)) 11 (le 4 0))
      15 ([MsgType.Tattach.toByte] ++ le 2 n ++ le 4 0 ++ le 4 0) := by
  refine ⟨by simpa using h, by norm_num, ?_⟩
  simp only [set_hdr_length, set_hdr_tag, set_hdr_type, take_writeAt]
  generalize hP : List.take 15 send = p
  have hp : p.length = 15 := by rw [← hP]; simp; omega
  apply eq_of_getD_lt _ _ 15 (by simp [hp]) (by simp)
  intro i hi
  simp only [getD_writeAt, length_writeAt, length_le, hp]
  interval_cases i <;> simp [le, MsgType.toByte, sizeof_header, sizeof_Tattach]

theorem add_string_length (cfg : Config) (bl : Nat) (m str : List Nat) :
    (add_string cfg bl m str).2.length = m.length := by
  unfold add_string
  simp only []
  split_ifs
  · rfl
  · simp

/-! ## C5 -/

/-- C5 as stated fails: the Tattach that `request_attach` sends from the example
session after `request_version` carries `afid = 0`, not NOFID. -/
theorem request_attach_afid_counterexample :
    s_version.sock = true ∧
    ((request_attach cfg0 s_version).sent.drop s_version.sent.length).map
        (fun f => (hdr_type f, hdr_tag f, rd f 7 4, rd f 11 4)) =
      [(MsgType.Tattach.toByte, s_version.request.length, 0, 0)] ∧
    (0 : Nat) ≠ NOFID := by
  decide

/-- C5, amended: `request_attach` sets the state to Attach and, when the socket is
there and the 28-byte frame fits `bufferLen` and `sizeof(Message)`, gives the socket
one Tattach frame whose tag is `ARRAY_SIZE(request)`, with `fid = 0`, `afid = 0`,
uname "ArduPilot" and an empty aname. -/
theorem request_attach_encoding (cfg : Config) (s : Session) (hsock : s.sock = true)
    (hbl : 28 ≤ s.bufferLen) (hmsg : 28 ≤ cfg.msgSize) (hsend : 28 ≤ s.send.length) :
    (request_attach cfg s).state = State.Attach ∧
    (request_attach cfg s).sent = s.sent ++
      [frame .Tattach s.request.length
        (le 4 0 ++ le 4 0 ++ wire_string (cstr "ArduPilot") ++ wire_string (cstr ""))] := by
  refine ⟨request_attach_state cfg s, ?_⟩
  have f0 := framed_tattach s.send s.request.length (by omega)
  have e9 : (cstr "ArduPilot").length = 9 := by decide
  have e0 : (cstr "").length = 0 := by decide
  have hmin : 28 ≤ min s.bufferLen cfg.msgSize := le_min hbl hmsg
  obtain ⟨a1, a2⟩ := add_string_framed cfg s.bufferLen f0 (cstr "ArduPilot") (by rw [e9]; norm_num)
    (by rw [e9]; omega) (by rw [e9]; simp; omega) (by rw [e9]; norm_num)
  obtain ⟨b1, b2⟩ := add_string_framed cfg s.bufferLen a2 (cstr "") (by rw [e0]; norm_num)
    (by rw [e9, e0]; omega)
    (by rw [e9, e0, add_string_length]; simp; omega)
    (by rw [e9, e0]; norm_num)
  unfold request_attach
  simp only []
  rw [if_pos a1, if_pos b1]
  have := sock_send_framed
    { s with state := State.Attach, send := (add_string cfg s.bufferLen (add_string cfg s.bufferLen
      (writeAt (writeAt (set_hdr_length (set_hdr_tag (set_hdr_type s.send MsgType.Tattach.toByte)
      s.request.length) (sizeof_header + sizeof_Tattach)) 7 (le 4 0)) 11 (le 4 0))
      (cstr "ArduPilot")).2 (cstr "")).2 } _ _ hsock b2
  rw [this]
  simp only [frame, wire_string, e9, e0, List.length_append, length_le, sizeof_header,
    List.append_assoc, List.singleton_append, List.cons_append, List.nil_append]

/-- C5, amended, at the example session: the frame sent after `request_version`. -/
theorem request_attach_encoding_witness :
    (s_version.sock = true ∧ 28 ≤ s_version.bufferLen ∧ 28 ≤ cfg0.msgSize ∧
      28 ≤ s_version.send.length) ∧
    (request_attach cfg0 s_version).state = State.Attach ∧
    (request_attach cfg0 s_version).sent = s_version.sent ++
      [frame .Tattach s_version.request.length
        (le 4 0 ++ le 4 0 ++ wire_string (cstr "ArduPilot") ++ wire_string (cstr ""))] :=
  ⟨⟨by decide, by decide, by decide, by decide⟩,
    request_attach_encoding cfg0 s_version (by decide) (by decide) (by decide) (by decide)⟩

/-! ## C4 -/

theorem framed_rd {m : List Nat} {L : Nat} {body : List Nat} (h : Framed m L body)
    (off n : Nat) (h1 : 4 ≤ off) (h2 : off + n ≤ L) : rd m off n = rd body (off - 4) n := by
  rw [← rd_take m L off n h2, h.2.2]
  have := rd_append_right (le 4 L) body (off - 4) n
  simp only [length_le] at this
  rw [show 4 + (off - 4) = off by omega] at this
  exact this

theorem framed_twalk (send : List Nat) (tag id : Nat) (h : 17 ≤ send.length) :
    Framed (writeAt (writeAt (writeAt (set_hdr_length (set_hdr_tag (set_hdr_type send
        MsgType.Twalk.toByte) tag) (sizeof_header + sizeof_Twalk)) 7 (le 4 0)) 11 (le 4 id)) 15
        (le 2 0))
      17 (([MsgType.Twalk.toByte] ++ le 2 tag ++ le 4 0 ++ le 4 id) ++ le 2 0 ++ []) := by
  refine ⟨by simpa using h, by norm_num, ?_⟩
  simp only [set_hdr_length, set_hdr_tag, set_hdr_type, take_writeAt]
  generalize hP : List.take 17 send = p
  have hp : p.length = 17 := by rw [← hP]; simp; omega
  apply eq_of_getD_lt _ _ 17 (by simp [hp]) (by simp)
  intro i hi
  simp only [getD_writeAt, length_writeAt, length_le, hp]
  interval_cases i <;> simp [le, MsgType.toByte, sizeof_header, sizeof_Twalk]

theorem walk_add_name_framed {m : List Nat} (hd : List Nat) (k : Nat) (enc : List Nat)
    (name : List Nat) (hhd : hd.length = 11)
    (h : Framed m (17 + enc.length) (hd ++ le 2 k ++ enc))
    (h1 : 17 + enc.length + 2 + name.length ≤ m.length)
    (h2 : 17 + enc.length + 2 + name.length < 2 ^ 32) (hk : k < 65536) :
    Framed (walk_add_name m name.length name) (17 + enc.length + 2 + name.length)
      (hd ++ le 2 (k + 1) ++ (enc ++ wire_string name)) := by
  have hL := framed_hdr h
  unfold walk_add_name
  simp only []
  rw [hdr_length_writeAt _ _ _ (by rw [hL]; omega), hL]
  have f2 := framed_append h (le 2 name.length) (by simp; omega) (by simp; omega)
  simp only [length_le] at f2
  rw [framed_hdr f2]
  have f4 := framed_append f2 name (by simp; omega) (by omega)
  rw [hdr_length_writeAt _ _ _ (by omega), framed_hdr f2]
  have hk' : rd (set_hdr_length (writeAt (set_hdr_length (writeAt m (17 + enc.length)
      (le 2 name.length)) (17 + enc.length + 2)) (17 + enc.length + 2) name)
      (17 + enc.length + 2 + name.length)) 15 2 = k := by
    rw [framed_rd f4 15 2 (by norm_num) (by omega)]
    have := rd_append_right hd (le 2 k ++ (enc ++ le 2 name.length ++ name)) 0 2
    rw [hhd] at this
    simp only [List.append_assoc] at this ⊢
    rw [this, rd_le_append]
    exact Nat.mod_eq_of_lt hk
  rw [hk']
  have f5 := framed_poke f4 15 (le 2 (k + 1)) (by norm_num)
  have e : writeAt (hd ++ le 2 k ++ enc ++ le 2 name.length ++ name) (15 - 4) (le 2 (k + 1))
      = hd ++ le 2 (k + 1) ++ (enc ++ wire_string name) := by
    simp only [List.append_assoc]
    rw [writeAt_append_right _ _ _ _ (by rw [hhd]), hhd]
    rw [show 15 - 4 - 11 = 0 by norm_num, writeAt_prefix _ _ _ (by simp)]
    rfl
  rw [e] at f5
  exact f5

theorem walk_loop_skip (path : List Nat) (len bl : Nat) (c : Nat) :
    ∀ (n i ns : Nat) (m : List Nat),
      (∀ j, j < c → path.getD (i + j) 0 ≠ 47 ∧ i + j ≠ len - 1) →
      walk_loop path len bl (n + c) i ns m = walk_loop path len bl n (i + c) ns m := by
  induction c with
  | zero => intro n i ns m _; rfl
  | succ c ih =>
    intro n i ns m h
    have h0 := h 0 (by omega)
    rw [show n + (c + 1) = (n + c) + 1 by omega]
    rw [walk_loop]
    simp only []
    have hcond : ¬ ((path.getD i 0 == 47 || i == len - 1) = true) := by
      simp only [Bool.or_eq_true, beq_iff_eq, not_or]
      exact ⟨by simpa using h0.1, by simpa using h0.2⟩
    rw [if_neg hcond]
    rw [ih n (i + 1) ns m (fun j hj => by
      have := h (j + 1) (by omega)
      rw [show i + 1 + j = i + (j + 1) by omega]
      exact this)]
    rw [show i + 1 + c = i + (c + 1) by omega]

theorem walk_loop_emit (path : List Nat) (len bl n i ns : Nat) (m : List Nat) (nl : Nat)
    (hc : path.getD i 0 = 47 ∨ i = len - 1)
    (hnl : nl = i - ns + (if path.getD i 0 = 47 then 0 else 1)) (hnl2 : nl < 65536)
    (hfit : hdr_length m + 2 + nl ≤ bl) (hbl : bl < 2 ^ 32) :
    walk_loop path len bl (n + 1) i ns m =
      walk_loop path len bl n (i + 1) (i + 1)
        (walk_add_name m nl ((path.drop ns).take nl)) := by
  rw [walk_loop]
  simp only []
  have hcond : (path.getD i 0 == 47 || i == len - 1) = true := by
    simp only [Bool.or_eq_true, beq_iff_eq]
    exact hc
  rw [if_pos hcond]
  have e : (i - ns + if (path.getD i 0 == 47) = true then 0 else 1) % 65536 = nl := by
    simp only [beq_iff_eq]
    rw [← hnl]
    exact Nat.mod_eq_of_lt hnl2
  rw [e, Nat.mod_eq_of_lt (by omega), if_neg (by omega)]

theorem getD_mid (pre seg post : List Nat) (j : Nat) (hj : j < seg.length) :
    (pre ++ (seg ++ post)).getD (pre.length + j) 0 = seg.getD j 0 := by
  rw [List.getD_append_right _ _ _ _ (by omega), Nat.add_sub_cancel_left,
    List.getD_append _ _ _ _ hj]

theorem getD_mem_of_lt (seg : List Nat) (j : Nat) (hj : j < seg.length) : seg.getD j 0 ∈ seg := by
  rw [List.getD_eq_getElem _ _ hj]
  exact List.getElem_mem hj

theorem getD_end (pre seg : List Nat) (j : Nat) :
    (pre ++ seg).getD (pre.length + j) 0 = seg.getD j 0 := by
  rw [List.getD_append_right _ _ _ _ (by omega), Nat.add_sub_cancel_left]

theorem take_drop_end (pre seg : List Nat) :
    ((pre ++ seg).drop pre.length).take seg.length = seg := by
  rw [List.drop_left, List.take_length]

theorem take_drop_mid (pre seg post : List Nat) :
    ((pre ++ (seg ++ post)).drop pre.length).take seg.length = seg := by
  rw [List.drop_left, List.take_left]

theorem wire_string_length (str : List Nat) : (wire_string str).length = 2 + str.length := by
  simp [wire_string]

theorem walk_loop_skip_to (path : List Nat) (len bl c n n' i i' ns : Nat) (m : List Nat)
    (hn : n' = n + c) (hi : i' = i + c)
    (h : ∀ j, j < c → path.getD (i + j) 0 ≠ 47 ∧ i + j ≠ len - 1) :
    walk_loop path len bl n' i ns m = walk_loop path len bl n i' ns m := by
  subst hn hi
  exact walk_loop_skip path len bl c n i ns m h

theorem walk_loop_emit_to (path : List Nat) (len bl n n' i i1 ns : Nat) (m : List Nat) (nl : Nat)
    (name : List Nat) (hn : n' = n + 1) (hi : i1 = i + 1)
    (hname : name = (path.drop ns).take nl)
    (hc : path.getD i 0 = 47 ∨ i = len - 1)
    (hnl : nl = i - ns + (if path.getD i 0 = 47 then 0 else 1)) (hnl2 : nl < 65536)
    (hfit : hdr_length m + 2 + nl ≤ bl) (hbl : bl < 2 ^ 32) :
    walk_loop path len bl n' i ns m = walk_loop path len bl n i1 i1 (walk_add_name m nl name) := by
  subst hn hi hname
  exact walk_loop_emit path len bl n i ns m nl hc hnl hnl2 hfit hbl

theorem walk_loop_spec (hd : List Nat) (hhd : hd.length = 11) (bl : Nat) (hbl : bl < 2 ^ 32) :
    ∀ (segs : List (List Nat)) (pre : List Nat) (k : Nat) (enc m : List Nat),
      (∀ seg ∈ segs, seg ≠ [] ∧ 47 ∉ seg) →
      (pre ++ join_path segs).length < 65536 →
      Framed m (17 + enc.length) (hd ++ le 2 k ++ enc) →
      17 + enc.length + (segs.map (fun seg => 2 + seg.length)).sum ≤ bl →
      bl ≤ m.length → k + segs.length < 65536 →
      ∃ m', walk_loop (pre ++ join_path segs) (pre ++ join_path segs).length bl
          (join_path segs).length pre.length pre.length m = (true, m') ∧
        Framed m' (17 + enc.length + (segs.map (fun seg => 2 + seg.length)).sum)
          (hd ++ le 2 (k + segs.length) ++ (enc ++ (segs.map wire_string).flatten)) := by
  intro segs
  induction segs with
  | nil =>
    intro pre k enc m _ _ hf _ _ _
    exact ⟨m, rfl, by simpa [join_path] using hf⟩
  | cons seg rest ih =>
    intro pre k enc m hseg hlen hf hfit hm hk
    have hs := hseg seg (List.mem_cons_self _ _)
    have hsl : 0 < seg.length := List.length_pos.mpr hs.1
    have hchar : ∀ j, j < seg.length → seg.getD j 0 ≠ 47 := fun j hj h47 =>
      hs.2 (h47 ▸ getD_mem_of_lt seg j hj)
    have hL := framed_hdr hf
    simp only [List.map_cons, List.sum_cons] at hfit ⊢
    have hfr := walk_add_name_framed hd k enc seg hhd hf (by omega) (by omega) (by omega)
    cases rest with
    | nil =>
      have hj : join_path [seg] = seg := rfl
      rw [hj] at hlen ⊢
      have hlen2 : (pre ++ seg).length = pre.length + seg.length := by simp
      rw [walk_loop_skip_to (pre ++ seg) (List.length (pre ++ seg)) bl (seg.length - 1) 1
        seg.length pre.length (pre.length + (seg.length - 1)) pre.length m
        (by omega) rfl
        (fun j hj => by
          refine ⟨?_, by rw [hlen2]; omega⟩
          rw [getD_end pre seg j]
          exact hchar j (by omega))]
      have hlast : (pre ++ seg).getD (pre.length + (seg.length - 1)) 0 ≠ 47 := by
        rw [getD_end pre seg _]
        exact hchar _ (by omega)
      rw [walk_loop_emit_to (pre ++ seg) (List.length (pre ++ seg)) bl 0 1
        (pre.length + (seg.length - 1))
        (pre.length + seg.length) pre.length m seg.length seg rfl (by omega)
        (take_drop_end pre seg).symm (Or.inr (by rw [hlen2]; omega))
        (by rw [if_neg hlast]; omega) (by omega) (by rw [hL]; omega) hbl]
      rw [walk_loop]
      refine ⟨_, rfl, ?_⟩
      simp only [List.map_nil, List.sum_nil, List.length_singleton, List.flatten_cons,
        List.flatten_nil, List.append_nil, Nat.add_zero]
      rw [show 17 + enc.length + (2 + seg.length) = 17 + enc.length + 2 + seg.length by omega]
      exact hfr
    | cons next rest' =>
      have hj : join_path (seg :: next :: rest') = seg ++ 47 :: join_path (next :: rest') := rfl
      rw [hj] at hlen ⊢
      generalize hJ : join_path (next :: rest') = jp at hlen ⊢
      have hlen2 : (pre ++ (seg ++ 47 :: jp)).length = pre.length + seg.length + 1 + jp.length := by
        simp; omega
      rw [walk_loop_skip_to (pre ++ (seg ++ 47 :: jp)) (List.length (pre ++ (seg ++ 47 :: jp))) bl
        seg.length (1 + jp.length)
        (seg ++ 47 :: jp).length pre.length (pre.length + seg.length) pre.length m
        (by simp; omega) rfl
        (fun j hj => by
          refine ⟨?_, by rw [hlen2]; omega⟩
          rw [getD_mid pre seg _ j hj]
          exact hchar j hj)]
      have hslash : (pre ++ (seg ++ 47 :: jp)).getD (pre.length + seg.length) 0 = 47 := by
        rw [List.getD_append_right _ _ _ _ (by omega), Nat.add_sub_cancel_left,
          List.getD_append_right _ _ _ _ (le_refl _), Nat.sub_self]
        rfl
      rw [walk_loop_emit_to (pre ++ (seg ++ 47 :: jp)) (List.length (pre ++ (seg ++ 47 :: jp))) bl
        jp.length (1 + jp.length)
        (pre.length + seg.length) (pre.length + seg.length + 1) pre.length m seg.length seg
        (by omega) rfl (take_drop_mid pre seg _).symm (Or.inl hslash)
        (by rw [if_pos hslash]; omega) (by omega) (by rw [hL]; omega) hbl]
      have hpath : pre ++ (seg ++ 47 :: jp) = (pre ++ seg ++ [47]) ++ jp := by simp
      have hpl : (pre ++ seg ++ [47]).length = pre.length + seg.length + 1 := by simp; omega
      have hel : (enc ++ wire_string seg).length = enc.length + 2 + seg.length := by
        rw [List.length_append, wire_string_length]; omega
      have := ih (pre ++ seg ++ [47]) (k + 1) (enc ++ wire_string seg)
        (walk_add_name m seg.length seg)
        (fun s hs => hseg s (List.mem_cons_of_mem _ hs))
        (by rw [hJ, ← hpath]; exact hlen)
        (by rw [hel, show 17 + (enc.length + 2 + seg.length) = 17 + enc.length + 2 + seg.length
              by omega]; exact hfr)
        (by rw [hel]; omega)
        (by have := hfr.1; rw [(walk_add_name_hdr m seg.length seg (by have := hf.1; omega)
              (by rw [hL]; omega) (by rw [hL]; omega)).1] at this ⊢; exact hm)
        (by simp only [List.length_cons] at hk ⊢; omega)
      rw [hJ, ← hpath, hpl, hel] at this
      obtain ⟨m', h1, h2⟩ := this
      refine ⟨m', h1, ?_⟩
      simp only [List.length_cons, List.flatten_cons, List.map_cons, List.sum_cons,
        List.append_assoc] at h2 ⊢
      rw [show 17 + enc.length + (2 + seg.length + (2 + next.length +
          (List.map (fun seg => 2 + seg.length) rest').sum)) =
        17 + (enc.length + 2 + seg.length) + (2 + next.length +
          (List.map (fun seg => 2 + seg.length) rest').sum) by omega,
        show k + (rest'.length + 1 + 1) = k + 1 + (rest'.length + 1) by omega]
      exact h2

theorem scan_free_bounds {α : Type} (p : α → Bool) (l : List α) :
    ∀ (i0 j : Nat), scan_free p l i0 = some j → i0 ≤ j ∧ j < i0 + l.length := by
  induction l with
  | nil => intro i0 j h; simp [scan_free] at h
  | cons x xs ih =>
    intro i0 j h
    unfold scan_free at h
    split_ifs at h
    · have := ih (i0 + 1) j h
      simp only [List.length_cons]
      omega
    · simp only [Option.some.injEq] at h
      simp only [List.length_cons]
      omega

theorem get_free_tag_mounted (s : Session) (tag : Nat) (hst : s.state = State.Mounted)
    (htag : scan_free Request.active s.request 0 = some tag) :
    get_free_tag s =
      (tag, { s with request := upd s.request tag (fun q => { q with active := true }) }) := by
  unfold get_free_tag
  rw [if_neg (by simp [hst]), htag]

theorem generate_unique_file_id_some (s : Session) (i : Nat)
    (hfid : scan_free FileId.active s.fileIds 0 = some i) :
    generate_unique_file_id s =
      (i + 1, { s with fileIds := upd s.fileIds i (fun _ => { active := true, clunked := false }) }) := by
  unfold generate_unique_file_id
  rw [hfid]

theorem length_le_join_path (segs : List (List Nat)) (h : ∀ seg ∈ segs, seg ≠ []) :
    segs.length ≤ (join_path segs).length := by
  induction segs with
  | nil => simp
  | cons seg rest ih =>
    have hs : 0 < seg.length := List.length_pos.mpr (h seg (List.mem_cons_self _ _))
    have hr := ih (fun s hs => h s (List.mem_cons_of_mem _ hs))
    cases rest with
    | nil => simp [join_path]; omega
    | cons next rest' =>
      simp only [join_path, List.length_cons, List.length_append] at hr ⊢
      omega

theorem length_flatten_wire (segs : List (List Nat)) :
    ((segs.map wire_string).flatten).length = (segs.map (fun seg => 2 + seg.length)).sum := by
  induction segs with
  | nil => rfl
  | cons seg rest ih =>
    simp only [List.map_cons, List.flatten_cons, List.length_append, List.sum_cons, ih,
      wire_string_length]

/-- C4: Twalk encoding. In state Mounted, with the socket there, `tag` the first free
tag slot and `i` the first free FID slot, for a path made of segments that are
non-empty and free of `/`, joined by single `/` (the empty path when there are none),
whose encoding fits `bufferLen`: `request_walk` returns `tag` and gives the socket one
Twalk frame with `fid = 0`, `newfid = i + 1`, `nwname` the number of segments, then
every segment in order as a u16 length and its bytes; the body after type and tag has
`sizeof(Twalk) + sum (2 + |segment|)` bytes, which with the header is `header.length`. -/
theorem request_walk_encoding (s : Session) (segs : List (List Nat)) (type : walkType)
    (tag i : Nat) (hst : s.state = State.Mounted) (hsock : s.sock = true)
    (htag : scan_free Request.active s.request 0 = some tag)
    (hfid : scan_free FileId.active s.fileIds 0 = some i)
    (hN : s.request.length < NOTAG)
    (hseg : ∀ seg ∈ segs, seg ≠ [] ∧ 47 ∉ seg)
    (hlen : (join_path segs).length < 65536)
    (hfit : sizeof_header + sizeof_Twalk + (segs.map (fun seg => 2 + seg.length)).sum
      ≤ s.bufferLen)
    (hbuf : s.bufferLen ≤ s.send.length) (hb : s.bufferLen < 2 ^ 32) :
    (request_walk s (join_path segs) type).1 = tag ∧
    (request_walk s (join_path segs) type).2.sent = s.sent ++
      [frame .Twalk tag
        (le 4 0 ++ le 4 (i + 1) ++ le 2 segs.length ++ (segs.map wire_string).flatten)] ∧
    (le 4 0 ++ le 4 (i + 1) ++ le 2 segs.length ++ (segs.map wire_string).flatten).length =
      sizeof_Twalk + (segs.map (fun seg => 2 + seg.length)).sum := by
  have hlenbody : (le 4 0 ++ le 4 (i + 1) ++ le 2 segs.length ++
      (segs.map wire_string).flatten).length =
      sizeof_Twalk + (segs.map (fun seg => 2 + seg.length)).sum := by
    simp only [List.length_append, length_le, length_flatten_wire, sizeof_Twalk]
  have htb := scan_free_bounds _ _ _ _ htag
  have htn : tag ≠ NOTAG := by omega
  simp only [sizeof_header, sizeof_Twalk] at hfit
  have f0 := framed_twalk s.send tag (i + 1) (by omega)
  have hsp := walk_loop_spec ([MsgType.Twalk.toByte] ++ le 2 tag ++ le 4 0 ++ le 4 (i + 1))
    (by simp) s.bufferLen hb segs [] 0 [] _ hseg (by simpa using hlen) f0
    (by simpa using (by omega : 17 + (segs.map (fun seg => 2 + seg.length)).sum ≤ s.bufferLen))
    (by simpa using hbuf)
    (by have := length_le_join_path segs (fun seg hs => (hseg seg hs).1); omega)
  obtain ⟨m', hw, hf⟩ := hsp
  simp only [List.nil_append, List.length_nil, Nat.zero_add, Nat.add_zero] at hw hf
  unfold request_walk
  simp only []
  rw [get_free_tag_mounted s tag hst htag]
  simp only []
  rw [if_neg htn]
  have hg := generate_unique_file_id_some
    { s with request := upd s.request tag (fun q => { q with active := true }) } i hfid
  rw [hg]
  simp only []
  rw [if_neg (by omega), Nat.mod_eq_of_lt hlen, hw]
  simp only [Bool.not_true, Bool.false_eq_true, if_false]
  refine ⟨trivial, ?_, hlenbody⟩
  refine (sock_send_framed _ (17 + (segs.map (fun seg => 2 + seg.length)).sum)
    ([MsgType.Twalk.toByte] ++ le 2 tag ++ le 4 0 ++ le 4 (i + 1) ++ le 2 segs.length ++
      (List.map wire_string segs).flatten) ?_ ?_).trans ?_
  · exact hsock
  · exact hf
  · simp only [frame, sizeof_header, List.append_assoc, List.singleton_append,
      List.cons_append, List.nil_append, List.length_append, length_le, length_flatten_wire]
    rw [show 17 + (segs.map (fun seg => 2 + seg.length)).sum
      = 7 + (4 + (4 + (2 + (segs.map (fun seg => 2 + seg.length)).sum))) by omega]

/-- C4 at the mounted example session: `walk("data/log.bin", File)` takes tag 0 and
FID 1 and sends Twalk(fid=0, newfid=1, nwname=2, "data", "log.bin"); `walk("a/b/c",
Any)` sends three names. -/
theorem request_walk_encoding_witness :
    (s_mounted.state = State.Mounted ∧ s_mounted.sock = true ∧
      scan_free Request.active s_mounted.request 0 = some 0 ∧
      scan_free FileId.active s_mounted.fileIds 0 = some 0) ∧
    join_path [cstr "data", cstr "log.bin"] = cstr "data/log.bin" ∧
    join_path [cstr "a", cstr "b", cstr "c"] = cstr "a/b/c" ∧
    (request_walk s_mounted (join_path [cstr "data", cstr "log.bin"]) walkType.File).1 = 0 ∧
    (request_walk s_mounted (join_path [cstr "data", cstr "log.bin"]) walkType.File).2.sent =
      s_mounted.sent ++ [frame .Twalk 0 (le 4 0 ++ le 4 (0 + 1) ++
        le 2 [cstr "data", cstr "log.bin"].length ++
        ([cstr "data", cstr "log.bin"].map wire_string).flatten)] ∧
    (request_walk s_mounted (join_path [cstr "a", cstr "b", cstr "c"]) walkType.Any).2.sent =
      s_mounted.sent ++ [frame .Twalk 0 (le 4 0 ++ le 4 (0 + 1) ++
        le 2 [cstr "a", cstr "b", cstr "c"].length ++
        ([cstr "a", cstr "b", cstr "c"].map wire_string).flatten)] :=
  ⟨⟨by decide, by decide, by decide, by decide⟩, by decide, by decide,
    (request_walk_encoding s_mounted [cstr "data", cstr "log.bin"] walkType.File 0 0
      (by decide) (by decide) (by decide) (by decide) (by decide) (by decide) (by decide)
      (by decide) (by decide) (by decide)).1,
    (request_walk_encoding s_mounted [cstr "data", cstr "log.bin"] walkType.File 0 0
      (by decide) (by decide) (by decide) (by decide) (by decide) (by decide) (by decide)
      (by decide) (by decide) (by decide)).2.1,
    (request_walk_encoding s_mounted [cstr "a", cstr "b", cstr "c"] walkType.Any 0 0
      (by decide) (by decide) (by decide) (by decide) (by decide) (by decide) (by decide)
      (by decide) (by decide) (by decide)).2.1⟩

/-! ## C11 -/

theorem request_version_state (cfg : Config) (s : Session) :
    (request_version cfg s).state = State.Version := by
  unfold request_version
  simp only []
  unfold sock_send
  split_ifs <;> rfl

/-- C11 (the code at the failing input): `update` with a zero-length recv on the
mounted example session gives up the socket and changes nothing else: the state is
still Mounted and `connected` still set, so `mounted()` is true; `get_free_tag` hands
out tag 0, and `request_walk` takes tag 0, builds the Twalk and calls `sock->send` on
the null socket, so that nothing is sent. After a pass of `loop` in which the connect
fails the state is Mounted as well, and `request_walk` does the same. -/
theorem update_closed_keeps_mounted :
    mounted s_mounted = true ∧ s_mounted.fault = false ∧
    (update cfg0 1 s_mounted Recv.closed).map
      (fun r => (r.1.state, r.1.connected, r.1.sock)) = some (State.Mounted, true, false) ∧
    (update cfg0 1 s_mounted Recv.closed).map (fun r => (mounted r.1, r.1.fault)) =
      some (true, false) ∧
    (update cfg0 1 s_mounted Recv.closed).map
      (fun r => ((get_free_tag r.1).1, (request_walk r.1 (cstr "a") walkType.Any).1,
        (request_walk r.1 (cstr "a") walkType.Any).2.fault,
        (request_walk r.1 (cstr "a") walkType.Any).2.sent)) =
      some (0, 0, true, s_mounted.sent) ∧
    (update cfg0 1 s_mounted Recv.closed).map
      (fun r => ((loop_connect cfg0 r.1 true false).1.state,
        (loop_connect cfg0 r.1 true false).1.sock, (loop_connect cfg0 r.1 true false).2)) =
      some (State.Mounted, false, true) ∧
    (update cfg0 1 s_mounted Recv.closed).map
      (fun r =>
        ((request_walk (loop_connect cfg0 r.1 true false).1 (cstr "a") walkType.Any).1,
        (request_walk (loop_connect cfg0 r.1 true false).1 (cstr "a") walkType.Any).2.fault)) =
      some (0, true) := by
  decide

/-! ## C12 -/

theorem request_version_request (cfg : Config) (s : Session) :
    (request_version cfg s).request = s.request := by
  unfold request_version
  simp only []
  unfold sock_send
  split_ifs <;> rfl

theorem request_version_fileIds (cfg : Config) (s : Session) :
    (request_version cfg s).fileIds = s.fileIds := by
  unfold request_version
  simp only []
  unfold sock_send
  split_ifs <;> rfl

/-- C12, the code at the failing input: the example session with a walk in flight
(tag 0 active and pending, FID 1 taken) loses its connection and `loop` reconnects
and sends the version request. The FID table is cleared, the tag table is not: slot 0
is still active and pending. -/
theorem reconnect_keeps_pending_tag :
    s_closed.request.map (fun q => (q.active, q.pending)) =
      [(true, true), (false, false), (false, false), (false, false)] ∧
    (loop_connect cfg0 s_closed true true).2 = false ∧
    (loop_connect cfg0 s_closed true true).1.state = State.Version ∧
    (loop_connect cfg0 s_closed true true).1.sent.length = s_closed.sent.length + 1 ∧
    (loop_connect cfg0 s_closed true true).1.request.map (fun q => (q.active, q.pending)) =
      [(true, true), (false, false), (false, false), (false, false)] ∧
    (loop_connect cfg0 s_closed true true).1.fileIds.map (fun f => f.active) =
      [false, false, false, false] := by
  decide

/-- What `loop` resets when it (re-)establishes a connection: the FID table is
zeroed, and the tag table is the one it found. -/
theorem loop_connect_tables (cfg : Config) (s : Session) (alloc conn : Bool)
    (h : s.sock = false ∨ s.connected = false)
    (hc : (loop_connect cfg s alloc conn).2 = false) :
    (loop_connect cfg s alloc conn).1.request = s.request ∧
    (loop_connect cfg s alloc conn).1.fileIds =
      List.replicate s.fileIds.length FileId.zero := by
  unfold loop_connect at hc ⊢
  cases hs : s.sock <;> cases ha : alloc <;> cases hcn : conn <;>
    cases hco : s.connected <;>
    simp_all [request_version_request, request_version_fileIds]

/-! ## C13 -/

theorem length_upd {α : Type} (l : List α) (f : α → α) :
    ∀ i, (upd l i f).length = l.length := by
  induction l with
  | nil => intro i; rfl
  | cons x xs ih =>
    intro i
    cases i with
    | zero => rfl
    | succ i => simp [upd, ih]

theorem getD_upd {α : Type} (l : List α) (f : α → α) (d : α) :
    ∀ i j, (upd l i f).getD j d =
      if j = i ∧ i < l.length then f (l.getD i d) else l.getD j d := by
  induction l with
  | nil => intro i j; simp [upd]
  | cons x xs ih =>
    intro i j
    cases i with
    | zero =>
      cases j with
      | zero => simp [upd]
      | succ j => simp [upd]
    | succ i =>
      cases j with
      | zero => simp [upd]
      | succ j =>
        simp only [upd, List.getD_cons_succ, ih, List.length_cons]
        simp

theorem scan_free_none {α : Type} (p : α → Bool) (l : List α) :
    ∀ i0, scan_free p l i0 = none ↔ ∀ x ∈ l, p x = true := by
  induction l with
  | nil => intro i0; simp [scan_free]
  | cons x xs ih =>
    intro i0
    unfold scan_free
    by_cases hx : p x = true
    · simp [hx, ih]
    · simp [hx]

theorem scan_free_some {α : Type} (p : α → Bool) (d : α) (l : List α) :
    ∀ i0 j, scan_free p l i0 = some j →
      p (l.getD (j - i0) d) = false ∧ ∀ k, k < j - i0 → p (l.getD k d) = true := by
  induction l with
  | nil => intro i0 j h; simp [scan_free] at h
  | cons x xs ih =>
    intro i0 j h
    have hb := scan_free_bounds p (x :: xs) i0 j h
    unfold scan_free at h
    by_cases hx : p x = true
    · rw [if_pos hx] at h
      have hb1 := scan_free_bounds p xs (i0 + 1) j h
      obtain ⟨h1, h2⟩ := ih (i0 + 1) j h
      have e : j - i0 = (j - (i0 + 1)) + 1 := by omega
      rw [e]
      refine ⟨by simpa using h1, ?_⟩
      intro k hk
      cases k with
      | zero => simpa using hx
      | succ k =>
        simp only [List.getD_cons_succ]
        exact h2 k (by omega)
    · rw [if_neg hx] at h
      simp only [Option.some.injEq] at h
      subst h
      simp only [Nat.sub_self, List.getD_cons_zero]
      exact ⟨by simpa using hx, fun k hk => absurd hk (by omega)⟩

theorem scan_free_upd {α : Type} (p : α → Bool) (z : α) (hz : p z = false) (l : List α) :
    ∀ i0 t, t < l.length → (∀ x ∈ l, p x = true) →
      scan_free p (upd l t (fun _ => z)) i0 = some (i0 + t) := by
  induction l with
  | nil => intro i0 t ht; simp at ht
  | cons x xs ih =>
    intro i0 t ht hall
    cases t with
    | zero => simp [upd, scan_free, hz]
    | succ t =>
      have hx : p x = true := hall x (List.mem_cons_self _ _)
      simp only [upd, scan_free, hx, if_true]
      rw [ih (i0 + 1) t (by simpa using ht) (fun y hy => hall y (List.mem_cons_of_mem _ hy))]
      congr 1
      omega

theorem walk_result_snd (s : Session) (t : Nat) : (walk_result s t).2 = clear_tag s t := by
  unfold walk_result; split_ifs <;> rfl

theorem open_result_snd (s : Session) (t : Nat) : (open_result s t).2 = clear_tag s t := by
  unfold open_result; split_ifs <;> rfl

theorem create_result_snd (s : Session) (t : Nat) : (create_result s t).2 = clear_tag s t := by
  unfold create_result; split_ifs <;> rfl

theorem read_result_snd (s : Session) (t : Nat) (is_dir : Bool) :
    (read_result s t is_dir).2 = clear_tag s t := by
  unfold read_result; split_ifs <;> rfl

theorem write_result_snd (s : Session) (t : Nat) : (write_result s t).2 = clear_tag s t := by
  unfold write_result; split_ifs <;> rfl

theorem remove_result_snd (s : Session) (t : Nat) : (remove_result s t).2 = clear_tag s t := by
  unfold remove_result; split_ifs <;> rfl

theorem stat_result_snd (s : Session) (t : Nat) : (stat_result s t).2 = clear_tag s t := by
  unfold stat_result; split_ifs <;> rfl

theorem stat_update_result_snd (s : Session) (t : Nat) :
    (stat_update_result s t).2 = clear_tag s t := by
  unfold stat_update_result; split_ifs <;> rfl

theorem clear_tag_req (s : Session) (t : Nat) (ht : t < s.request.length) :
    clear_tag s t = { s with request := upd s.request t (fun _ => Request.zero) } := by
  unfold clear_tag
  rw [if_neg (by omega)]

theorem get_free_tag_after_clear (s : Session) (t : Nat) (hst : s.state = State.Mounted)
    (ht : t < s.request.length) (hall : ∀ q ∈ s.request, q.active = true) :
    (get_free_tag (clear_tag s t)).1 = t := by
  rw [clear_tag_req s t ht]
  have h := scan_free_upd Request.active Request.zero rfl s.request 0 t ht hall
  rw [Nat.zero_add] at h
  rw [get_free_tag_mounted { s with request := upd s.request t (fun _ => Request.zero) } t hst h]

/-- C13: tag allocation and exhaustion. In state Mounted, with a tag table of N ≤ 255
slots (the scan counts in a `uint8_t`): `get_free_tag` returns NOTAG exactly when all
N slots are active, and then changes nothing; otherwise it returns the lowest index
below N whose slot is inactive and sets `active` in that slot and nothing else. It
never returns N. When all N slots are active, `clear_tag(t)` or any of the result
accessors on tag `t` makes the next allocation return `t`. -/
theorem tag_allocation (s : Session) (hst : s.state = State.Mounted)
    (hN : s.request.length ≤ 255) :
    ((get_free_tag s).1 = NOTAG ↔ ∀ q ∈ s.request, q.active = true) ∧
    ((get_free_tag s).1 = NOTAG → (get_free_tag s).2 = s) ∧
    ((get_free_tag s).1 ≠ NOTAG →
      (get_free_tag s).1 < s.request.length ∧
      (s.req (get_free_tag s).1).active = false ∧
      (∀ j, j < (get_free_tag s).1 → (s.req j).active = true) ∧
      (get_free_tag s).2 =
        { s with request := upd s.request (get_free_tag s).1 (fun q => { q with active := true }) } ∧
      (get_free_tag s).2.req (get_free_tag s).1 =
        { s.req (get_free_tag s).1 with active := true } ∧
      (∀ j, j ≠ (get_free_tag s).1 → (get_free_tag s).2.req j = s.req j)) ∧
    (get_free_tag s).1 ≠ s.request.length ∧
    (∀ t, t < s.request.length → (∀ q ∈ s.request, q.active = true) →
      (get_free_tag (clear_tag s t)).1 = t ∧
      (get_free_tag (walk_result s t).2).1 = t ∧
      (get_free_tag (open_result s t).2).1 = t ∧
      (get_free_tag (create_result s t).2).1 = t ∧
      (∀ is_dir, (get_free_tag (read_result s t is_dir).2).1 = t) ∧
      (get_free_tag (write_result s t).2).1 = t ∧
      (get_free_tag (remove_result s t).2).1 = t ∧
      (get_free_tag (stat_result s t).2).1 = t ∧
      (get_free_tag (stat_update_result s t).2).1 = t) := by
  have hNT : s.request.length < NOTAG := by unfold NOTAG; omega
  cases hsc : scan_free Request.active s.request 0 with
  | none =>
    have hall := (scan_free_none Request.active s.request 0).1 hsc
    have hg : get_free_tag s = (NOTAG, s) := by
      unfold get_free_tag
      rw [if_neg (by simp [hst]), hsc]
    rw [hg]
    refine ⟨⟨fun _ => hall, fun _ => rfl⟩, fun _ => rfl, fun h => absurd rfl h, ?_, ?_⟩
    · exact fun h => absurd h (by omega)
    · intro t ht _
      have hc := get_free_tag_after_clear s t hst ht hall
      rw [walk_result_snd, open_result_snd, create_result_snd, write_result_snd,
        remove_result_snd, stat_result_snd, stat_update_result_snd]
      refine ⟨hc, hc, hc, hc, ?_, hc, hc, hc, hc⟩
      intro is_dir
      rw [read_result_snd]
      exact hc
  | some i =>
    have hb := scan_free_bounds Request.active s.request 0 i hsc
    obtain ⟨h1, h2⟩ := scan_free_some Request.active Request.zero s.request 0 i hsc
    rw [Nat.sub_zero] at h1 h2
    have hi : i < s.request.length := by omega
    rw [get_free_tag_mounted s i hst hsc]
    have hne : i ≠ NOTAG := by omega
    refine ⟨⟨fun h => absurd h hne, fun hall => ?_⟩, fun h => absurd h hne, fun _ => ?_,
      by show i ≠ s.request.length; omega, ?_⟩
    · have hn := (scan_free_none Request.active s.request 0).2 hall
      rw [hsc] at hn
      cases hn
    · refine ⟨hi, h1, h2, rfl, ?_, ?_⟩
      · show (upd s.request i _).getD i Request.zero = _
        rw [getD_upd]
        rw [if_pos ⟨rfl, hi⟩]
        rfl
      · intro j hj
        show (upd s.request i _).getD j Request.zero = _
        rw [getD_upd]
        rw [if_neg (fun h => hj h.1)]
        rfl
    · intro t ht hall
      have := (scan_free_none Request.active s.request 0).2 hall
      rw [hsc] at this
      cases this

/-- C13 at the example session with all four tags handed out: the next allocation
gives NOTAG, and after `clear_tag(2)` or `walk_result(2)` it gives 2. -/
theorem tag_allocation_witness :
    (s_full.state = State.Mounted ∧ s_full.request.length ≤ 255) ∧
    (get_free_tag s_full).1 = NOTAG ∧
    (get_free_tag (clear_tag s_full 2)).1 = 2 ∧
    (get_free_tag (walk_result s_full 2).2).1 = 2 :=
  ⟨by decide,
   (tag_allocation s_full (by decide) (by decide)).1.2 (by decide),
   ((tag_allocation s_full (by decide) (by decide)).2.2.2.2 2 (by decide) (by decide)).1,
   ((tag_allocation s_full (by decide) (by decide)).2.2.2.2 2 (by decide) (by decide)).2.1⟩

/-! ## C14 -/

theorem fid_index_succ (i : Nat) (hi : i < 2 ^ 32) : fid_index (i + 1) = i := by
  unfold fid_index
  have e : i + 1 + 2 ^ 32 - 1 = i + 2 ^ 32 := by omega
  rw [e, Nat.add_mod_right, Nat.mod_eq_of_lt hi]

/-- C14: FID allocation. With a FID table of at most 255 slots (the scan counts in a
`uint8_t`): `generate_unique_file_id` returns 0 exactly when every slot is active,
and then changes nothing; otherwise it returns `i + 1` for the lowest index `i` whose
slot is inactive, sets that slot to `{active = true, clunked = false}` and leaves the
other slots as they are. The returned id is not 0, its slot was not active before the
call (so the id was not valid), and `valid_file_id` holds for it afterwards. -/
theorem fid_allocation (s : Session) (hF : s.fileIds.length ≤ 255) :
    ((generate_unique_file_id s).1 = 0 ↔ ∀ f ∈ s.fileIds, f.active = true) ∧
    ((generate_unique_file_id s).1 = 0 → (generate_unique_file_id s).2 = s) ∧
    ((generate_unique_file_id s).1 ≠ 0 →
      ∃ i, (generate_unique_file_id s).1 = i + 1 ∧ i < s.fileIds.length ∧
        (s.fid i).active = false ∧
        (∀ j, j < i → (s.fid j).active = true) ∧
        (generate_unique_file_id s).2 =
          { s with fileIds := upd s.fileIds i (fun _ => { active := true, clunked := false }) } ∧
        (generate_unique_file_id s).2.fid i = { active := true, clunked := false } ∧
        (∀ j, j ≠ i → (generate_unique_file_id s).2.fid j = s.fid j) ∧
        (s.fid (fid_index (generate_unique_file_id s).1)).active = false ∧
        valid_file_id s (generate_unique_file_id s).1 = false ∧
        valid_file_id (generate_unique_file_id s).2 (generate_unique_file_id s).1 = true) := by
  cases hsc : scan_free FileId.active s.fileIds 0 with
  | none =>
    have hall := (scan_free_none FileId.active s.fileIds 0).1 hsc
    have hg : generate_unique_file_id s = (0, s) := by
      unfold generate_unique_file_id
      rw [hsc]
    rw [hg]
    exact ⟨⟨fun _ => hall, fun _ => rfl⟩, fun _ => rfl, fun h => absurd rfl h⟩
  | some i =>
    have hb := scan_free_bounds FileId.active s.fileIds 0 i hsc
    obtain ⟨h1, h2⟩ := scan_free_some FileId.active FileId.zero s.fileIds 0 i hsc
    rw [Nat.sub_zero] at h1 h2
    have hi : i < s.fileIds.length := by omega
    have hfi : fid_index (i + 1) = i := fid_index_succ i (by omega)
    rw [generate_unique_file_id_some s i hsc]
    refine ⟨⟨fun h => absurd h (by simp), fun hall => ?_⟩, fun h => absurd h (by simp),
      fun _ => ⟨i, rfl, hi, h1, h2, rfl, ?_, ?_, ?_, ?_, ?_⟩⟩
    · have hn := (scan_free_none FileId.active s.fileIds 0).2 hall
      rw [hsc] at hn
      cases hn
    · show (upd s.fileIds i _).getD i FileId.zero = _
      rw [getD_upd, if_pos ⟨rfl, hi⟩]
    · intro j hj
      show (upd s.fileIds i _).getD j FileId.zero = _
      rw [getD_upd, if_neg (fun h => hj h.1)]
      rfl
    · show (s.fid (fid_index (i + 1))).active = false
      rw [hfi]
      exact h1
    · show valid_file_id s (i + 1) = false
      unfold valid_file_id
      simp only [hfi]
      have h1b : (s.fid i).active = false := h1
      rw [h1b]
      simp
    · show valid_file_id _ (i + 1) = true
      unfold valid_file_id
      simp only [hfi, Session.fid, length_upd, getD_upd]
      simp [hi]

/-- C14 at the example session in which FID 1 is taken: the next id is 2, it was not
valid before and is valid afterwards. -/
theorem fid_allocation_witness :
    s_walked.fileIds.length ≤ 255 ∧
    (generate_unique_file_id s_walked).1 = 2 ∧
    valid_file_id s_walked 2 = false ∧
    valid_file_id (generate_unique_file_id s_walked).2 2 = true :=
  ⟨by decide, by decide,
   by
    obtain ⟨i, _, _, _, _, _, _, _, _, h, _⟩ :=
      (fid_allocation s_walked (by decide)).2.2 (by decide)
    exact h,
   by
    obtain ⟨i, _, _, _, _, _, _, _, _, _, h⟩ :=
      (fid_allocation s_walked (by decide)).2.2 (by decide)
    exact h⟩

/-! ## Replies -/

theorem dispatch_reply (cfg : Config) (s : Session) (t : MsgType)
    (ht : hdr_type s.receive = t.toByte)
    (hk : t = .Rerror ∨ t = .Rwalk ∨ t = .Ropen ∨ t = .Rcreate ∨ t = .Rread ∨ t = .Rwrite ∨
      t = .Rremove ∨ t = .Rstat ∨ t = .Rwstat) :
    dispatch cfg s = parse_reply cfg s t := by
  unfold dispatch
  rw [ht]
  rcases hk with h | h | h | h | h | h | h | h | h <;> subst h <;> rfl

theorem parse_reply_handled (cfg : Config) (s : Session) (t : MsgType)
    (hst : s.state = State.Mounted) (htl : hdr_tag s.receive < s.request.length)
    (hp : (s.req (hdr_tag s.receive)).pending = true)
    (he : t = .Rerror ∨ (s.req (hdr_tag s.receive)).expectedType = t.toByte) :
    parse_reply cfg s t =
      ({ handle_reply cfg s t (hdr_tag s.receive) with
          request := upd (handle_reply cfg s t (hdr_tag s.receive)).request (hdr_tag s.receive)
            (fun q => { q with pending := false }) }, false) := by
  unfold parse_reply
  rw [if_neg (by simp [hst])]
  simp only []
  rw [if_neg (by simp [hp]; omega), if_neg (by
    rintro ⟨h1, h2⟩
    rcases he with h | h
    · exact h1 h
    · exact h2 h)]

theorem parse_frame_of_dispatch (cfg : Config) (s s1 : Session) (len : Nat)
    (hd : dispatch cfg s = (s1, false))
    (hlen : hdr_length s.receive ≤ len) (hbl : hdr_length s.receive ≤ s.bufferLen) :
    (∃ rcv, (parse_frame cfg s len).1 = { s1 with receive := rcv }) ∧
    (hdr_length s1.receive = hdr_length s.receive → len = hdr_length s.receive →
      ∀ fuel, parse cfg (fuel + 1) s len = some (parse_frame cfg s len).1) := by
  constructor
  · unfold parse_frame
    simp only []
    rw [if_neg (by omega), if_neg (by omega), hd]
    simp only [Bool.false_eq_true, if_false]
    split_ifs
    · exact ⟨s1.receive, rfl⟩
    · exact ⟨_, rfl⟩
  · intro h1 h2 fuel
    have hnone : (parse_frame cfg s len).2 = none := by
      unfold parse_frame
      simp only []
      rw [if_neg (by omega), if_neg (by omega), hd]
      simp only [Bool.false_eq_true, if_false]
      rw [if_pos (by rw [h1]; omega)]
    unfold parse
    rw [hnone]

/-! ## C15 -/

theorem free_file_id_eq (s : Session) (id t2 : Nat) (hst : s.state = State.Mounted)
    (hv : valid_file_id s id = true)
    (hfree : scan_free Request.active s.request 0 = some t2)
    (hN : s.request.length ≤ 255) :
    free_file_id s id = sock_send { s with
      request := upd (upd s.request t2 (fun q => { q with active := true })) t2 (fun q =>
        { q with pending := true, expectedType := MsgType.Rclunk.toByte, clunk_fileId := id }),
      fileIds := upd s.fileIds (fid_index id) (fun f => { f with clunked := true }),
      send := writeAt (set_hdr_length (set_hdr_tag (set_hdr_type s.send
        MsgType.Tclunk.toByte) t2) (sizeof_header + sizeof_Tclunk)) 7 (le 4 id) } := by
  have hb := scan_free_bounds Request.active s.request 0 t2 hfree
  have hidx : fid_index id < s.fileIds.length := by
    unfold valid_file_id at hv
    simp only [Bool.and_eq_true, decide_eq_true_eq] at hv
    exact hv.1.1
  unfold free_file_id
  simp only [hv, Bool.not_true, Bool.false_eq_true, if_false]
  rw [get_free_tag_mounted s t2 hst hfree]
  simp only []
  rw [if_neg (by unfold NOTAG; omega), if_pos hidx]

theorem handle_rwalk_mismatch (s : Session) (tag : Nat)
    (hL : hdr_length s.receive = sizeof_header + sizeof_Rwalk + rd s.receive 7 2 * sizeof_qid_t)
    (hmis :
      (1 ≤ rd s.receive 7 2 ∧ (s.req tag).walk_type = walkType.File ∧
        rd s.receive (sizeof_header + sizeof_Rwalk + (rd s.receive 7 2 - 1) * sizeof_qid_t) 1
          ≠ QTFILE) ∨
      (1 ≤ rd s.receive 7 2 ∧ (s.req tag).walk_type = walkType.Directory ∧
        rd s.receive (sizeof_header + sizeof_Rwalk + (rd s.receive 7 2 - 1) * sizeof_qid_t) 1
          ≠ QTDIR) ∨
      (rd s.receive 7 2 = 0 ∧ (s.req tag).walk_type ≠ walkType.Directory)) :
    handle_rwalk s tag = rwalk_reject s tag := by
  have key : ∀ n, 1 ≤ n → hdr_length s.receive = sizeof_header + sizeof_Rwalk + n * sizeof_qid_t →
      hdr_length s.receive = rwalk_id_offset n + sizeof_qid_t →
      rwalk_id_offset n = sizeof_header + sizeof_Rwalk + (n - 1) * sizeof_qid_t := by
    intro n hn h1 h2
    unfold sizeof_header sizeof_Rwalk sizeof_qid_t at *
    omega
  unfold handle_rwalk
  simp only []
  rcases hmis with ⟨hn, hw, hq⟩ | ⟨hn, hw, hq⟩ | ⟨hn, hw⟩
  · rw [if_neg (by omega)]
    by_cases hl : hdr_length s.receive = rwalk_id_offset (rd s.receive 7 2) + sizeof_qid_t
    · rw [if_neg (by simpa using hl), if_pos (by rw [hw]; decide), key _ hn hL hl, hw]
      simp only [reduceCtorEq, if_false]
      rw [if_pos hq]
    · rw [if_pos hl]
  · rw [if_neg (by omega)]
    by_cases hl : hdr_length s.receive = rwalk_id_offset (rd s.receive 7 2) + sizeof_qid_t
    · rw [if_neg (by simpa using hl), if_pos (by rw [hw]; decide), key _ hn hL hl, hw]
      simp only [if_true]
      rw [if_pos hq]
    · rw [if_pos hl]
  · rw [if_pos ⟨hn, hw⟩]

theorem rwalk_id_offset_eq (n : Nat) (h1 : 1 ≤ n)
    (h2 : sizeof_header + sizeof_Rwalk + n * sizeof_qid_t < 65536) :
    rwalk_id_offset n = sizeof_header + sizeof_Rwalk + (n - 1) * sizeof_qid_t := by
  unfold rwalk_id_offset
  unfold sizeof_header sizeof_Rwalk sizeof_qid_t at *
  omega

theorem handle_rwalk_match (s : Session) (tag : Nat)
    (hL : hdr_length s.receive = sizeof_header + sizeof_Rwalk + rd s.receive 7 2 * sizeof_qid_t)
    (hn : 1 ≤ rd s.receive 7 2) (hw : hdr_length s.receive < 65536)
    (hm : (s.req tag).walk_type = walkType.Any ∨
      ((s.req tag).walk_type = walkType.File ∧
        rd s.receive (sizeof_header + sizeof_Rwalk + (rd s.receive 7 2 - 1) * sizeof_qid_t) 1
          = QTFILE) ∨
      ((s.req tag).walk_type = walkType.Directory ∧
        rd s.receive (sizeof_header + sizeof_Rwalk + (rd s.receive 7 2 - 1) * sizeof_qid_t) 1
          = QTDIR)) :
    handle_rwalk s tag = s := by
  have ho := rwalk_id_offset_eq (rd s.receive 7 2) hn (by omega)
  have hl : hdr_length s.receive = rwalk_id_offset (rd s.receive 7 2) + sizeof_qid_t := by
    rw [ho, hL]
    unfold sizeof_header sizeof_Rwalk sizeof_qid_t
    omega
  unfold handle_rwalk
  simp only []
  rw [if_neg (by omega), if_neg (by simpa using hl), ho]
  rcases hm with hw | ⟨hw, hq⟩ | ⟨hw, hq⟩
  · rw [if_neg (by simp [hw])]
  · rw [if_pos (by rw [hw]; decide), hw]
    simp only [reduceCtorEq, if_false]
    rw [if_neg (by simpa using hq)]
  · rw [if_pos (by rw [hw]; decide), hw]
    simp only [if_true]
    rw [if_neg (by simpa using hq)]

/-- After a rejected Rwalk the slot holds file id 0, whatever the release did. -/
theorem rwalk_reject_fileId (s : Session) (tag : Nat) :
    ((upd (rwalk_reject s tag).request tag (fun q => { q with pending := false })).getD tag
      Request.zero).walk_fileId = 0 := by
  unfold rwalk_reject
  simp only []
  rw [getD_upd, getD_upd, length_upd]
  split_ifs with h1
  · rfl
  · rw [List.getD_eq_default _ _ (by simp at h1; omega)]
    rfl

/-- C16 as stated fails: with `walk("data/log.bin", File)` in flight, an Rwalk whose
last qid has type 0x40 or 0x04 (bit 0x80 clear) makes `walk_result` return 0, and with
`walk("data", Directory)` in flight so does one whose last qid has type 0x84 (bit 0x80
set); only the types 0x00 and 0x80 give the new file id 1. -/
theorem walk_kind_bits_counterexample :
    (0x40 &&& 0x80 = 0 ∧ 0x04 &&& 0x80 = 0 ∧ 0x84 &&& 0x80 = 0x80) ∧
    (update cfg0 1 s_walk_file (Recv.data (rwalk_two 0x40))).map
      (fun r => (walk_result r.1 0).1) = some 0 ∧
    (update cfg0 1 s_walk_file (Recv.data (rwalk_two 0x04))).map
      (fun r => (walk_result r.1 0).1) = some 0 ∧
    (update cfg0 1 s_walk_file (Recv.data (rwalk_two QTFILE))).map
      (fun r => (walk_result r.1 0).1) = some 1 ∧
    (update cfg0 1 s_walk_dir (Recv.data (rwalk_one 0x84))).map
      (fun r => (walk_result r.1 0).1) = some 0 ∧
    (update cfg0 1 s_walk_dir (Recv.data (rwalk_one QTDIR))).map
      (fun r => (walk_result r.1 0).1) = some 1 := by
  decide

/-- C16, amended: the kind check compares the whole type byte of the last qid. In state
Mounted, for an active tag pending for an Rwalk with new file id `id`, when the
receive buffer starts with a complete Rwalk frame for that tag with `nwqid ≥ 1` and
length `9 + 13 * nwqid` (below 65536 and within `bufferLen`), after the activation of
`parse` that meets it `walk_result` returns: for a File walk, `id` if the last
`qid.type` is 0x00 and 0 otherwise; for a Directory walk, `id` if the last `qid.type`
is 0x80 and 0 otherwise; for an Any walk, `id`. -/
theorem walk_kind_check_is_exact (cfg : Config) (s : Session) (len tag id : Nat)
    (hst : s.state = State.Mounted)
    (ht : hdr_type s.receive = MsgType.Rwalk.toByte) (htag : hdr_tag s.receive = tag)
    (htl : tag < s.request.length) (hact : (s.req tag).active = true)
    (hp : (s.req tag).pending = true)
    (he : (s.req tag).expectedType = MsgType.Rwalk.toByte)
    (hid : (s.req tag).walk_fileId = id)
    (hL : hdr_length s.receive = sizeof_header + sizeof_Rwalk + rd s.receive 7 2 * sizeof_qid_t)
    (hn : 1 ≤ rd s.receive 7 2) (hw : hdr_length s.receive < 65536)
    (hlen : hdr_length s.receive ≤ len) (hbl : hdr_length s.receive ≤ s.bufferLen) :
    ((s.req tag).walk_type = walkType.File →
      (walk_result (parse_frame cfg s len).1 tag).1 =
        if rd s.receive (sizeof_header + sizeof_Rwalk + (rd s.receive 7 2 - 1) * sizeof_qid_t) 1
          = 0x00 then id else 0) ∧
    ((s.req tag).walk_type = walkType.Directory →
      (walk_result (parse_frame cfg s len).1 tag).1 =
        if rd s.receive (sizeof_header + sizeof_Rwalk + (rd s.receive 7 2 - 1) * sizeof_qid_t) 1
          = 0x80 then id else 0) ∧
    ((s.req tag).walk_type = walkType.Any →
      (walk_result (parse_frame cfg s len).1 tag).1 = id) := by
  subst htag
  have hd := (dispatch_reply cfg s .Rwalk ht (by simp)).trans
    (parse_reply_handled cfg s .Rwalk hst htl hp (Or.inr he))
  obtain ⟨⟨rcv, hpf⟩, -⟩ := parse_frame_of_dispatch cfg s _ len hd hlen hbl
  have hacc : handle_reply cfg s .Rwalk (hdr_tag s.receive) = s →
      (walk_result (parse_frame cfg s len).1 (hdr_tag s.receive)).1 = id := by
    intro hh
    have hslot : (parse_frame cfg s len).1.req (hdr_tag s.receive) =
        { s.req (hdr_tag s.receive) with pending := false } := by
      rw [hpf, hh]
      show (upd s.request _ _).getD _ _ = _
      rw [getD_upd, if_pos ⟨rfl, htl⟩]
      rfl
    have hlen2 : (parse_frame cfg s len).1.request.length = s.request.length := by
      rw [hpf, hh]
      show (upd s.request _ _).length = _
      rw [length_upd]
    unfold walk_result tag_response_type tag_response
    rw [hslot, hlen2]
    simp [hact, he, hid]
    rw [if_neg (by omega)]
  have hrej : handle_reply cfg s .Rwalk (hdr_tag s.receive) = rwalk_reject s (hdr_tag s.receive) →
      (walk_result (parse_frame cfg s len).1 (hdr_tag s.receive)).1 = 0 := by
    intro hh
    rw [hpf, hh]
    unfold walk_result
    split_ifs
    · rfl
    · exact rwalk_reject_fileId s (hdr_tag s.receive)
  refine ⟨fun hwt => ?_, fun hwt => ?_, fun hwt => ?_⟩
  · split_ifs with hq
    · exact hacc (handle_rwalk_match s _ hL hn hw (Or.inr (Or.inl ⟨hwt, hq⟩)))
    · exact hrej (handle_rwalk_mismatch s _ hL (Or.inl ⟨hn, hwt, hq⟩))
  · split_ifs with hq
    · exact hacc (handle_rwalk_match s _ hL hn hw (Or.inr (Or.inr ⟨hwt, hq⟩)))
    · exact hrej (handle_rwalk_mismatch s _ hL (Or.inr (Or.inl ⟨hn, hwt, hq⟩)))
  · exact hacc (handle_rwalk_match s _ hL hn hw (Or.inl hwt))

/-- C16, amended, at the example session with `walk("data/log.bin", File)` in flight:
a last qid of type 0x40 is not a file for the check. -/
theorem walk_kind_check_is_exact_witness :
    (walk_result (parse_frame cfg0 (received s_walk_file (rwalk_two 0x40)) 35).1 0).1 = 0 ∧
    (walk_result (parse_frame cfg0 (received s_walk_file (rwalk_two 0x00)) 35).1 0).1 = 1 :=
  ⟨(walk_kind_check_is_exact cfg0 (received s_walk_file (rwalk_two 0x40)) 35 0 1
      (by decide) (by decide) (by decide) (by decide) (by decide) (by decide) (by decide)
      (by decide) (by decide) (by decide) (by decide) (by decide) (by decide)).1 (by decide),
   (walk_kind_check_is_exact cfg0 (received s_walk_file (rwalk_two 0x00)) 35 0 1
      (by decide) (by decide) (by decide) (by decide) (by decide) (by decide) (by decide)
      (by decide) (by decide) (by decide) (by decide) (by decide) (by decide)).1 (by decide)⟩

/-! ## C17 -/

/-- What the activation of `parse` that meets a reply for a pending tag leaves: the
handler ran and the slot is no longer pending. -/
theorem parse_frame_reply (cfg : Config) (s : Session) (t : MsgType) (len : Nat)
    (hst : s.state = State.Mounted) (ht : hdr_type s.receive = t.toByte)
    (hk : t = .Rerror ∨ t = .Rwalk ∨ t = .Ropen ∨ t = .Rcreate ∨ t = .Rread ∨ t = .Rwrite ∨
      t = .Rremove ∨ t = .Rstat ∨ t = .Rwstat)
    (htl : hdr_tag s.receive < s.request.length)
    (hp : (s.req (hdr_tag s.receive)).pending = true)
    (he : t = .Rerror ∨ (s.req (hdr_tag s.receive)).expectedType = t.toByte)
    (hlen : hdr_length s.receive ≤ len) (hbl : hdr_length s.receive ≤ s.bufferLen) :
    (parse_frame cfg s len).1.request =
      upd (handle_reply cfg s t (hdr_tag s.receive)).request (hdr_tag s.receive)
        (fun q => { q with pending := false }) ∧
    (parse_frame cfg s len).1.fileIds = (handle_reply cfg s t (hdr_tag s.receive)).fileIds ∧
    (parse_frame cfg s len).1.sent = (handle_reply cfg s t (hdr_tag s.receive)).sent ∧
    (parse_frame cfg s len).1.bufs = (handle_reply cfg s t (hdr_tag s.receive)).bufs ∧
    (parse_frame cfg s len).1.state = (handle_reply cfg s t (hdr_tag s.receive)).state ∧
    (hdr_length (handle_reply cfg s t (hdr_tag s.receive)).receive = hdr_length s.receive →
      len = hdr_length s.receive →
      ∀ fuel, parse cfg (fuel + 1) s len = some (parse_frame cfg s len).1) := by
  have hd := (dispatch_reply cfg s t ht hk).trans (parse_reply_handled cfg s t hst htl hp he)
  obtain ⟨⟨rcv, hpf⟩, hparse⟩ := parse_frame_of_dispatch cfg s _ len hd hlen hbl
  refine ⟨?_, ?_, ?_, ?_, ?_, hparse⟩ <;> rw [hpf]

theorem getD_upd_upd {α : Type} (l : List α) (i : Nat) (f g : α → α) (d : α)
    (hi : i < l.length) : (upd (upd l i f) i g).getD i d = g (f (l.getD i d)) := by
  rw [getD_upd, getD_upd, length_upd, if_pos ⟨rfl, hi⟩, if_pos ⟨rfl, hi⟩]

theorem getD_set_ne (l : List Nat) (i j v : Nat) (h : i ≠ j) :
    (l.set i v).getD j 0 = l.getD j 0 := by
  simp [List.getD_eq_getElem?_getD, List.getElem?_set, h]

theorem handle_error_request (s : Session) (tag : Nat) :
    (handle_error s tag).request =
      (if (s.req tag).expectedType = MsgType.Rwalk.toByte then
        upd s.request tag (fun q => { q with walk_fileId := 0 })
      else if (s.req tag).expectedType = MsgType.Ropen.toByte then
        upd s.request tag (fun q => { q with open_result := false })
      else if (s.req tag).expectedType = MsgType.Rcreate.toByte then
        upd s.request tag (fun q => { q with create_result := false })
      else if (s.req tag).expectedType = MsgType.Rread.toByte then
        upd s.request tag (fun q => { q with read_count := -1 })
      else if (s.req tag).expectedType = MsgType.Rwrite.toByte then
        upd s.request tag (fun q => { q with write_count := -1 })
      else if (s.req tag).expectedType = MsgType.Rremove.toByte then
        upd s.request tag (fun q => { q with remove_result := false })
      else if (s.req tag).expectedType = MsgType.Rstat.toByte then
        upd s.request tag (fun q => { q with stat_result := false })
      else if (s.req tag).expectedType = MsgType.Rwstat.toByte then
        upd s.request tag (fun q => { q with rwstat_result := false })
      else s.request) := by
  unfold handle_error internal_error
  obtain ⟨r, f, h⟩ := rerror_terminate_shape s
  rw [h]
  simp only [Session.req]
  split_ifs <;> rfl

theorem handle_error_hdr_length (s : Session) (tag : Nat) :
    hdr_length (handle_error s tag).receive = hdr_length s.receive := by
  have h1 : (handle_error s tag).receive = (rerror_terminate s).receive := by
    unfold handle_error internal_error
    simp only []
    split_ifs <;> rfl
  rw [h1]
  unfold rerror_terminate
  simp only []
  split_ifs
  · unfold hdr_length
    apply rd_congr
    intro i _ hi
    apply getD_set_ne
    unfold sizeof_header sizeof_Rerror
    omega
  · rfl

theorem clear_tag_slot (s : Session) (tag : Nat) :
    (clear_tag s tag).req tag = Request.zero := by
  unfold clear_tag
  split_ifs with h
  · exact List.getD_eq_default _ _ (by omega)
  · show (upd s.request tag _).getD tag Request.zero = _
    rw [getD_upd]
    split_ifs <;> first | rfl | skip
    exact List.getD_eq_default _ _ (by omega)

theorem handle_error_active (s : Session) (tag : Nat) :
    ((handle_error s tag).req tag).active = (s.req tag).active := by
  show ((handle_error s tag).request.getD tag Request.zero).active = _
  rw [handle_error_request]
  split_ifs
  all_goals first
    | rfl
    | (rw [getD_upd]; split_ifs <;> rfl)

theorem handle_error_length (s : Session) (tag : Nat) :
    (handle_error s tag).request.length = s.request.length := by
  rw [handle_error_request]
  split_ifs <;> first | rw [length_upd] | rfl

/-- C17: uniform Rerror sentinel. In state Mounted, for an active tag that is pending,
when the receive buffer starts with a complete Rerror frame carrying that tag (within
`bufferLen`), the activation of `parse` that meets it leaves the slot active and not
pending, and according to what the tag was pending for (walk, open, create, read,
write, remove, stat, wstat) the matching accessor finds its response and returns the
negative sentinel: `walk_result` 0; `open_result`, `create_result`, `remove_result`,
`stat_result`, `stat_update_result` false; `read_result` and `write_result` -1. Each
accessor leaves the session `clear_tag` gives, in which the slot is zero. When the
frame is all that was received, `parse` returns with that session. -/
theorem rerror_sentinel (cfg : Config) (s : Session) (len tag : Nat)
    (hst : s.state = State.Mounted)
    (ht : hdr_type s.receive = MsgType.Rerror.toByte) (htag : hdr_tag s.receive = tag)
    (htl : tag < s.request.length) (hact : (s.req tag).active = true)
    (hp : (s.req tag).pending = true)
    (hlen : hdr_length s.receive ≤ len) (hbl : hdr_length s.receive ≤ s.bufferLen) :
    ((parse_frame cfg s len).1.req tag).pending = false ∧
    ((parse_frame cfg s len).1.req tag).active = true ∧
    ((s.req tag).expectedType = MsgType.Rwalk.toByte →
      tag_response_type (parse_frame cfg s len).1 tag .Rwalk = true ∧
      (walk_result (parse_frame cfg s len).1 tag).1 = 0) ∧
    ((s.req tag).expectedType = MsgType.Ropen.toByte →
      tag_response_type (parse_frame cfg s len).1 tag .Ropen = true ∧
      (open_result (parse_frame cfg s len).1 tag).1 = false) ∧
    ((s.req tag).expectedType = MsgType.Rcreate.toByte →
      tag_response_type (parse_frame cfg s len).1 tag .Rcreate = true ∧
      (create_result (parse_frame cfg s len).1 tag).1 = false) ∧
    ((s.req tag).expectedType = MsgType.Rread.toByte →
      tag_response_type (parse_frame cfg s len).1 tag .Rread = true ∧
      ∀ is_dir, (read_result (parse_frame cfg s len).1 tag is_dir).1 = -1) ∧
    ((s.req tag).expectedType = MsgType.Rwrite.toByte →
      tag_response_type (parse_frame cfg s len).1 tag .Rwrite = true ∧
      (write_result (parse_frame cfg s len).1 tag).1 = -1) ∧
    ((s.req tag).expectedType = MsgType.Rremove.toByte →
      tag_response_type (parse_frame cfg s len).1 tag .Rremove = true ∧
      (remove_result (parse_frame cfg s len).1 tag).1 = false) ∧
    ((s.req tag).expectedType = MsgType.Rstat.toByte →
      tag_response_type (parse_frame cfg s len).1 tag .Rstat = true ∧
      (stat_result (parse_frame cfg s len).1 tag).1 = false) ∧
    ((s.req tag).expectedType = MsgType.Rwstat.toByte →
      tag_response_type (parse_frame cfg s len).1 tag .Rwstat = true ∧
      (stat_update_result (parse_frame cfg s len).1 tag).1 = false) ∧
    ((walk_result (parse_frame cfg s len).1 tag).2 = clear_tag (parse_frame cfg s len).1 tag ∧
      (open_result (parse_frame cfg s len).1 tag).2 = clear_tag (parse_frame cfg s len).1 tag ∧
      (create_result (parse_frame cfg s len).1 tag).2 = clear_tag (parse_frame cfg s len).1 tag ∧
      (∀ is_dir, (read_result (parse_frame cfg s len).1 tag is_dir).2 =
        clear_tag (parse_frame cfg s len).1 tag) ∧
      (write_result (parse_frame cfg s len).1 tag).2 = clear_tag (parse_frame cfg s len).1 tag ∧
      (remove_result (parse_frame cfg s len).1 tag).2 = clear_tag (parse_frame cfg s len).1 tag ∧
      (stat_result (parse_frame cfg s len).1 tag).2 = clear_tag (parse_frame cfg s len).1 tag ∧
      (stat_update_result (parse_frame cfg s len).1 tag).2 =
        clear_tag (parse_frame cfg s len).1 tag) ∧
    (clear_tag (parse_frame cfg s len).1 tag).req tag = Request.zero ∧
    (len = hdr_length s.receive → ∀ fuel,
      parse cfg (fuel + 1) s len = some (parse_frame cfg s len).1) := by
  subst htag
  obtain ⟨hreq, -, -, -, -, hparse⟩ := parse_frame_reply cfg s .Rerror len hst ht (Or.inl rfl)
    htl hp (Or.inl rfl) hlen hbl
  have hh : handle_reply cfg s .Rerror (hdr_tag s.receive) = handle_error s (hdr_tag s.receive) :=
    rfl
  rw [hh] at hreq hparse
  have hlen3 := handle_error_length s (hdr_tag s.receive)
  have hlen2 : (parse_frame cfg s len).1.request.length = s.request.length := by
    rw [hreq, length_upd, hlen3]
  have hslot : ∀ g : Request → Request,
      (handle_error s (hdr_tag s.receive)).request = upd s.request (hdr_tag s.receive) g →
      (parse_frame cfg s len).1.req (hdr_tag s.receive) =
        { g (s.req (hdr_tag s.receive)) with pending := false } := by
    intro g hg
    show (parse_frame cfg s len).1.request.getD _ _ = _
    rw [hreq, hg, getD_upd_upd _ _ _ _ _ htl]
    rfl
  have hsl : (parse_frame cfg s len).1.req (hdr_tag s.receive) =
      { (handle_error s (hdr_tag s.receive)).req (hdr_tag s.receive) with pending := false } := by
    show (parse_frame cfg s len).1.request.getD _ _ = _
    rw [hreq, getD_upd, if_pos ⟨rfl, by omega⟩]
    rfl
  refine ⟨?_, ?_, ?_, ?_, ?_, ?_, ?_, ?_, ?_, ?_, ?_, clear_tag_slot _ _,
    hparse (handle_error_hdr_length s _)⟩
  · rw [hsl]
  · rw [hsl]
    exact (handle_error_active s _).trans hact
  · intro he
    have hg := handle_error_request s (hdr_tag s.receive)
    rw [he] at hg
    rw [if_pos rfl] at hg
    have h1 := hslot _ hg
    have htr : tag_response_type (parse_frame cfg s len).1 (hdr_tag s.receive) .Rwalk = true := by
      unfold tag_response_type tag_response
      rw [h1, hlen2, if_neg (by omega)]
      simp [hact, he]
    refine ⟨htr, ?_⟩
    unfold walk_result
    rw [htr, h1]
    simp
  · intro he
    have hg := handle_error_request s (hdr_tag s.receive)
    rw [he] at hg
    rw [if_neg (by decide), if_pos rfl] at hg
    have h1 := hslot _ hg
    have htr : tag_response_type (parse_frame cfg s len).1 (hdr_tag s.receive) .Ropen = true := by
      unfold tag_response_type tag_response
      rw [h1, hlen2, if_neg (by omega)]
      simp [hact, he]
    refine ⟨htr, ?_⟩
    unfold open_result
    rw [htr, h1]
    simp
  · intro he
    have hg := handle_error_request s (hdr_tag s.receive)
    rw [he] at hg
    rw [if_neg (by decide), if_neg (by decide), if_pos rfl] at hg
    have h1 := hslot _ hg
    have htr : tag_response_type (parse_frame cfg s len).1 (hdr_tag s.receive) .Rcreate = true := by
      unfold tag_response_type tag_response
      rw [h1, hlen2, if_neg (by omega)]
      simp [hact, he]
    refine ⟨htr, ?_⟩
    unfold create_result
    rw [htr, h1]
    simp
  · intro he
    have hg := handle_error_request s (hdr_tag s.receive)
    rw [he] at hg
    rw [if_neg (by decide), if_neg (by decide), if_neg (by decide), if_pos rfl] at hg
    have h1 := hslot _ hg
    have htr : tag_response_type (parse_frame cfg s len).1 (hdr_tag s.receive) .Rread = true := by
      unfold tag_response_type tag_response
      rw [h1, hlen2, if_neg (by omega)]
      simp [hact, he]
    refine ⟨htr, ?_⟩
    intro is_dir
    unfold read_result
    rw [htr, h1]
    simp
  · intro he
    have hg := handle_error_request s (hdr_tag s.receive)
    rw [he] at hg
    rw [if_neg (by decide), if_neg (by decide), if_neg (by decide), if_neg (by decide), if_pos rfl] at hg
    have h1 := hslot _ hg
    have htr : tag_response_type (parse_frame cfg s len).1 (hdr_tag s.receive) .Rwrite = true := by
      unfold tag_response_type tag_response
      rw [h1, hlen2, if_neg (by omega)]
      simp [hact, he]
    refine ⟨htr, ?_⟩
    unfold write_result
    rw [htr, h1]
    simp
  · intro he
    have hg := handle_error_request s (hdr_tag s.receive)
    rw [he] at hg
    rw [if_neg (by decide), if_neg (by decide), if_neg (by decide), if_neg (by decide), if_neg (by decide), if_pos rfl] at hg
    have h1 := hslot _ hg
    have htr : tag_response_type (parse_frame cfg s len).1 (hdr_tag s.receive) .Rremove = true := by
      unfold tag_response_type tag_response
      rw [h1, hlen2, if_neg (by omega)]
      simp [hact, he]
    refine ⟨htr, ?_⟩
    unfold remove_result
    rw [htr, h1]
    simp
  · intro he
    have hg := handle_error_request s (hdr_tag s.receive)
    rw [he] at hg
    rw [if_neg (by decide), if_neg (by decide), if_neg (by decide), if_neg (by decide), if_neg (by decide), if_neg (by decide), if_pos rfl] at hg
    have h1 := hslot _ hg
    have htr : tag_response_type (parse_frame cfg s len).1 (hdr_tag s.receive) .Rstat = true := by
      unfold tag_response_type tag_response
      rw [h1, hlen2, if_neg (by omega)]
      simp [hact, he]
    refine ⟨htr, ?_⟩
    unfold stat_result
    rw [htr, h1]
    simp
  · intro he
    have hg := handle_error_request s (hdr_tag s.receive)
    rw [he] at hg
    rw [if_neg (by decide), if_neg (by decide), if_neg (by decide), if_neg (by decide), if_neg (by decide), if_neg (by decide), if_neg (by decide), if_pos rfl] at hg
    have h1 := hslot _ hg
    have htr : tag_response_type (parse_frame cfg s len).1 (hdr_tag s.receive) .Rwstat = true := by
      unfold tag_response_type tag_response
      rw [h1, hlen2, if_neg (by omega)]
      simp [hact, he]
    refine ⟨htr, ?_⟩
    unfold stat_update_result
    rw [htr, h1]
    simp
  · exact ⟨walk_result_snd _ _, open_result_snd _ _, create_result_snd _ _,
      fun is_dir => read_result_snd _ _ is_dir, write_result_snd _ _, remove_result_snd _ _,
      stat_result_snd _ _, stat_update_result_snd _ _⟩

/-- C17 at the example session with `walk("data/log.bin", File)` in flight on tag 0,
answered by an Rerror: `walk_result(0)` finds the response and returns 0. -/
theorem rerror_sentinel_witness :
    (s_walk_file.req 0).pending = true ∧
    ((parse_frame cfg0 (received s_walk_file rerror_not_found) 18).1.req 0).pending = false ∧
    tag_response_type (parse_frame cfg0 (received s_walk_file rerror_not_found) 18).1 0 .Rwalk
      = true ∧
    (walk_result (parse_frame cfg0 (received s_walk_file rerror_not_found) 18).1 0).1 = 0 ∧
    parse cfg0 1 (received s_walk_file rerror_not_found) 18 =
      some (parse_frame cfg0 (received s_walk_file rerror_not_found) 18).1 :=
  have h := rerror_sentinel cfg0 (received s_walk_file rerror_not_found) 18 0
    (by decide) (by decide) (by decide) (by decide) (by decide) (by decide) (by decide)
    (by decide)
  ⟨by decide, h.1, (h.2.2.1 (by decide)).1, (h.2.2.1 (by decide)).2,
    h.2.2.2.2.2.2.2.2.2.2.2.2 (by decide) 0⟩

/-! ## C18 -/

theorem framed_tcreate (send : List Nat) (tag id : Nat) (h : 11 ≤ send.length) :
    Framed (writeAt (set_hdr_length (set_hdr_tag (set_hdr_type send
        MsgType.Tcreate.toByte) tag) (sizeof_header + sizeof_Tcreate)) 7 (le 4 id))
      11 ([MsgType.Tcreate.toByte] ++ le 2 tag ++ le 4 id) := by
  refine ⟨by simpa using h, by norm_num, ?_⟩
  simp only [set_hdr_length, set_hdr_tag, set_hdr_type, take_writeAt]
  generalize hP : List.take 11 send = p
  have hp : p.length = 11 := by rw [← hP]; simp; omega
  apply eq_of_getD_lt _ _ 11 (by simp [hp]) (by simp)
  intro i hi
  simp only [getD_writeAt, length_writeAt, length_le, hp]
  interval_cases i <;> simp [le, MsgType.toByte, sizeof_header, sizeof_Tcreate]

/-- C20: Tcreate encoding. In state Mounted, for a valid parent id, a free tag `tag`
(the lowest), the socket there and a name of fewer than 65536 bytes for which the
whole frame fits `bufferLen` (itself within the message buffer), `request_create`
returns `tag` and gives the socket one frame: header with type Tcreate and `tag`,
`fid = id`, the name as u16 length and bytes, `perm` as a little-endian u32 equal to
0x000001FF when `dir` is false and 0x800001FF when `dir` is true, then the mode byte
0; `header.length` is `sizeof(header) + sizeof(Tcreate) + 2 + |name| + 5`. -/
theorem request_create_encoding (cfg : Config) (s : Session) (id tag : Nat) (name : List Nat)
    (dir : Bool) (hst : s.state = State.Mounted) (hv : valid_file_id s id = true)
    (hfree : scan_free Request.active s.request 0 = some tag) (hN : s.request.length ≤ 255)
    (hsock : s.sock = true) (hname : name.length < 65536)
    (hfit : sizeof_header + sizeof_Tcreate + 2 + name.length + 5 ≤ s.bufferLen)
    (hmsg : s.bufferLen ≤ cfg.msgSize) (hsend : s.bufferLen ≤ s.send.length)
    (hb : s.bufferLen < 2 ^ 32) :
    (request_create cfg s id name dir).1 = tag ∧
    (request_create cfg s id name dir).2.sent = s.sent ++
      [frame .Tcreate tag
        (le 4 id ++ wire_string name ++ le 4 (if dir then 0x800001FF else 0x000001FF) ++ [0])] ∧
    hdr_length (frame .Tcreate tag
        (le 4 id ++ wire_string name ++ le 4 (if dir then 0x800001FF else 0x000001FF) ++ [0])) =
      sizeof_header + sizeof_Tcreate + 2 + name.length + 5 := by
  have htb := scan_free_bounds _ _ _ _ hfree
  have htn : tag ≠ NOTAG := by unfold NOTAG; omega
  simp only [sizeof_header, sizeof_Tcreate] at hfit
  have hperm : (0x1FF ||| (if dir then QTDIR <<< 24 else 0)) =
      (if dir then 0x800001FF else 0x000001FF) := by
    cases dir <;> decide
  have f0 := framed_tcreate s.send tag id (by omega)
  obtain ⟨a1, a2⟩ := add_string_framed cfg s.bufferLen f0 name hname
    (by have := le_min (le_refl s.bufferLen) hmsg; omega) (by simp; omega) (by omega)
  have f1 := framed_append a2 (le 4 (if dir then 0x800001FF else 0x000001FF))
    (by rw [add_string_length]; simp; omega) (by simp; omega)
  have f2 := framed_append f1 (le 1 0)
    (by simp only [length_set_hdr_length, length_writeAt, add_string_length, length_le]; simp; omega)
    (by simp; omega)
  simp only [length_le] at f1 f2
  have hlenf : hdr_length (frame .Tcreate tag
      (le 4 id ++ wire_string name ++ le 4 (if dir then 0x800001FF else 0x000001FF) ++ [0])) =
      sizeof_header + sizeof_Tcreate + 2 + name.length + 5 := by
    unfold hdr_length frame
    simp only [List.append_assoc]
    rw [rd_le_append]
    simp [wire_string, sizeof_header, sizeof_Tcreate]
    omega
  unfold request_create
  simp only [hv, Bool.not_true, Bool.false_eq_true, if_false]
  rw [get_free_tag_mounted s tag hst hfree]
  simp only []
  rw [if_neg htn, hperm, a1, framed_hdr a2]
  simp only [Bool.not_true, Bool.false_or, decide_eq_true_eq]
  rw [if_neg (by omega)]
  rw [hdr_length_writeAt _ _ _ (by omega), framed_hdr a2, framed_hdr f1,
    hdr_length_writeAt _ _ _ (by omega), framed_hdr f1]
  refine ⟨rfl, ?_, hlenf⟩
  refine (sock_send_framed _ (11 + 2 + name.length + 4 + 1)
    ([MsgType.Tcreate.toByte] ++ le 2 tag ++ le 4 id ++ wire_string name ++
      le 4 (if dir then 0x800001FF else 0x000001FF) ++ le 1 0) ?_ ?_).trans ?_
  · exact hsock
  · exact f2
  · have hl : (le 4 id ++ wire_string name ++ le 4 (if dir then 0x800001FF else 0x000001FF) ++
        [0]).length = 4 + 2 + name.length + 4 + 1 := by
      simp only [wire_string, List.length_append, length_le, List.length_cons, List.length_nil]
      omega
    unfold frame
    rw [hl, show 11 + 2 + name.length + 4 + 1 = sizeof_header + (4 + 2 + name.length + 4 + 1) by
      unfold sizeof_header; omega]
    have e1 : le 1 0 = [0] := rfl
    rw [e1]
    simp only [List.append_assoc]

/-- C20 at the example session with FID 1 valid: creating the directory "logs" under
FID 1 sends a 22-byte Tcreate on tag 0 with `perm = 0x800001FF`. -/
theorem request_create_encoding_witness :
    (request_create cfg0 s_walked 1 (cstr "logs") true).1 = 0 ∧
    (request_create cfg0 s_walked 1 (cstr "logs") true).2.sent = s_walked.sent ++
      [frame .Tcreate 0 (le 4 1 ++ wire_string (cstr "logs") ++ le 4 0x800001FF ++ [0])] ∧
    hdr_length (frame .Tcreate 0 (le 4 1 ++ wire_string (cstr "logs") ++ le 4 0x800001FF ++ [0]))
      = 22 :=
  request_create_encoding cfg0 s_walked 1 0 (cstr "logs") true (by decide) (by decide)
    (by decide) (by decide) (by decide) (by decide) (by decide) (by decide) (by decide)
    (by decide)

/-! ## C19 -/

theorem readBytes_eq_take (buf : List Nat) :
    ∀ (n off : Nat), off + n ≤ buf.length → readBytes buf off n = (buf.drop off).take n := by
  intro n
  induction n with
  | zero => intro off _; simp [readBytes]
  | succ n ih =>
    intro off h
    rw [readBytes, ih (off + 1) (by omega)]
    have hlt : off < buf.length := by omega
    rw [List.getD_eq_getElem _ _ hlt, List.drop_eq_getElem_cons hlt, List.take_succ_cons]

/-- A message whose first `k` bytes are a header announcing `k + |data|` bytes becomes
a frame once `data` is copied to offset `k`. -/
theorem framed_tail (m : List Nat) (k : Nat) (body data : List Nat)
    (hk : m.take k = le 4 (k + data.length) ++ body) (hlen : k + data.length ≤ m.length)
    (h32 : k + data.length < 2 ^ 32) :
    Framed (writeAt m k data) (k + data.length) (body ++ data) := by
  refine ⟨by simpa using hlen, h32, ?_⟩
  rw [writeAt_eq m k data hlen, List.append_assoc, List.take_append_eq_append_take]
  have e1 : (List.take k m).length = k := by simp; omega
  rw [e1, List.take_of_length_le (by rw [e1]; omega), Nat.add_sub_cancel_left,
    List.take_append_of_le_length (le_refl _), List.take_length, hk, List.append_assoc]

theorem take_twrite (send : List Nat) (tag id offset c : Nat) (h : 23 ≤ send.length) :
    (writeAt (writeAt (writeAt (set_hdr_length (set_hdr_tag (set_hdr_type send
        MsgType.Twrite.toByte) tag) (sizeof_header + sizeof_Twrite + c)) 7 (le 4 id)) 11
        (le 8 offset)) 19 (le 4 c)).take 23 =
      le 4 (23 + c) ++ ([MsgType.Twrite.toByte] ++ le 2 tag ++ le 4 id ++ le 8 offset ++ le 4 c) := by
  simp only [set_hdr_length, set_hdr_tag, set_hdr_type, take_writeAt]
  generalize hP : List.take 23 send = p
  have hp : p.length = 23 := by rw [← hP]; simp; omega
  apply eq_of_getD_lt _ _ 23 (by simp [hp]) (by simp)
  intro i hi
  simp only [getD_writeAt, length_writeAt, length_le, hp]
  interval_cases i <;> simp [le, MsgType.toByte, sizeof_header, sizeof_Twrite]

/-- C19: write clamp. In state Mounted, for a valid file id, a free tag `tag` (the
lowest), the socket there, `bufferLen` at least `sizeof(header) + sizeof(Twrite)` and
within the message buffer, and a caller's buffer that holds the bytes to send:
`request_write(id, offset, count, buf)` returns `tag` and gives the socket one frame,
a Twrite with `tag`, `fid = id`, `offset`, the count field
`min(count, bufferLen - sizeof(header) - sizeof(Twrite))` and as data the first that
many bytes of `buf`; its `header.length` is `sizeof(header) + sizeof(Twrite)` plus the
clamped count. -/
theorem request_write_encoding (s : Session) (id offset count tag : Nat) (buf : List Nat)
    (hst : s.state = State.Mounted) (hv : valid_file_id s id = true)
    (hfree : scan_free Request.active s.request 0 = some tag) (hN : s.request.length ≤ 255)
    (hsock : s.sock = true)
    (hbl : sizeof_header + sizeof_Twrite ≤ s.bufferLen) (hsend : s.bufferLen ≤ s.send.length)
    (hb : s.bufferLen < 2 ^ 32)
    (hbuf : min count (s.bufferLen - sizeof_header - sizeof_Twrite) ≤ buf.length) :
    (request_write s id offset count buf).1 = tag ∧
    (request_write s id offset count buf).2.sent = s.sent ++
      [frame .Twrite tag
        (le 4 id ++ le 8 offset ++ le 4 (min count (s.bufferLen - sizeof_header - sizeof_Twrite)) ++
          buf.take (min count (s.bufferLen - sizeof_header - sizeof_Twrite)))] ∧
    hdr_length (frame .Twrite tag
        (le 4 id ++ le 8 offset ++ le 4 (min count (s.bufferLen - sizeof_header - sizeof_Twrite)) ++
          buf.take (min count (s.bufferLen - sizeof_header - sizeof_Twrite)))) =
      sizeof_header + sizeof_Twrite + min count (s.bufferLen - sizeof_header - sizeof_Twrite) := by
  have htb := scan_free_bounds _ _ _ _ hfree
  have htn : tag ≠ NOTAG := by unfold NOTAG; omega
  simp only [sizeof_header, sizeof_Twrite] at hbl hbuf ⊢
  have hclamp : (s.bufferLen + 2 ^ 32 - (7 + 16)) % 2 ^ 32 = s.bufferLen - 7 - 16 := by omega
  generalize hc : min count (s.bufferLen - 7 - 16) = c at hbuf ⊢
  have hcle : c ≤ s.bufferLen - 7 - 16 := by rw [← hc]; exact min_le_right _ _
  have hdl : (List.take c buf).length = c := by simp; omega
  have hrb : readBytes buf 0 c = buf.take c := by
    rw [readBytes_eq_take buf c 0 (by omega)]
    rfl
  have ht := take_twrite s.send tag id offset c (by omega)
  have f0 := framed_tail _ 23 _ (buf.take c) (by rw [hdl]; exact ht) (by
    simp only [length_writeAt, length_set_hdr_length, length_set_hdr_tag, length_set_hdr_type, hdl]
    omega) (by rw [hdl]; omega)
  rw [hdl] at f0
  have hlenf : hdr_length (frame .Twrite tag (le 4 id ++ le 8 offset ++ le 4 c ++ buf.take c)) =
      7 + 16 + c := by
    unfold hdr_length frame
    simp only [List.append_assoc]
    rw [rd_le_append]
    simp only [List.length_append, length_le, hdl, sizeof_header]
    omega
  unfold request_write
  simp only [hv, Bool.not_true, Bool.false_eq_true, if_false]
  rw [get_free_tag_mounted s tag hst hfree]
  simp only [sizeof_header, sizeof_Twrite]
  rw [if_neg htn, hclamp, hc, hrb]
  refine ⟨rfl, ?_, hlenf⟩
  refine (sock_send_framed _ (23 + c)
    ([MsgType.Twrite.toByte] ++ le 2 tag ++ le 4 id ++ le 8 offset ++ le 4 c ++ buf.take c)
    ?_ ?_).trans ?_
  · exact hsock
  · exact f0
  · have hl : (le 4 id ++ le 8 offset ++ le 4 c ++ buf.take c).length = 16 + c := by
      simp only [List.length_append, length_le, hdl]
    unfold frame
    rw [hl, show 23 + c = sizeof_header + (16 + c) by unfold sizeof_header; omega]
    simp only [List.append_assoc]

/-- C19 at the example session with FID 1 valid and `bufferLen = 64`: a write of 100
bytes is clamped to 41 and sent on tag 0 in a 64-byte frame. -/
theorem request_write_encoding_witness :
    min 100 (s_walked.bufferLen - sizeof_header - sizeof_Twrite) = 41 ∧
    (request_write s_walked 1 0 100 (List.replicate 100 7)).1 = 0 ∧
    (request_write s_walked 1 0 100 (List.replicate 100 7)).2.sent = s_walked.sent ++
      [frame .Twrite 0
        (le 4 1 ++ le 8 0 ++ le 4 (min 100 (s_walked.bufferLen - sizeof_header - sizeof_Twrite)) ++
          (List.replicate 100 7).take
            (min 100 (s_walked.bufferLen - sizeof_header - sizeof_Twrite)))] :=
  have h := request_write_encoding s_walked 1 0 100 0 (List.replicate 100 7) (by decide)
    (by decide) (by decide) (by decide) (by decide) (by decide) (by decide) (by decide)
    (by decide)
  ⟨by decide, h.1, h.2.1⟩

/-! ## C21 -/

theorem take_hdr (send : List Nat) (t tag L : Nat) (h : 7 ≤ send.length) :
    (set_hdr_length (set_hdr_tag (set_hdr_type send t) tag) L).take 7 =
      le 4 L ++ (le 1 t ++ le 2 tag) := by
  simp only [set_hdr_length, set_hdr_tag, set_hdr_type, take_writeAt]
  generalize hP : List.take 7 send = p
  have hp : p.length = 7 := by rw [← hP]; simp; omega
  apply eq_of_getD_lt _ _ 7 (by simp [hp]) (by simp)
  intro i hi
  simp only [getD_writeAt, length_writeAt, length_le, hp]
  interval_cases i <;> simp [le]

theorem take_next (m : List Nat) (k : Nat) (p bs : List Nat) (hk : m.take k = p)
    (hlen : k + bs.length ≤ m.length) : (writeAt m k bs).take (k + bs.length) = p ++ bs := by
  rw [writeAt_eq m k bs hlen, List.append_assoc, List.take_append_eq_append_take]
  have e1 : (List.take k m).length = k := by simp; omega
  rw [e1, List.take_of_length_le (by rw [e1]; omega), Nat.add_sub_cancel_left,
    List.take_append_of_le_length (le_refl _), List.take_length, hk]

theorem valid_file_id_congr (s s1 : Session) (id : Nat) (h : s1.fileIds = s.fileIds) :
    valid_file_id s1 id = valid_file_id s id := by
  unfold valid_file_id Session.fid
  rw [h]

/-- C21: open mode mapping. In state Mounted, for a valid file id, a free tag `tag`
(the lowest) and the socket there, for every `flags` value `request_open` returns
`tag` and gives the socket one Topen frame with `fid = id` whose mode byte is ORDWR (2)
if `flags & O_RDWR` is non-zero, otherwise OWRITE (1) if `flags & O_WRONLY` is
non-zero, otherwise OREAD (0); the byte is 0, 1 or 2 whatever the other bits of
`flags`. -/
theorem request_open_mode (cfg : Config) (s : Session) (id flags tag : Nat)
    (hst : s.state = State.Mounted) (hv : valid_file_id s id = true)
    (hfree : scan_free Request.active s.request 0 = some tag) (hN : s.request.length ≤ 255)
    (hsock : s.sock = true) (hsend : sizeof_header + sizeof_Topen ≤ s.send.length) :
    (request_open cfg s id flags).1 = tag ∧
    (request_open cfg s id flags).2.sent = s.sent ++
      [frame .Topen tag (le 4 id ++
        [if flags &&& cfg.O_RDWR ≠ 0 then ORDWR
         else if flags &&& cfg.O_WRONLY ≠ 0 then OWRITE else OREAD])] ∧
    ((if flags &&& cfg.O_RDWR ≠ 0 then ORDWR
      else if flags &&& cfg.O_WRONLY ≠ 0 then OWRITE else OREAD) = 0 ∨
     (if flags &&& cfg.O_RDWR ≠ 0 then ORDWR
      else if flags &&& cfg.O_WRONLY ≠ 0 then OWRITE else OREAD) = 1 ∨
     (if flags &&& cfg.O_RDWR ≠ 0 then ORDWR
      else if flags &&& cfg.O_WRONLY ≠ 0 then OWRITE else OREAD) = 2) := by
  have htb := scan_free_bounds _ _ _ _ hfree
  have htn : tag ≠ NOTAG := by unfold NOTAG; omega
  simp only [sizeof_header, sizeof_Topen] at hsend
  generalize hm : (if flags &&& cfg.O_RDWR ≠ 0 then ORDWR
      else if flags &&& cfg.O_WRONLY ≠ 0 then OWRITE else OREAD) = mode
  have hmode : mode = 0 ∨ mode = 1 ∨ mode = 2 := by
    rw [← hm]
    unfold ORDWR OWRITE OREAD
    split_ifs <;> simp
  have hle : le 1 mode = [mode] := by
    rcases hmode with h | h | h <;> rw [h] <;> rfl
  have h7 := take_hdr s.send MsgType.Topen.toByte tag (sizeof_header + sizeof_Topen) (by omega)
  have h11 := take_next _ 7 _ (le 4 id) h7 (by simp; omega)
  have h12 := take_next _ (7 + (le 4 id).length) _ (le 1 mode) h11 (by simp; omega)
  simp only [length_le] at h11 h12
  have f0 : Framed (writeAt (writeAt (set_hdr_length (set_hdr_tag (set_hdr_type s.send
      MsgType.Topen.toByte) tag) (sizeof_header + sizeof_Topen)) 7 (le 4 id)) 11 (le 1 mode))
      12 ([MsgType.Topen.toByte] ++ le 2 tag ++ le 4 id ++ le 1 mode) := by
    refine ⟨by simp; omega, by norm_num, ?_⟩
    rw [h12]
    simp [sizeof_header, sizeof_Topen, le, MsgType.toByte]
  unfold request_open
  simp only []
  rw [get_free_tag_mounted s tag hst hfree]
  simp only []
  rw [if_neg htn, if_neg (by
    have e : ∀ r, valid_file_id { s with request := r } id = valid_file_id s id := fun _ => rfl
    rw [e, hv]
    simp)]
  rw [hm]
  refine ⟨rfl, ?_, hmode⟩
  refine (sock_send_framed _ 12
    ([MsgType.Topen.toByte] ++ le 2 tag ++ le 4 id ++ le 1 mode) ?_ ?_).trans ?_
  · exact hsock
  · exact f0
  · rw [hle]
    simp [frame, sizeof_header]

/-- C21 at the example session with FID 1 valid: `open(1, O_RDWR | 0x200)` sends a
Topen on tag 0 whose mode byte is ORDWR, and `open(1, O_WRONLY | 0x200)` one whose
mode byte is OWRITE. -/
theorem request_open_mode_witness :
    (request_open cfg0 s_walked 1 0x202).2.sent =
      s_walked.sent ++ [frame .Topen 0 (le 4 1 ++ [ORDWR])] ∧
    (request_open cfg0 s_walked 1 0x201).2.sent =
      s_walked.sent ++ [frame .Topen 0 (le 4 1 ++ [OWRITE])] :=
  ⟨(request_open_mode cfg0 s_walked 1 0x202 0 (by decide) (by decide) (by decide) (by decide)
      (by decide) (by decide)).2.1,
   (request_open_mode cfg0 s_walked 1 0x201 0 (by decide) (by decide) (by decide) (by decide)
      (by decide) (by decide)).2.1⟩

/-! ## C22 -/

theorem add_strings_framed (cfg : Config) (bl : Nat) (strs : List (List Nat)) :
    ∀ {m : List Nat} {L : Nat} {body : List Nat}, Framed m L body →
      (∀ str ∈ strs, str.length < 65536) →
      L + (strs.map (fun str => 2 + str.length)).sum ≤ min bl cfg.msgSize →
      L + (strs.map (fun str => 2 + str.length)).sum ≤ m.length →
      L + (strs.map (fun str => 2 + str.length)).sum < 2 ^ 32 →
      (add_strings cfg bl m strs).1 = true ∧
        Framed (add_strings cfg bl m strs).2 (L + (strs.map (fun str => 2 + str.length)).sum)
          (body ++ (strs.map wire_string).flatten) := by
  induction strs with
  | nil =>
    intro m L body h _ _ _ _
    simpa [add_strings] using h
  | cons str rest ih =>
    intro m L body h hs h1 h2 h3
    simp only [List.map_cons, List.sum_cons] at h1 h2 h3
    obtain ⟨a1, a2⟩ := add_string_framed cfg bl h str (hs str (List.mem_cons_self _ _))
      (by omega) (by omega) (by omega)
    obtain ⟨b1, b2⟩ := ih a2 (fun x hx => hs x (List.mem_cons_of_mem _ hx))
      (by omega) (by rw [add_string_length]; omega) (by omega)
    unfold add_strings
    simp only [a1, if_true, List.map_cons, List.sum_cons, List.flatten_cons]
    refine ⟨b1, ?_⟩
    rw [show L + (2 + str.length + (rest.map (fun str => 2 + str.length)).sum) =
      L + 2 + str.length + (rest.map (fun str => 2 + str.length)).sum by omega,
      ← List.append_assoc]
    exact b2

/-- The send buffer after the fixed part of a Twstat was filled in: header, fid,
nstat = 1 and the stat record set to 0xFF. -/
theorem framed_twstat (send : List Nat) (tag id : Nat) (h : 54 ≤ send.length) :
    Framed (writeAt (writeAt (writeAt (set_hdr_length (set_hdr_tag (set_hdr_type send
        MsgType.Twstat.toByte) tag) (sizeof_header + sizeof_Twstat)) 7 (le 4 id)) 11 (le 2 1)) 13
        (List.replicate sizeof_stat_t 0xFF))
      54 (([MsgType.Twstat.toByte] ++ le 2 tag ++ le 4 id ++ le 2 1) ++
        List.replicate sizeof_stat_t 0xFF) := by
  have h7 := take_hdr send MsgType.Twstat.toByte tag (sizeof_header + sizeof_Twstat) (by omega)
  have h11 := take_next _ 7 _ (le 4 id) h7 (by simp; omega)
  have h13 := take_next _ (7 + (le 4 id).length) _ (le 2 1) h11 (by simp; omega)
  have h54 := take_next _ (7 + (le 4 id).length + (le 2 1).length) _
    (List.replicate sizeof_stat_t 0xFF) h13 (by simp [sizeof_stat_t]; omega)
  simp only [length_le, List.length_replicate, sizeof_stat_t] at h11 h13 h54
  refine ⟨by simp; omega, by norm_num, ?_⟩
  simp only [sizeof_stat_t]
  rw [h54]
  simp [sizeof_header, sizeof_Twstat, le, MsgType.toByte]

/-- The stat record of 0xFF bytes with `mtime` written at its offset 29. -/
theorem poke_mtime (hd : List Nat) (mtime : Nat) (hhd : hd.length = 9) :
    writeAt (hd ++ List.replicate sizeof_stat_t 0xFF) (42 - 4) (le 4 mtime) =
      hd ++ (List.replicate 29 0xFF ++ le 4 mtime ++ List.replicate 8 0xFF) := by
  rw [writeAt_append_right _ _ _ _ (by rw [hhd]; norm_num), hhd]
  rw [writeAt_eq _ _ _ (by simp [sizeof_stat_t])]
  simp [sizeof_stat_t, List.take_replicate, List.drop_replicate]

theorem frame_eq (t : MsgType) (tag L : Nat) (body rest : List Nat)
    (hL : L = sizeof_header + rest.length) (hb : body = [t.toByte] ++ le 2 tag ++ rest) :
    [le 4 L ++ body] = [frame t tag rest] := by
  subst hL hb
  simp [frame]

theorem hdr_length_frame (t : MsgType) (tag : Nat) (body : List Nat)
    (h : sizeof_header + body.length < 2 ^ 32) :
    hdr_length (frame t tag body) = sizeof_header + body.length := by
  unfold hdr_length frame
  simp only [List.append_assoc]
  rw [rd_le_append]
  exact Nat.mod_eq_of_lt h

/-- C22: Twstat encoding of "no change". In state Mounted, for a valid file id, a free
tag `tag` (the lowest), the socket there and frames that fit `bufferLen` (itself within
the message buffer): `request_rename(id, name)` returns `tag` and gives the socket one
Twstat frame with `fid = id`, `nstat = 1`, a fixed stat record of 41 bytes 0xFF, then
`name` and three empty strings, each as u16 length and bytes; `request_set_mtime(id, t)`
returns `tag` and gives the socket one Twstat frame with `fid = id`, `nstat = 1`, a
fixed stat record whose `mtime` (bytes 29 to 32) is `t` and whose other bytes are 0xFF,
then four empty strings. Both have `header.length = sizeof(header) + sizeof(Twstat)`
plus the bytes of the four length-prefixed strings. -/
theorem twstat_encoding (cfg : Config) (s : Session) (id tag : Nat)
    (hst : s.state = State.Mounted) (hv : valid_file_id s id = true)
    (hfree : scan_free Request.active s.request 0 = some tag) (hN : s.request.length ≤ 255)
    (hsock : s.sock = true) (hmsg : s.bufferLen ≤ cfg.msgSize)
    (hsend : s.bufferLen ≤ s.send.length) (hb : s.bufferLen < 2 ^ 32) :
    (∀ name : List Nat, name.length < 65536 →
      sizeof_header + sizeof_Twstat + (2 + name.length) + 6 ≤ s.bufferLen →
      (request_rename cfg s id name).1 = tag ∧
      (request_rename cfg s id name).2.sent = s.sent ++
        [frame .Twstat tag (le 4 id ++ le 2 1 ++ List.replicate sizeof_stat_t 0xFF ++
          wire_string name ++ wire_string [] ++ wire_string [] ++ wire_string [])] ∧
      hdr_length (frame .Twstat tag (le 4 id ++ le 2 1 ++ List.replicate sizeof_stat_t 0xFF ++
          wire_string name ++ wire_string [] ++ wire_string [] ++ wire_string [])) =
        sizeof_header + sizeof_Twstat + (2 + name.length) + 6) ∧
    (∀ mtime : Nat, sizeof_header + sizeof_Twstat + 8 ≤ s.bufferLen →
      (request_set_mtime cfg s id mtime).1 = tag ∧
      (request_set_mtime cfg s id mtime).2.sent = s.sent ++
        [frame .Twstat tag (le 4 id ++ le 2 1 ++
          (List.replicate 29 0xFF ++ le 4 mtime ++ List.replicate 8 0xFF) ++
          wire_string [] ++ wire_string [] ++ wire_string [] ++ wire_string [])] ∧
      hdr_length (frame .Twstat tag (le 4 id ++ le 2 1 ++
          (List.replicate 29 0xFF ++ le 4 mtime ++ List.replicate 8 0xFF) ++
          wire_string [] ++ wire_string [] ++ wire_string [] ++ wire_string [])) =
        sizeof_header + sizeof_Twstat + 8) := by
  have htb := scan_free_bounds _ _ _ _ hfree
  have htn : tag ≠ NOTAG := by unfold NOTAG; omega
  have hmin : min s.bufferLen cfg.msgSize = s.bufferLen := min_eq_left hmsg
  have he : (cstr "") = [] := rfl
  constructor
  · intro name hname hfit
    simp only [sizeof_header, sizeof_Twstat] at hfit
    have f0 := framed_twstat s.send tag id (by omega)
    obtain ⟨a1, a2⟩ := add_strings_framed cfg s.bufferLen [name, [], [], []] f0
      (by intro x hx; simp at hx; rcases hx with h | h <;> rw [h] <;> simp [hname])
      (by rw [hmin]; simp; omega) (by simp; omega) (by simp; omega)
    have hlen : (le 4 id ++ le 2 1 ++ List.replicate sizeof_stat_t 0xFF ++
        wire_string name ++ wire_string [] ++ wire_string [] ++ wire_string []).length =
        47 + (2 + name.length) + 6 := by
      simp [wire_string, sizeof_stat_t]
      omega
    unfold request_rename
    simp only [hv, Bool.not_true, Bool.false_eq_true, if_false]
    rw [get_free_tag_mounted s tag hst hfree]
    simp only []
    rw [if_neg htn, he, a1]
    simp only [Bool.not_true, Bool.false_eq_true, if_false]
    refine ⟨trivial, ?_, ?_⟩
    · refine (sock_send_framed _ (54 + ([name, [], [], []].map (fun str => 2 + str.length)).sum)
        (([MsgType.Twstat.toByte] ++ le 2 tag ++ le 4 id ++ le 2 1) ++
          List.replicate sizeof_stat_t 0xFF ++ ([name, [], [], []].map wire_string).flatten)
        ?_ ?_).trans ?_
      · exact hsock
      · exact a2
      · congr 1
        apply frame_eq
        · rw [hlen]
          simp [sizeof_header]
          omega
        · simp
    · rw [hdr_length_frame _ _ _ (by rw [hlen]; unfold sizeof_header; omega), hlen]
      simp only [sizeof_header, sizeof_Twstat]
      omega
  · intro mtime hfit
    simp only [sizeof_header, sizeof_Twstat] at hfit
    have f0 := framed_twstat s.send tag id (by omega)
    have f1 := framed_poke f0 42 (le 4 mtime) (by norm_num)
    rw [poke_mtime _ mtime (by simp)] at f1
    obtain ⟨a1, a2⟩ := add_strings_framed cfg s.bufferLen [[], [], [], []] f1
      (by intro x hx; simp at hx; rw [hx]; simp)
      (by rw [hmin]; simp; omega) (by simp; omega) (by simp)
    have hlen : (le 4 id ++ le 2 1 ++
        (List.replicate 29 0xFF ++ le 4 mtime ++ List.replicate 8 0xFF) ++
        wire_string [] ++ wire_string [] ++ wire_string [] ++ wire_string []).length =
        47 + 8 := by
      simp [wire_string]
    unfold request_set_mtime
    simp only [hv, Bool.not_true, Bool.false_eq_true, if_false]
    rw [get_free_tag_mounted s tag hst hfree]
    simp only []
    rw [if_neg htn, he, a1]
    simp only [Bool.not_true, Bool.false_eq_true, if_false]
    refine ⟨trivial, ?_, ?_⟩
    · refine (sock_send_framed _ (54 + ([[], [], [], []].map
          (fun str : List Nat => 2 + str.length)).sum)
        (([MsgType.Twstat.toByte] ++ le 2 tag ++ le 4 id ++ le 2 1) ++
          (List.replicate 29 0xFF ++ le 4 mtime ++ List.replicate 8 0xFF) ++
          ([[], [], [], []].map wire_string).flatten)
        ?_ ?_).trans ?_
      · exact hsock
      · exact a2
      · rfl
    · rw [hdr_length_frame _ _ _ (by rw [hlen]; unfold sizeof_header; omega), hlen]
      simp only [sizeof_header, sizeof_Twstat]

/-- C22 at the example session with FID 1 valid (`bufferLen = 64`): a rename to "b"
is a 63-byte Twstat and a set-mtime a 62-byte Twstat, both on tag 0. -/
theorem twstat_encoding_witness :
    ((request_rename cfg0 s_walked 1 (cstr "b")).1 = 0 ∧
      (request_rename cfg0 s_walked 1 (cstr "b")).2.sent = s_walked.sent ++
        [frame .Twstat 0 (le 4 1 ++ le 2 1 ++ List.replicate sizeof_stat_t 0xFF ++
          wire_string (cstr "b") ++ wire_string [] ++ wire_string [] ++ wire_string [])] ∧
      hdr_length (frame .Twstat 0 (le 4 1 ++ le 2 1 ++ List.replicate sizeof_stat_t 0xFF ++
          wire_string (cstr "b") ++ wire_string [] ++ wire_string [] ++ wire_string [])) =
        sizeof_header + sizeof_Twstat + (2 + (cstr "b").length) + 6) ∧
    ((request_set_mtime cfg0 s_walked 1 1700000000).1 = 0 ∧
      (request_set_mtime cfg0 s_walked 1 1700000000).2.sent = s_walked.sent ++
        [frame .Twstat 0 (le 4 1 ++ le 2 1 ++
          (List.replicate 29 0xFF ++ le 4 1700000000 ++ List.replicate 8 0xFF) ++
          wire_string [] ++ wire_string [] ++ wire_string [] ++ wire_string [])] ∧
      hdr_length (frame .Twstat 0 (le 4 1 ++ le 2 1 ++
          (List.replicate 29 0xFF ++ le 4 1700000000 ++ List.replicate 8 0xFF) ++
          wire_string [] ++ wire_string [] ++ wire_string [] ++ wire_string [])) =
        sizeof_header + sizeof_Twstat + 8) :=
  have h := twstat_encoding cfg0 s_walked 1 0 (by decide) (by decide) (by decide) (by decide)
    (by decide) (by decide) (by decide) (by decide)
  ⟨h.1 (cstr "b") (by decide) (by decide), h.2 1700000000 (by decide)⟩

/-! ## C23 -/

theorem strncpy_eq_take : ∀ (n : Nat) (src : List Nat), n ≤ src.length →
    (∀ b ∈ src.take n, b % 256 ≠ 0) → strncpy src n = src.take n := by
  intro n
  induction n with
  | zero => intro src _ _; simp [strncpy]
  | succ n ih =>
    intro src hlen hnz
    cases src with
    | nil => simp at hlen
    | cons b bs =>
      have hb : b % 256 ≠ 0 := hnz b (by simp)
      rw [strncpy]
      simp only [List.headD_cons, List.tail_cons, List.take_succ_cons]
      rw [if_neg hb, ih bs (by simpa using hlen) (fun x hx => hnz x (by simp [hx]))]

/-- What `handle_dir_Rread` does with a stat it accepts. -/
theorem handle_dir_Rread_accept (cfg : Config) (s : Session) (tag d : Nat)
    (hrd : (s.req tag).read_dir = some d)
    (h52 : sizeof_header + sizeof_Rread + sizeof_stat_t ≤ hdr_length s.receive)
    (hfull : sizeof_header + sizeof_Rread + (rd s.receive 11 2 + 2) ≤ hdr_length s.receive)
    (hw : hdr_length s.receive < 65536)
    (hq : rd s.receive 19 1 = QTFILE ∨ rd s.receive 19 1 = QTDIR) :
    handle_dir_Rread cfg s tag = { s with
      dirents := upd s.dirents d (fun _ =>
        { d_name := strncpy (s.receive.drop 54) (min cfg.dNameSize (rd s.receive 52 2)) ++
            List.replicate (cfg.dNameSize - min cfg.dNameSize (rd s.receive 52 2)) 0,
          d_type := if rd s.receive 19 1 = QTFILE then cfg.DT_REG else cfg.DT_DIR }),
      request := upd s.request tag (fun q =>
        { q with read_count := ((rd s.receive 11 2 + 2 : Nat) : Int) }) } := by
  simp only [sizeof_header, sizeof_Rread, sizeof_stat_t] at h52 hfull
  unfold handle_dir_Rread
  rw [hrd]
  simp only [sizeof_header, sizeof_Rread, sizeof_stat_t]
  have e52 : (7 + 4 + 41) % 65536 = 52 := by norm_num
  have esl : (rd s.receive 11 2 + 2) % 65536 = rd s.receive 11 2 + 2 :=
    Nat.mod_eq_of_lt (by omega)
  rw [e52, esl, if_neg (by omega), if_neg (by omega), if_neg (by
    rintro ⟨h1, h2⟩
    rcases hq with h | h
    · exact h1 h
    · exact h2 h)]

/-- What `handle_dir_Rread` does with a frame shorter than header, count and stat. -/
theorem handle_dir_Rread_short (cfg : Config) (s : Session) (tag : Nat)
    (h52 : hdr_length s.receive < sizeof_header + sizeof_Rread + sizeof_stat_t) :
    handle_dir_Rread cfg s tag = s := by
  simp only [sizeof_header, sizeof_Rread, sizeof_stat_t] at h52
  unfold handle_dir_Rread
  cases (s.req tag).read_dir with
  | none => rfl
  | some d =>
    simp only [sizeof_header, sizeof_Rread, sizeof_stat_t]
    rw [if_pos (by omega)]

theorem upd_id {α : Type} (l : List α) : ∀ i, upd l i id = l := by
  induction l with
  | nil => intro i; rfl
  | cons x xs ih =>
    intro i
    cases i with
    | zero => rfl
    | succ i => simp [upd, ih]

/-- The caller memory and the counters after the activation of `parse` that meets a
reply for a pending tag are those the handler left. -/
theorem parse_frame_reply_caller (cfg : Config) (s : Session) (t : MsgType) (len : Nat)
    (hst : s.state = State.Mounted) (ht : hdr_type s.receive = t.toByte)
    (hk : t = .Rerror ∨ t = .Rwalk ∨ t = .Ropen ∨ t = .Rcreate ∨ t = .Rread ∨ t = .Rwrite ∨
      t = .Rremove ∨ t = .Rstat ∨ t = .Rwstat)
    (htl : hdr_tag s.receive < s.request.length)
    (hp : (s.req (hdr_tag s.receive)).pending = true)
    (he : t = .Rerror ∨ (s.req (hdr_tag s.receive)).expectedType = t.toByte)
    (hlen : hdr_length s.receive ≤ len) (hbl : hdr_length s.receive ≤ s.bufferLen) :
    (parse_frame cfg s len).1.dirents = (handle_reply cfg s t (hdr_tag s.receive)).dirents ∧
    (parse_frame cfg s len).1.stats = (handle_reply cfg s t (hdr_tag s.receive)).stats ∧
    (parse_frame cfg s len).1.bufferLen = (handle_reply cfg s t (hdr_tag s.receive)).bufferLen ∧
    (parse_frame cfg s len).1.internal_errors =
      (handle_reply cfg s t (hdr_tag s.receive)).internal_errors ∧
    (parse_frame cfg s len).1.fault = (handle_reply cfg s t (hdr_tag s.receive)).fault := by
  have hd := (dispatch_reply cfg s t ht hk).trans (parse_reply_handled cfg s t hst htl hp he)
  obtain ⟨⟨rcv, hpf⟩, -⟩ := parse_frame_of_dispatch cfg s _ len hd hlen hbl
  refine ⟨?_, ?_, ?_, ?_, ?_⟩ <;> rw [hpf]

/-- The slot of a reply after the activation of `parse` that meets it, when the
handler changed the tag table in that slot only. -/
theorem reply_slot (cfg : Config) (s : Session) (t : MsgType) (len : Nat)
    (g : Request → Request)
    (hst : s.state = State.Mounted) (ht : hdr_type s.receive = t.toByte)
    (hk : t = .Rerror ∨ t = .Rwalk ∨ t = .Ropen ∨ t = .Rcreate ∨ t = .Rread ∨ t = .Rwrite ∨
      t = .Rremove ∨ t = .Rstat ∨ t = .Rwstat)
    (htl : hdr_tag s.receive < s.request.length)
    (hp : (s.req (hdr_tag s.receive)).pending = true)
    (he : t = .Rerror ∨ (s.req (hdr_tag s.receive)).expectedType = t.toByte)
    (hlen : hdr_length s.receive ≤ len) (hbl : hdr_length s.receive ≤ s.bufferLen)
    (hg : (handle_reply cfg s t (hdr_tag s.receive)).request = upd s.request (hdr_tag s.receive) g) :
    (parse_frame cfg s len).1.req (hdr_tag s.receive) =
      { g (s.req (hdr_tag s.receive)) with pending := false } ∧
    (parse_frame cfg s len).1.request.length = s.request.length ∧
    (∀ j, j ≠ hdr_tag s.receive → (parse_frame cfg s len).1.req j = s.req j) := by
  obtain ⟨hreq, -⟩ := parse_frame_reply cfg s t len hst ht hk htl hp he hlen hbl
  refine ⟨?_, ?_, ?_⟩
  · show (parse_frame cfg s len).1.request.getD _ _ = _
    rw [hreq, hg, getD_upd_upd _ _ _ _ _ htl]
    rfl
  · rw [hreq, hg, length_upd, length_upd]
  · intro j hj
    show (parse_frame cfg s len).1.request.getD _ _ = _
    rw [hreq, hg, getD_upd, if_neg (fun h => hj h.1), getD_upd, if_neg (fun h => hj h.1)]
    rfl

/-- The value `read_result` returns for a slot that holds a completed read of the
kind asked for. -/
theorem read_result_done (s : Session) (tag : Nat) (is_dir : Bool)
    (htl : tag < s.request.length) (hact : (s.req tag).active = true)
    (hp : (s.req tag).pending = false)
    (he : (s.req tag).expectedType = MsgType.Rread.toByte)
    (hdir : (s.req tag).read_is_dir = is_dir) :
    (read_result s tag is_dir).1 = (s.req tag).read_count := by
  have htt : tag_response_type s tag .Rread = true := by
    unfold tag_response_type tag_response
    rw [if_neg (by omega)]
    simp [hact, hp, he]
  unfold read_result
  rw [htt]
  simp [hdir]

/-- C23: directory read response. In state Mounted, for an active tag pending for the
Rread of a directory read with destination entry `d`, when the receive buffer starts
with a complete Rread frame for that tag (within `bufferLen`), after the activation of
`parse` that meets it:
when the frame (shorter than 65536 bytes) holds the fixed stat record and the whole
stat of `msg_size + 2` bytes, with `qid.type` QTFILE or QTDIR and a name of `name_len`
bytes in the buffer without a zero byte, `read_result(tag, true)` returns
`msg_size + 2`, `d_type` is DT_REG for QTFILE and DT_DIR for QTDIR, and `d_name` holds
the first `min(sizeof(d_name), name_len)` bytes of the name, the rest being zero;
when the frame is shorter than `sizeof(header) + sizeof(Rread) + sizeof(stat_t)` no
entry is modified and `read_result(tag, true)` returns the count the slot held, which
is 0 for a slot that was zero when `request_dir_read` took it. When the frame is all
that was received, `parse` returns with that session. -/
theorem dir_read_response (cfg : Config) (s : Session) (len tag d : Nat)
    (hst : s.state = State.Mounted)
    (ht : hdr_type s.receive = MsgType.Rread.toByte) (htag : hdr_tag s.receive = tag)
    (htl : tag < s.request.length) (hact : (s.req tag).active = true)
    (hp : (s.req tag).pending = true)
    (he : (s.req tag).expectedType = MsgType.Rread.toByte)
    (hdir : (s.req tag).read_is_dir = true)
    (hrd : (s.req tag).read_dir = some d) (hd : d < s.dirents.length)
    (hlen : hdr_length s.receive ≤ len) (hbl : hdr_length s.receive ≤ s.bufferLen) :
    (sizeof_header + sizeof_Rread + sizeof_stat_t ≤ hdr_length s.receive →
      sizeof_header + sizeof_Rread + (rd s.receive 11 2 + 2) ≤ hdr_length s.receive →
      hdr_length s.receive < 65536 →
      (rd s.receive 19 1 = QTFILE ∨ rd s.receive 19 1 = QTDIR) →
      54 + rd s.receive 52 2 ≤ s.receive.length →
      (∀ b ∈ (s.receive.drop 54).take (rd s.receive 52 2), b % 256 ≠ 0) →
      (read_result (parse_frame cfg s len).1 tag true).1 = ((rd s.receive 11 2 + 2 : Nat) : Int) ∧
      ((parse_frame cfg s len).1.dirents.getD d ⟨[], 0⟩).d_type =
        (if rd s.receive 19 1 = QTFILE then cfg.DT_REG else cfg.DT_DIR) ∧
      ((parse_frame cfg s len).1.dirents.getD d ⟨[], 0⟩).d_name =
        ((s.receive.drop 54).take (rd s.receive 52 2)).take cfg.dNameSize ++
          List.replicate (cfg.dNameSize - min cfg.dNameSize (rd s.receive 52 2)) 0 ∧
      ((parse_frame cfg s len).1.dirents.getD d ⟨[], 0⟩).d_name.length = cfg.dNameSize) ∧
    (hdr_length s.receive < sizeof_header + sizeof_Rread + sizeof_stat_t →
      (parse_frame cfg s len).1.dirents = s.dirents ∧
      (read_result (parse_frame cfg s len).1 tag true).1 = (s.req tag).read_count ∧
      ((s.req tag).read_count = 0 → (read_result (parse_frame cfg s len).1 tag true).1 = 0)) ∧
    (len = hdr_length s.receive → ∀ fuel,
      parse cfg (fuel + 1) s len = some (parse_frame cfg s len).1) := by
  subst htag
  obtain ⟨hreq, -, -, -, -, hparse⟩ := parse_frame_reply cfg s .Rread len hst ht
    (by simp) htl hp (Or.inr he) hlen hbl
  have hh : handle_reply cfg s .Rread (hdr_tag s.receive) =
      handle_dir_Rread cfg s (hdr_tag s.receive) := by
    show (if (s.req (hdr_tag s.receive)).read_is_dir then _ else _) = _
    rw [hdir]
    rfl
  rw [hh] at hreq hparse
  obtain ⟨hdirents, -⟩ := parse_frame_reply_caller cfg s .Rread len hst ht
    (by simp) htl hp (Or.inr he) hlen hbl
  rw [hh] at hdirents
  have hres : ∀ g : Request → Request,
      (handle_dir_Rread cfg s (hdr_tag s.receive)).request = upd s.request (hdr_tag s.receive) g →
      (∀ q, (g q).active = q.active ∧ (g q).expectedType = q.expectedType ∧
        (g q).read_is_dir = q.read_is_dir) →
      (read_result (parse_frame cfg s len).1 (hdr_tag s.receive) true).1 =
        (g (s.req (hdr_tag s.receive))).read_count := by
    intro g hg hq
    obtain ⟨h1, h2, -⟩ := reply_slot cfg s .Rread len g hst ht (by simp) htl hp (Or.inr he)
      hlen hbl (by rw [hh]; exact hg)
    obtain ⟨q1, q2, q3⟩ := hq (s.req (hdr_tag s.receive))
    rw [read_result_done _ _ true (by omega) (by rw [h1]; exact q1.trans hact) (by rw [h1])
      (by rw [h1]; exact q2.trans he) (by rw [h1]; exact q3.trans hdir), h1]
  have hrl : hdr_length (handle_dir_Rread cfg s (hdr_tag s.receive)).receive =
      hdr_length s.receive := by
    unfold handle_dir_Rread
    cases (s.req (hdr_tag s.receive)).read_dir with
    | none => rfl
    | some d =>
      simp only []
      split_ifs <;> rfl
  refine ⟨fun h52 hfull hw hq hname hnz => ?_, fun h52 => ?_, hparse hrl⟩
  · have hf := handle_dir_Rread_accept cfg s _ d hrd h52 hfull hw hq
    rw [hf] at hdirents
    have hmin : min cfg.dNameSize (rd s.receive 52 2) ≤ (s.receive.drop 54).length := by
      simp only [List.length_drop]
      have := min_le_right cfg.dNameSize (rd s.receive 52 2)
      omega
    have hcp : strncpy (s.receive.drop 54) (min cfg.dNameSize (rd s.receive 52 2)) =
        ((s.receive.drop 54).take (rd s.receive 52 2)).take cfg.dNameSize := by
      rw [strncpy_eq_take _ _ hmin, List.take_take]
      intro b hb
      apply hnz b
      rw [← List.take_take] at hb
      exact List.mem_of_mem_take hb
    have hent : (parse_frame cfg s len).1.dirents.getD d ⟨[], 0⟩ =
        { d_name := ((s.receive.drop 54).take (rd s.receive 52 2)).take cfg.dNameSize ++
            List.replicate (cfg.dNameSize - min cfg.dNameSize (rd s.receive 52 2)) 0,
          d_type := if rd s.receive 19 1 = QTFILE then cfg.DT_REG else cfg.DT_DIR } := by
      rw [hdirents]
      show (upd s.dirents d _).getD d _ = _
      rw [getD_upd, if_pos ⟨rfl, hd⟩, hcp]
    refine ⟨?_, ?_, ?_, ?_⟩
    · rw [hres (fun q => { q with read_count := ((rd s.receive 11 2 + 2 : Nat) : Int) })
        (by rw [hf]) (fun _ => ⟨rfl, rfl, rfl⟩)]
    · rw [hent]
    · rw [hent]
    · rw [hent]
      simp only [List.length_append, List.length_take, List.length_drop,
        List.length_replicate]
      omega
  · have hf := handle_dir_Rread_short cfg s (hdr_tag s.receive) h52
    rw [hf] at hdirents
    have hr : (read_result (parse_frame cfg s len).1 (hdr_tag s.receive) true).1 =
        (s.req (hdr_tag s.receive)).read_count := by
      rw [hres id (by rw [hf, upd_id]) (fun _ => ⟨rfl, rfl, rfl⟩)]
      rfl
    exact ⟨hdirents, hr, fun h0 => hr.trans h0⟩

/-- C23 at the example session with a directory read in flight on tag 0 (the slot was
zero when it was taken, so its count is 0), answered by an Rread with the stat of the
directory "logs": `read_result` returns 53 and the entry holds the name and DT_DIR. -/
theorem dir_read_response_witness :
    (s_dir_reading.req 0).read_count = 0 ∧
    (read_result (parse_frame cfg0 (received s_dir_reading rread_stat_logs) 64).1 0 true).1
      = 53 ∧
    (parse_frame cfg0 (received s_dir_reading rread_stat_logs) 64).1.dirents =
      [{ d_name := cstr "logs" ++ List.replicate 12 0, d_type := cfg0.DT_DIR }] ∧
    parse cfg0 1 (received s_dir_reading rread_stat_logs) 64 =
      some (parse_frame cfg0 (received s_dir_reading rread_stat_logs) 64).1 :=
  have h := dir_read_response cfg0 (received s_dir_reading rread_stat_logs) 64 0 0
    (by decide) (by decide) (by decide) (by decide) (by decide) (by decide) (by decide)
    (by decide) (by decide) (by decide) (by decide) (by decide)
  ⟨by decide,
   (h.1 (by decide) (by decide) (by decide) (by decide) (by decide) (by decide)).1,
   by decide, h.2.2 (by decide) 0⟩

/-! ## C24 -/

theorem tag_response_type_iff (s : Session) (tag : Nat) (t : MsgType)
    (htl : tag < s.request.length) :
    tag_response_type s tag t = true ↔
      ((s.req tag).active = true ∧ (s.req tag).pending = false ∧
        (s.req tag).expectedType = t.toByte) := by
  unfold tag_response_type tag_response
  rw [if_neg (by omega)]
  simp [and_assoc]

theorem clear_tag_other (s : Session) (tag j : Nat) (hj : j ≠ tag) :
    (clear_tag s tag).req j = s.req j := by
  unfold clear_tag
  split_ifs
  · rfl
  · show (upd s.request tag _).getD j Request.zero = _
    rw [getD_upd, if_neg (fun h => hj h.1)]
    rfl

theorem clear_tag_length (s : Session) (tag : Nat) :
    (clear_tag s tag).request.length = s.request.length := by
  unfold clear_tag
  split_ifs
  · rfl
  · exact length_upd _ _ _

/-- C24: result accessors drain and release. For every tag below the size of the tag
table: a slot holds a completed response of type `t` (`tag_response_type`) exactly when
it is active, not pending and expects `t`. Each accessor returns the payload of the
slot when the slot holds a completed response of its own type (for `read_result`, of
the kind asked for as well) and its sentinel otherwise (0, false or -1), and leaves the
session `clear_tag` gives: slot `tag` is zero (inactive, not pending), every other
slot and the size of the table are as before. -/
theorem result_accessors (s : Session) (tag : Nat) (htl : tag < s.request.length) :
    (∀ t, tag_response_type s tag t = true ↔
      ((s.req tag).active = true ∧ (s.req tag).pending = false ∧
        (s.req tag).expectedType = t.toByte)) ∧
    ((walk_result s tag).1 =
        (if tag_response_type s tag .Rwalk then (s.req tag).walk_fileId else 0) ∧
      (open_result s tag).1 =
        (if tag_response_type s tag .Ropen then (s.req tag).open_result else false) ∧
      (create_result s tag).1 =
        (if tag_response_type s tag .Rcreate then (s.req tag).create_result else false) ∧
      (∀ is_dir, (read_result s tag is_dir).1 =
        (if tag_response_type s tag .Rread ∧ (s.req tag).read_is_dir = is_dir
          then (s.req tag).read_count else -1)) ∧
      (write_result s tag).1 =
        (if tag_response_type s tag .Rwrite then (s.req tag).write_count else -1) ∧
      (remove_result s tag).1 =
        (if tag_response_type s tag .Rremove then (s.req tag).remove_result else false) ∧
      (stat_result s tag).1 =
        (if tag_response_type s tag .Rstat then (s.req tag).stat_result else false) ∧
      (stat_update_result s tag).1 =
        (if tag_response_type s tag .Rwstat then (s.req tag).rwstat_result else false)) ∧
    ((walk_result s tag).2 = clear_tag s tag ∧
      (open_result s tag).2 = clear_tag s tag ∧
      (create_result s tag).2 = clear_tag s tag ∧
      (∀ is_dir, (read_result s tag is_dir).2 = clear_tag s tag) ∧
      (write_result s tag).2 = clear_tag s tag ∧
      (remove_result s tag).2 = clear_tag s tag ∧
      (stat_result s tag).2 = clear_tag s tag ∧
      (stat_update_result s tag).2 = clear_tag s tag) ∧
    (clear_tag s tag = { s with request := upd s.request tag (fun _ => Request.zero) } ∧
      (clear_tag s tag).req tag = Request.zero ∧
      Request.zero.active = false ∧ Request.zero.pending = false ∧
      (∀ j, j ≠ tag → (clear_tag s tag).req j = s.req j) ∧
      (clear_tag s tag).request.length = s.request.length) := by
  refine ⟨fun t => tag_response_type_iff s tag t htl, ⟨?_, ?_, ?_, ?_, ?_, ?_, ?_, ?_⟩,
    ⟨walk_result_snd _ _, open_result_snd _ _, create_result_snd _ _,
      fun is_dir => read_result_snd _ _ is_dir, write_result_snd _ _, remove_result_snd _ _,
      stat_result_snd _ _, stat_update_result_snd _ _⟩,
    ⟨clear_tag_req s tag htl, clear_tag_slot s tag, rfl, rfl,
      fun j hj => clear_tag_other s tag j hj, clear_tag_length s tag⟩⟩
  · unfold walk_result
    cases tag_response_type s tag .Rwalk <;> rfl
  · unfold open_result
    cases tag_response_type s tag .Ropen <;> rfl
  · unfold create_result
    cases tag_response_type s tag .Rcreate <;> rfl
  · intro is_dir
    unfold read_result
    cases tag_response_type s tag .Rread
    · simp
    · cases h1 : (s.req tag).read_is_dir <;> cases is_dir <;> simp
  · unfold write_result
    cases h : tag_response_type s tag .Rwrite
    · rfl
    · have := ((tag_response_type_iff s tag .Rwrite htl).1 h).2.2
      simp [this]
  · unfold remove_result
    cases tag_response_type s tag .Rremove <;> rfl
  · unfold stat_result
    cases tag_response_type s tag .Rstat <;> rfl
  · unfold stat_update_result
    cases tag_response_type s tag .Rwstat <;> rfl

/-- C24 at the example session in which the Rread with "hello" has arrived for the
file read on tag 0: `read_result(0, false)` returns 5, `read_result(0, true)` and
`walk_result(0)` return their sentinels, and afterwards slot 0 is zero. -/
theorem result_accessors_witness :
    (read_result (parse_frame cfg0 (received s_reading rread_hello) 16).1 0 false).1 = 5 ∧
    (read_result (parse_frame cfg0 (received s_reading rread_hello) 16).1 0 true).1 = -1 ∧
    (walk_result (parse_frame cfg0 (received s_reading rread_hello) 16).1 0).1 = 0 ∧
    (read_result (parse_frame cfg0 (received s_reading rread_hello) 16).1 0 false).2.req 0 =
      Request.zero :=
  have h := result_accessors (parse_frame cfg0 (received s_reading rread_hello) 16).1 0
    (by decide)
  ⟨by rw [h.2.1.2.2.2.1 false]; decide, by rw [h.2.1.2.2.2.1 true]; decide,
   by rw [h.2.1.1]; decide, by rw [h.2.2.1.2.2.2.1 false]; exact h.2.2.2.2.1⟩

/-! ## C25 -/

/-- With an invalid file id, every request that checks the id first returns NOTAG
and only counts an internal error. -/
theorem invalid_fid_rejected (cfg : Config) (s : Session) (id : Nat)
    (hv : valid_file_id s id = false) :
    (∀ offset count buf, request_file_read s id offset count buf = (NOTAG, internal_error s)) ∧
    (∀ offset de, request_dir_read s id offset de = (NOTAG, internal_error s)) ∧
    (∀ offset count buf, request_write s id offset count buf = (NOTAG, internal_error s)) ∧
    (∀ name dir, request_create cfg s id name dir = (NOTAG, internal_error s)) ∧
    request_remove s id = (NOTAG, internal_error s) ∧
    (∀ stbuf, request_stat s id stbuf = (NOTAG, internal_error s)) ∧
    (∀ name, request_rename cfg s id name = (NOTAG, internal_error s)) ∧
    (∀ mtime, request_set_mtime cfg s id mtime = (NOTAG, internal_error s)) := by
  refine ⟨?_, ?_, ?_, ?_, ?_, ?_, ?_, ?_⟩
  · intro offset count buf
    unfold request_file_read
    rw [if_pos (by simp [hv])]
  · intro offset de
    unfold request_dir_read
    rw [if_pos (by simp [hv])]
  · intro offset count buf
    unfold request_write
    rw [if_pos (by simp [hv])]
  · intro name dir
    unfold request_create
    rw [if_pos (by simp [hv])]
  · unfold request_remove
    rw [if_pos (by simp [hv])]
  · intro stbuf
    unfold request_stat
    rw [if_pos (by simp [hv])]
  · intro name
    unfold request_rename
    rw [if_pos (by simp [hv])]
  · intro mtime
    unfold request_set_mtime
    rw [if_pos (by simp [hv])]

/-- C25 (the code at the failing input): in the mounted example session, where no tag
is taken and file id 1 is not valid, `request_open(1, 0)` returns NOTAG and sends
nothing, but slot 0 of the tag table stays active, so the next allocation gives tag 1;
`request_stat(1, ...)` on the same session leaves the tag table as it was. -/
theorem request_open_invalid_fid_keeps_tag :
    valid_file_id s_mounted 1 = false ∧
    s_mounted.request.map (fun q => q.active) = [false, false, false, false] ∧
    (request_open cfg0 s_mounted 1 0).1 = NOTAG ∧
    (request_open cfg0 s_mounted 1 0).2.sent = s_mounted.sent ∧
    (request_open cfg0 s_mounted 1 0).2.request.map (fun q => q.active) =
      [true, false, false, false] ∧
    (get_free_tag (request_open cfg0 s_mounted 1 0).2).1 = 1 ∧
    (request_stat s_mounted 1 none).1 = NOTAG ∧
    (request_stat s_mounted 1 none).2.request = s_mounted.request := by
  decide

/-! ## C26 -/

/-- C26 (the code at the failing input): in the mounted example session (`bufferLen`
64, no tag and no file id taken) a walk to a single name of 48 bytes does not fit;
`request_walk` returns NOTAG, sends nothing and leaves the tag table as it was, but
slot 0 of the FID table stays active: the next walk is given file id 2. -/
theorem request_walk_overflow_keeps_fid :
    s_mounted.bufferLen = 64 ∧
    s_mounted.fileIds.map (fun f => f.active) = [false, false, false, false] ∧
    (request_walk s_mounted (List.replicate 48 97) walkType.Any).1 = NOTAG ∧
    (request_walk s_mounted (List.replicate 48 97) walkType.Any).2.sent = s_mounted.sent ∧
    (request_walk s_mounted (List.replicate 48 97) walkType.Any).2.request =
      s_mounted.request ∧
    (request_walk s_mounted (List.replicate 48 97) walkType.Any).2.fileIds.map
      (fun f => f.active) = [true, false, false, false] ∧
    (generate_unique_file_id
      (request_walk s_mounted (List.replicate 48 97) walkType.Any).2).1 = 2 := by
  decide

/-! ## C30 -/

/-- C30 (the code at the failing input): with `walk("data/log.bin", File)` in flight
on tag 0 (new file id 1), a 19-byte Rwalk that announces `nwqid = 5042` is accepted
and `walk_result(0)` returns 1. The offset of the last qid, 9 + 13 * 5041 = 65542, is
kept in 16 bits as 6, so that the length asked for is 19 and the type byte inspected
is the byte at offset 6, the high byte of the tag. -/
theorem rwalk_offset_wraps :
    hdr_length (frame .Rwalk 0 (le 2 5042 ++ List.replicate 10 0)) = 19 ∧
    rd (frame .Rwalk 0 (le 2 5042 ++ List.replicate 10 0)) 7 2 = 5042 ∧
    sizeof_header + sizeof_Rwalk + 13 * 5042 = 65555 ∧
    rwalk_id_offset 5042 = 6 ∧
    (s_walk_file.req 0).walk_fileId = 1 ∧
    (update cfg0 1 s_walk_file
        (Recv.data (frame .Rwalk 0 (le 2 5042 ++ List.replicate 10 0)))).map
      (fun r => (walk_result r.1 0).1) = some 1 := by
  decide

/-! ## C27 -/

theorem writeAt_readBytes_self (buf : List Nat) (n : Nat) (h : n ≤ buf.length) :
    writeAt buf 0 (readBytes buf 0 n) = buf := by
  rw [readBytes_eq_take buf n 0 (by omega), List.drop_zero]
  apply ext_getD
  · simp
  · intro i hi
    rw [getD_writeAt]
    split_ifs with hc
    · simp only [Nat.sub_zero]
      simp only [List.length_take] at hc
      simp only [List.getD_eq_getElem?_getD, List.getElem?_take]
      rw [if_pos (by omega)]
    · rfl

/-- An activation of `parse` on a buffer whose length field is 0 and whose type byte is
no message type calls `parse` again with the same length on the same session. -/
theorem parse_frame_zero_length (cfg : Config) (s : Session) (len : Nat)
    (h0 : hdr_length s.receive = 0) (ht : MsgType.ofByte (hdr_type s.receive) = none)
    (hl : 0 < len) (hl2 : len < 65536) (hl3 : len ≤ s.receive.length) :
    parse_frame cfg s len = (s, some len) := by
  have hd : dispatch cfg s = (s, false) := by
    unfold dispatch
    rw [ht]
  unfold parse_frame
  rw [h0, if_neg (by omega), if_neg (by omega), hd]
  simp only [Bool.false_eq_true, if_false]
  rw [h0, if_neg (by omega), Nat.sub_zero, Nat.mod_eq_of_lt hl2, writeAt_readBytes_self _ _ hl3]

theorem parse_zero_length (cfg : Config) (s : Session) (len : Nat)
    (h0 : hdr_length s.receive = 0) (ht : MsgType.ofByte (hdr_type s.receive) = none)
    (hl : 0 < len) (hl2 : len < 65536) (hl3 : len ≤ s.receive.length) :
    ∀ fuel, parse cfg fuel s len = none := by
  intro fuel
  induction fuel with
  | zero => rfl
  | succ n ih =>
    rw [parse, parse_frame_zero_length cfg s len h0 ht hl hl2 hl3]
    exact ih

/-- C27 (the code at the failing input): in the mounted example session, after a recv
of seven zero bytes `parse(7)` does not return: the length field is 0, so the residual
is again the 7 bytes at the start of the buffer, and every activation calls `parse(7)`
on the same session. No amount of fuel lets the model return. -/
theorem parse_zero_length_never_returns :
    hdr_length (received s_mounted (List.replicate 7 0)).receive = 0 ∧
    parse_frame cfg0 (received s_mounted (List.replicate 7 0)) 7 =
      (received s_mounted (List.replicate 7 0), some 7) ∧
    ∀ fuel, parse cfg0 fuel (received s_mounted (List.replicate 7 0)) 7 = none :=
  ⟨by decide,
   parse_frame_zero_length cfg0 _ 7 (by decide) (by decide) (by decide) (by decide) (by decide),
   parse_zero_length cfg0 _ 7 (by decide) (by decide) (by decide) (by decide) (by decide)⟩

/-! ## C28 -/

theorem update_data (cfg : Config) (fuel : Nat) (s : Session) (bytes : List Nat)
    (hne : bytes ≠ []) (hmsg : bytes.length ≤ cfg.msgSize) :
    update cfg fuel s (Recv.data bytes) =
      (parse cfg fuel (received s bytes) bytes.length).map (fun s1 => (s1, true)) := by
  have hpos : 0 < bytes.length := List.length_pos.mpr hne
  unfold update received
  simp only [List.take_of_length_le hmsg]
  rw [if_neg (by omega)]
  cases parse cfg fuel { s with receive := writeAt s.receive 0 bytes } bytes.length <;> rfl

theorem writeAt_cover (buf a b : List Nat) (h : a.length ≤ b.length) :
    writeAt (writeAt buf 0 a) 0 b = writeAt buf 0 b := by
  apply ext_getD
  · simp
  · intro i _
    simp only [getD_writeAt, length_writeAt]
    by_cases h1 : 0 ≤ i ∧ i < 0 + b.length ∧ i < buf.length
    · rw [if_pos h1, if_pos h1]
    · rw [if_neg h1, if_neg h1, if_neg (by omega)]

theorem take_received (s : Session) (bytes : List Nat) (h : bytes.length ≤ s.receive.length) :
    (received s bytes).receive.take bytes.length = bytes := by
  unfold received
  have := take_next s.receive 0 [] bytes (by simp) (by simpa using h)
  simpa using this

/-- C28 (the code at the failing input): with an 8-byte file read in flight on tag 0,
the 16-byte Rread with "hello" arrives as 11 bytes and then 5 bytes. The first call of
`update` returns at the length check; the second recv writes "hello" over the start of
the first part, and after both calls the tag is still pending and the destination
untouched, while the same frame delivered by one recv leaves the tag not pending with
`read_result` 5. When the 7 data bytes of the Rread are those of an Rerror header for
tag 0 and the frame arrives as 11 bytes and then 7, the second call of `update`
handles the data as an Rerror: `read_result` returns -1 and the destination is
untouched, while one recv gives `read_result` 7 and the data. -/
theorem split_frame_is_lost :
    rread_hello.length = 16 ∧ hdr_length rread_hello = 16 ∧
    ((update cfg0 4 s_reading (Recv.data (rread_hello.take 11))).bind
        (fun r => update cfg0 4 r.1 (Recv.data (rread_hello.drop 11)))).map
      (fun r => ((r.1.req 0).pending, r.1.bufs)) =
      some (true, [List.replicate 8 0xEE]) ∧
    (update cfg0 4 s_reading (Recv.data rread_hello)).map
      (fun r => ((r.1.req 0).pending, r.1.bufs, (read_result r.1 0 false).1)) =
      some (false, [cstr "hello" ++ List.replicate 3 0xEE], 5) ∧
    rread_forged.length = 18 ∧ hdr_length rread_forged = 18 ∧
    rread_forged.drop 11 = frame .Rerror 0 [] ∧
    ((update cfg0 4 s_reading (Recv.data (rread_forged.take 11))).bind
        (fun r => update cfg0 4 r.1 (Recv.data (rread_forged.drop 11)))).map
      (fun r => ((r.1.req 0).pending, r.1.bufs, (read_result r.1 0 false).1)) =
      some (false, [List.replicate 8 0xEE], -1) ∧
    (update cfg0 4 s_reading (Recv.data rread_forged)).map
      (fun r => ((r.1.req 0).pending, r.1.bufs, (read_result r.1 0 false).1)) =
      some (false, [frame .Rerror 0 [] ++ [0xEE]], 7) := by
  decide

/-! ## C29 -/

theorem sock_send_receive (s : Session) : (sock_send s).receive = s.receive := by
  unfold sock_send
  split_ifs <;> rfl

theorem get_free_tag_receive (s : Session) : (get_free_tag s).2.receive = s.receive := by
  obtain ⟨r, h⟩ := get_free_tag_shape s
  rw [h]

theorem clear_tag_receive (s : Session) (tag : Nat) : (clear_tag s tag).receive = s.receive := by
  obtain ⟨r, h⟩ := clear_tag_shape s tag
  rw [h]

theorem clear_file_id_receive (s : Session) (id : Nat) :
    (clear_file_id s id).receive = s.receive := by
  unfold clear_file_id internal_error
  simp only []
  split_ifs <;> rfl

theorem free_file_id_receive (s : Session) (id : Nat) :
    (free_file_id s id).receive = s.receive := by
  unfold free_file_id
  simp only []
  generalize hs1 : (if (!valid_file_id s id) = true then internal_error s else s) = s1
  have e1 : s1.receive = s.receive := by
    rw [← hs1]; unfold internal_error; split <;> rfl
  obtain ⟨r, hr⟩ := get_free_tag_shape s1
  rw [hr]
  split_ifs <;> first | exact e1 | (rw [sock_send_receive]; exact e1)

theorem request_attach_receive (cfg : Config) (s : Session) :
    (request_attach cfg s).receive = s.receive := by
  unfold request_attach internal_error
  simp only []
  split_ifs <;> first | rfl | (rw [sock_send_receive])

theorem handle_version_receive (cfg : Config) (s : Session) :
    (handle_version cfg s).receive = s.receive := by
  unfold handle_version
  simp only []
  split_ifs <;> first | rfl | (rw [request_attach_receive])

theorem handle_attach_receive (s : Session) : (handle_attach s).receive = s.receive := by
  rcases handle_attach_shape s with h | h <;> rw [h]

theorem handle_rwalk_receive (s : Session) (tag : Nat) :
    (handle_rwalk s tag).receive = s.receive := by
  have hr : (rwalk_reject s tag).receive = s.receive := by
    unfold rwalk_reject
    exact free_file_id_receive s _
  unfold handle_rwalk
  simp only []
  split_ifs <;> first | rfl | exact hr

theorem handle_reply_receive (cfg : Config) (s : Session) (t : MsgType) (tag : Nat)
    (ht : t ≠ .Rerror) : (handle_reply cfg s t tag).receive = s.receive := by
  unfold handle_reply internal_error
  cases t
  case Rerror => exact absurd rfl ht
  case Rwalk => exact handle_rwalk_receive s tag
  case Rread =>
    simp only []
    split
    · unfold handle_dir_Rread
      cases (s.req tag).read_dir with
      | none => rfl
      | some d =>
        simp only []
        split_ifs <;> rfl
    · unfold handle_file_Rread
      cases (s.req tag).read_buf with
      | none => rfl
      | some b =>
        simp only []
        split_ifs <;> rfl
  case Rwrite =>
    simp only []
    split <;> rfl
  case Rstat =>
    unfold handle_Rstat
    simp only []
    cases (s.req tag).stat_stbuf <;> rfl
  all_goals rfl

theorem parse_reply_receive (cfg : Config) (s : Session) (t : MsgType) (ht : t ≠ .Rerror) :
    (parse_reply cfg s t).1.receive = s.receive := by
  unfold parse_reply internal_error
  simp only []
  split_ifs <;> first | rfl | exact handle_reply_receive cfg s t _ ht

theorem ofByte_rerror (n : Nat) (h : MsgType.ofByte n = some .Rerror) :
    n = MsgType.Rerror.toByte := by
  by_cases hn : n < 128
  · revert h
    interval_cases n <;> decide
  · exfalso
    have hk : ∀ k, k < 128 → (n = k) = False := fun k hk => by
      simp only [eq_iff_iff, iff_false]
      omega
    unfold MsgType.ofByte at h
    simp only [hk 100 (by norm_num), hk 101 (by norm_num), hk 102 (by norm_num),
      hk 103 (by norm_num), hk 104 (by norm_num), hk 105 (by norm_num), hk 107 (by norm_num),
      hk 108 (by norm_num), hk 109 (by norm_num), hk 110 (by norm_num), hk 111 (by norm_num),
      hk 112 (by norm_num), hk 113 (by norm_num), hk 114 (by norm_num), hk 115 (by norm_num),
      hk 116 (by norm_num), hk 117 (by norm_num), hk 118 (by norm_num), hk 119 (by norm_num),
      hk 120 (by norm_num), hk 121 (by norm_num), hk 122 (by norm_num), hk 123 (by norm_num),
      hk 124 (by norm_num), hk 125 (by norm_num), hk 126 (by norm_num), hk 127 (by norm_num),
      if_false] at h
    cases h

/-- Only the Rerror case of `parse` writes to the receive buffer. -/
theorem dispatch_receive (cfg : Config) (s : Session)
    (ht : hdr_type s.receive ≠ MsgType.Rerror.toByte) :
    (dispatch cfg s).1.receive = s.receive := by
  unfold dispatch
  cases h : MsgType.ofByte (hdr_type s.receive) with
  | none => rfl
  | some t =>
    cases t
    case Rerror =>
      exact absurd (ofByte_rerror _ h) ht
    case Rversion =>
      simp only []
      rw [handle_version_receive]
      split_ifs <;> rfl
    case Rattach =>
      simp only []
      rw [handle_attach_receive]
      split_ifs <;> rfl
    case Rclunk =>
      simp only [internal_error]
      split_ifs <;> first | rfl | (rw [clear_tag_receive, clear_file_id_receive])
    case Rwalk => exact parse_reply_receive cfg s _ (by simp)
    case Ropen => exact parse_reply_receive cfg s _ (by simp)
    case Rcreate => exact parse_reply_receive cfg s _ (by simp)
    case Rread => exact parse_reply_receive cfg s _ (by simp)
    case Rwrite => exact parse_reply_receive cfg s _ (by simp)
    case Rremove => exact parse_reply_receive cfg s _ (by simp)
    case Rstat => exact parse_reply_receive cfg s _ (by simp)
    case Rwstat => exact parse_reply_receive cfg s _ (by simp)
    all_goals rfl

/-- A case of `parse` that ends in `return` has only counted an internal error. -/
theorem dispatch_return (cfg : Config) (s : Session) (h : (dispatch cfg s).2 = true) :
    (dispatch cfg s).1 = internal_error s := by
  have hp : ∀ t, (parse_reply cfg s t).2 = true → (parse_reply cfg s t).1 = internal_error s := by
    intro t
    unfold parse_reply
    simp only []
    split_ifs <;> simp
  unfold dispatch at h ⊢
  cases h2 : MsgType.ofByte (hdr_type s.receive) with
  | none => rw [h2] at h; simp at h
  | some t =>
    rw [h2] at h
    cases t
    case Rclunk =>
      simp only [] at h ⊢
      split_ifs at h ⊢ <;> simp at h ⊢
    case Rerror => exact hp _ h
    case Rwalk => exact hp _ h
    case Ropen => exact hp _ h
    case Rcreate => exact hp _ h
    case Rread => exact hp _ h
    case Rwrite => exact hp _ h
    case Rremove => exact hp _ h
    case Rstat => exact hp _ h
    case Rwstat => exact hp _ h
    all_goals simp at h

theorem rd_append_left (a b : List Nat) (off n : Nat) (h : off + n ≤ a.length) :
    rd (a ++ b) off n = rd a off n := by
  rw [← rd_take (a ++ b) a.length off n h, List.take_left']
  rfl

/-- C29 (the code at the failing input): with a file read in flight on tag 0, one recv
delivers an Ropen for tag 3, which is not pending, followed by the Rread for tag 0.
`parse` counts the internal error and returns: the Rread is not handled, the tag stays
pending and the destination untouched. Delivered by two recvs, the same frames leave
the tag not pending and "hello" in the destination; so does one recv of a Tclunk,
whose case counts the internal error and goes on, followed by the Rread. With an open
in flight on tag 1 as well, one recv delivers the 18-byte Rerror "not found" for tag 0
followed by the Ropen for tag 1: `handle_error` writes its zero at offset 18, the
first byte of the Ropen, whose length field becomes 0, and `open_result` returns
false; delivered by two recvs, the same frames make `open_result` return true. -/
theorem second_frame_is_skipped :
    ropen_tag3.length = 24 ∧ hdr_length ropen_tag3 = 24 ∧
    (update cfg0 4 s_reading
        (Recv.data (ropen_tag3 ++ rread_hello))).map
      (fun r => ((r.1.req 0).pending, r.1.bufs, r.1.internal_errors)) =
      some (true, [List.replicate 8 0xEE], s_reading.internal_errors + 1) ∧
    ((update cfg0 4 s_reading (Recv.data ropen_tag3)).bind
        (fun r => update cfg0 4 r.1 (Recv.data rread_hello))).map
      (fun r => ((r.1.req 0).pending, r.1.bufs, r.1.internal_errors)) =
      some (false, [cstr "hello" ++ List.replicate 3 0xEE], s_reading.internal_errors + 1) ∧
    (update cfg0 4 s_reading
        (Recv.data (frame .Tclunk 3 (le 4 1) ++ rread_hello))).map
      (fun r => ((r.1.req 0).pending, r.1.bufs, r.1.internal_errors)) =
      some (false, [cstr "hello" ++ List.replicate 3 0xEE], s_reading.internal_errors + 1) ∧
    (s_read_open.req 0).pending = true ∧ (s_read_open.req 1).pending = true ∧
    rerror_not_found.length = 18 ∧ hdr_length rerror_not_found = 18 ∧
    ropen_tag1.length = 24 ∧ hdr_length ropen_tag1 = 24 ∧
    (update cfg0 4 s_read_open (Recv.data (rerror_not_found ++ ropen_tag1))).map
      (fun r => ((read_result r.1 0 false).1, (open_result r.1 1).1)) = some (-1, false) ∧
    ((update cfg0 4 s_read_open (Recv.data rerror_not_found)).bind
        (fun r => update cfg0 4 r.1 (Recv.data ropen_tag1))).map
      (fun r => ((read_result r.1 0 false).1, (open_result r.1 1).1)) = some (-1, true) := by
  refine ⟨by decide, by decide, by decide, by decide, by decide, by decide, by decide,
    by decide, by decide, by decide, by decide, by decide, by decide⟩

/-! ## C31 -/

/-- C31 (the code at the failing input): in the example session a first stat was
answered in full (1234 bytes, atime 1000, mtime 2000) and collected, and a second stat
is pending on tag 0 with the second `struct stat` of the caller, still zero, as
destination. The answer is a bare 7-byte Rstat header, shorter than
`sizeof(header) + sizeof(Rstat)`. `handle_Rstat` fills the destination from the bytes
the receive buffer holds behind the frame, those of the earlier answer, and
`stat_result` returns true. -/
theorem rstat_without_body_is_accepted :
    (frame .Rstat 0 []).length = 7 ∧ hdr_length (frame .Rstat 0 []) = 7 ∧
    7 < sizeof_header + sizeof_Rstat ∧
    (s_stat_again.req 0).pending = true ∧
    (s_stat_again.req 0).expectedType = MsgType.Rstat.toByte ∧
    (s_stat_again.req 0).stat_stbuf = some 1 ∧
    s_stat_again.stats =
      [{ st_size := 1234, st_atime := 1000, st_mtime := 2000, st_mode := cfg0.S_IFREG },
       StatBuf.zero] ∧
    (update cfg0 4 s_stat_again (Recv.data (frame .Rstat 0 []))).map
      (fun r => (r.1.stats, (stat_result r.1 0).1, r.1.internal_errors)) =
      some ([{ st_size := 1234, st_atime := 1000, st_mtime := 2000, st_mode := cfg0.S_IFREG },
             { st_size := 1234, st_atime := 1000, st_mtime := 2000, st_mode := cfg0.S_IFREG }],
            true, 0) := by
  decide

/-! ## C32 -/

theorem parse_reply_rejected (cfg : Config) (s : Session) (t : MsgType)
    (hrej : s.state ≠ State.Mounted ∨ s.request.length ≤ hdr_tag s.receive ∨
      (s.req (hdr_tag s.receive)).pending = false ∨
      (t ≠ .Rerror ∧ (s.req (hdr_tag s.receive)).expectedType ≠ t.toByte)) :
    parse_reply cfg s t = (internal_error s, true) := by
  unfold parse_reply
  simp only []
  split_ifs with h1 h2 h3
  · rfl
  · rfl
  · rfl
  · exfalso
    rcases hrej with h | h | h | h
    · exact h1 h
    · simp at h2; omega
    · simp [h] at h2
    · exact h3 h

/-- The activation of `parse` that takes a case ending in `return`: an internal error
is counted, nothing else changes, and `parse` returns with that session. -/
theorem parse_frame_return (cfg : Config) (s : Session) (len : Nat)
    (hd : dispatch cfg s = (internal_error s, true)) :
    ((parse_frame cfg s len).1 = s ∨ (parse_frame cfg s len).1 = internal_error s) ∧
    (hdr_length s.receive ≤ len → hdr_length s.receive ≤ s.bufferLen →
      (parse_frame cfg s len).1 = internal_error s) ∧
    (∀ fuel, parse cfg (fuel + 1) s len = some (parse_frame cfg s len).1) := by
  have h2 : (parse_frame cfg s len).2 = none := by
    unfold parse_frame
    simp only [hd]
    split_ifs <;> rfl
  refine ⟨?_, ?_, ?_⟩
  · unfold parse_frame
    simp only [hd]
    split_ifs
    · exact Or.inl rfl
    · exact Or.inl rfl
    · exact Or.inr rfl
  · intro hlen hbl
    unfold parse_frame
    simp only [hd]
    rw [if_neg (by omega), if_neg (by omega)]
    rfl
  · intro fuel
    unfold parse
    rw [h2]

/-- C32: rejected responses leave the tables untouched. When the receive buffer starts
with a frame of type Rerror, Rwalk, Ropen, Rcreate, Rread, Rwrite, Rremove, Rstat or
Rwstat and the state is not Mounted, or the tag of the frame is not below the size of
the tag table, or the slot of the tag is not pending, or the type is not Rerror and
differs from the `expectedType` of the slot, then the activation of `parse` that meets
it leaves the tag table, the FID table, the state, `bufferLen`, the send buffer and
the memory of the callers as they were and gives nothing to the socket; when the frame
is complete and within `bufferLen` it counts one internal error; and `parse` returns
with that session. -/
theorem rejected_reply_changes_nothing (cfg : Config) (s : Session) (t : MsgType) (len : Nat)
    (ht : hdr_type s.receive = t.toByte)
    (hk : t = .Rerror ∨ t = .Rwalk ∨ t = .Ropen ∨ t = .Rcreate ∨ t = .Rread ∨ t = .Rwrite ∨
      t = .Rremove ∨ t = .Rstat ∨ t = .Rwstat)
    (hrej : s.state ≠ State.Mounted ∨ s.request.length ≤ hdr_tag s.receive ∨
      (s.req (hdr_tag s.receive)).pending = false ∨
      (t ≠ .Rerror ∧ (s.req (hdr_tag s.receive)).expectedType ≠ t.toByte)) :
    (parse_frame cfg s len).1.request = s.request ∧
    (parse_frame cfg s len).1.fileIds = s.fileIds ∧
    (parse_frame cfg s len).1.state = s.state ∧
    (parse_frame cfg s len).1.bufferLen = s.bufferLen ∧
    (parse_frame cfg s len).1.sent = s.sent ∧
    (parse_frame cfg s len).1.send = s.send ∧
    (parse_frame cfg s len).1.bufs = s.bufs ∧
    (parse_frame cfg s len).1.dirents = s.dirents ∧
    (parse_frame cfg s len).1.stats = s.stats ∧
    (parse_frame cfg s len).1.receive = s.receive ∧
    (parse_frame cfg s len).1.fault = s.fault ∧
    (hdr_length s.receive ≤ len → hdr_length s.receive ≤ s.bufferLen →
      (parse_frame cfg s len).1.internal_errors = s.internal_errors + 1) ∧
    (∀ fuel, parse cfg (fuel + 1) s len = some (parse_frame cfg s len).1) := by
  have hd := (dispatch_reply cfg s t ht hk).trans (parse_reply_rejected cfg s t hrej)
  obtain ⟨h1, h2, h3⟩ := parse_frame_return cfg s len hd
  refine ⟨?_, ?_, ?_, ?_, ?_, ?_, ?_, ?_, ?_, ?_, ?_, ?_, h3⟩
  case refine_12 =>
    intro hlen hbl
    rw [h2 hlen hbl]
    rfl
  all_goals
    rcases h1 with h | h
    · rw [h]
    · rw [h]; rfl

/-- C32 at the example session: the read in flight on tag 0 was abandoned with
`clear_tag`, and the Rread with "hello" arrives for the cleared slot; an Ropen for tag
0 while the read is pending is rejected as well. -/
theorem rejected_reply_changes_nothing_witness :
    (parse_frame cfg0 (received (clear_tag s_reading 0) rread_hello) 16).1.request =
      (clear_tag s_reading 0).request ∧
    (parse_frame cfg0 (received (clear_tag s_reading 0) rread_hello) 16).1.fileIds =
      s_reading.fileIds ∧
    (parse_frame cfg0 (received (clear_tag s_reading 0) rread_hello) 16).1.sent =
      s_reading.sent ∧
    (parse_frame cfg0 (received (clear_tag s_reading 0) rread_hello) 16).1.bufs =
      [List.replicate 8 0xEE] ∧
    (parse_frame cfg0 (received (clear_tag s_reading 0) rread_hello) 16).1.internal_errors =
      s_reading.internal_errors + 1 ∧
    parse cfg0 1 (received (clear_tag s_reading 0) rread_hello) 16 =
      some (parse_frame cfg0 (received (clear_tag s_reading 0) rread_hello) 16).1 :=
  have h := rejected_reply_changes_nothing cfg0 (received (clear_tag s_reading 0) rread_hello)
    .Rread 16 (by decide) (by decide) (Or.inr (Or.inr (Or.inl (by decide))))
  ⟨h.1, h.2.1, h.2.2.2.2.1, h.2.2.2.2.2.2.1, h.2.2.2.2.2.2.2.2.2.2.2.1 (by decide) (by decide),
    h.2.2.2.2.2.2.2.2.2.2.2.2 0⟩

/-! ## C33 -/

theorem sock_send_tables (s : Session) :
    (sock_send s).request = s.request ∧ (sock_send s).fileIds = s.fileIds ∧
    (sock_send s).state = s.state ∧ (sock_send s).bufferLen = s.bufferLen := by
  unfold sock_send
  split_ifs <;> exact ⟨rfl, rfl, rfl, rfl⟩

theorem get_free_tag_cases (s : Session) :
    get_free_tag s = (NOTAG, s) ∨
    ∃ i, scan_free Request.active s.request 0 = some i ∧
      get_free_tag s =
        (i, { s with request := upd s.request i (fun q => { q with active := true }) }) := by
  unfold get_free_tag
  split_ifs
  · exact Or.inl rfl
  · cases h : scan_free Request.active s.request 0 with
    | none => exact Or.inl rfl
    | some i => exact Or.inr ⟨i, rfl, rfl⟩

/-- An active slot is not handed out, and `get_free_tag` leaves it as it is. -/
theorem get_free_tag_skips_active (s : Session) (tag : Nat) (hN : s.request.length ≤ 255)
    (htl : tag < s.request.length) (hact : (s.req tag).active = true) :
    (get_free_tag s).1 ≠ tag ∧ (get_free_tag s).2.req tag = s.req tag := by
  rcases get_free_tag_cases s with h | ⟨i, hi, h⟩
  · rw [h]
    refine ⟨?_, rfl⟩
    unfold NOTAG
    simp only []
    omega
  · have hne : i ≠ tag := by
      intro e
      have hf := (scan_free_some Request.active Request.zero _ 0 i hi).1
      rw [Nat.sub_zero, e] at hf
      have : (s.req tag).active = false := hf
      rw [hact] at this
      cases this
    rw [h]
    refine ⟨hne, ?_⟩
    show (upd s.request i _).getD tag Request.zero = _
    rw [getD_upd, if_neg (fun h => hne h.1.symm)]
    rfl

theorem free_file_id_request (s : Session) (id : Nat) (hN : s.request.length ≤ 255) :
    (free_file_id s id).request = s.request ∨
    ∃ i, scan_free Request.active s.request 0 = some i ∧
      (free_file_id s id).request =
        upd (upd s.request i (fun q => { q with active := true })) i (fun q =>
          { q with pending := true, expectedType := MsgType.Rclunk.toByte,
                   clunk_fileId := id }) := by
  unfold free_file_id
  simp only []
  generalize hs1 : (if (!valid_file_id s id) = true then internal_error s else s) = s1
  have e1 : s1.request = s.request := by
    rw [← hs1]; unfold internal_error; split <;> rfl
  rcases get_free_tag_cases s1 with h | ⟨i, hi, h⟩
  · rw [h]
    simp only [if_true]
    exact Or.inl e1
  · rw [h]
    simp only []
    have hb := scan_free_bounds Request.active s1.request 0 i hi
    rw [e1] at hb
    rw [if_neg (by unfold NOTAG; omega)]
    split_ifs
    · refine Or.inr ⟨i, by rw [← e1]; exact hi, ?_⟩
      rw [(sock_send_tables _).1]
      simp only [e1]
    · refine Or.inr ⟨i, by rw [← e1]; exact hi, ?_⟩
      rw [(sock_send_tables _).1]
      simp only [e1]

/-- A release leaves an active slot of the tag table as it is. -/
theorem free_file_id_keeps_active (s : Session) (id tag : Nat)
    (hN : s.request.length ≤ 255) (hact : (s.req tag).active = true) :
    (free_file_id s id).req tag = s.req tag ∧
    (free_file_id s id).request.length = s.request.length := by
  rcases free_file_id_request s id hN with h | ⟨i, hi, h⟩
  · exact ⟨by show (free_file_id s id).request.getD _ _ = _; rw [h]; rfl, by rw [h]⟩
  · have hne : i ≠ tag := by
      intro e
      have hf := (scan_free_some Request.active Request.zero _ 0 i hi).1
      rw [Nat.sub_zero, e] at hf
      have : (s.req tag).active = false := hf
      rw [hact] at this
      cases this
    refine ⟨?_, by rw [h, length_upd, length_upd]⟩
    show (free_file_id s id).request.getD _ _ = _
    rw [h, getD_upd, if_neg (fun h => hne h.1.symm), getD_upd, if_neg (fun h => hne h.1.symm)]
    rfl

theorem handle_rwalk_cases (s : Session) (tag : Nat) :
    handle_rwalk s tag = s ∨ handle_rwalk s tag = rwalk_reject s tag := by
  unfold handle_rwalk
  simp only []
  split_ifs
  all_goals first
    | exact Or.inl rfl
    | exact Or.inr rfl

/-- The fields `active` and `expectedType` of a slot after a field update. -/
theorem upd_slot_keeps (l : List Request) (tag : Nat) (g : Request → Request)
    (hg : ∀ q, (g q).active = q.active ∧ (g q).expectedType = q.expectedType) :
    ((upd l tag g).getD tag Request.zero).active = (l.getD tag Request.zero).active ∧
    ((upd l tag g).getD tag Request.zero).expectedType =
      (l.getD tag Request.zero).expectedType ∧
    (upd l tag g).length = l.length := by
  rw [getD_upd, length_upd]
  split_ifs
  · exact ⟨(hg _).1, (hg _).2, rfl⟩
  · exact ⟨rfl, rfl, rfl⟩

/-- No handler of a reply changes `active` or `expectedType` of the slot of an active
tag, or the size of the tag table. -/
theorem handle_reply_keeps_slot (cfg : Config) (s : Session) (t : MsgType) (tag : Nat)
    (hk : t = .Rerror ∨ t = .Rwalk ∨ t = .Ropen ∨ t = .Rcreate ∨ t = .Rread ∨ t = .Rwrite ∨
      t = .Rremove ∨ t = .Rstat ∨ t = .Rwstat)
    (hN : s.request.length ≤ 255) (hact : (s.req tag).active = true) :
    ((handle_reply cfg s t tag).req tag).active = (s.req tag).active ∧
    ((handle_reply cfg s t tag).req tag).expectedType = (s.req tag).expectedType ∧
    (handle_reply cfg s t tag).request.length = s.request.length := by
  rcases hk with h | h | h | h | h | h | h | h | h <;> subst h
  · -- Rerror
    show ((handle_error s tag).request.getD tag Request.zero).active = _ ∧
      ((handle_error s tag).request.getD tag Request.zero).expectedType = _ ∧
      (handle_error s tag).request.length = _
    rw [handle_error_request]
    split_ifs
    all_goals first
      | exact ⟨rfl, rfl, rfl⟩
      | exact upd_slot_keeps _ _ _ (fun _ => ⟨rfl, rfl⟩)
  · -- Rwalk
    have hr : handle_reply cfg s .Rwalk tag = handle_rwalk s tag := rfl
    rw [hr]
    rcases handle_rwalk_cases s tag with h | h
    · rw [h]; exact ⟨rfl, rfl, rfl⟩
    · rw [h]
      obtain ⟨h1, h2⟩ := free_file_id_keeps_active s (s.req tag).walk_fileId tag hN hact
      have h3 := upd_slot_keeps (free_file_id s (s.req tag).walk_fileId).request tag
        (fun q => { q with walk_fileId := 0 }) (fun _ => ⟨rfl, rfl⟩)
      have e : (rwalk_reject s tag).request =
          upd (free_file_id s (s.req tag).walk_fileId).request tag
            (fun q => { q with walk_fileId := 0 }) := rfl
      show ((rwalk_reject s tag).request.getD tag Request.zero).active = _ ∧
        ((rwalk_reject s tag).request.getD tag Request.zero).expectedType = _ ∧
        (rwalk_reject s tag).request.length = _
      rw [e, h3.1, h3.2.1, h3.2.2, h2]
      have h1r : (free_file_id s (s.req tag).walk_fileId).request.getD tag Request.zero =
        s.req tag := h1
      rw [h1r]
      exact ⟨rfl, rfl, rfl⟩
  · exact upd_slot_keeps _ _ _ (fun _ => ⟨rfl, rfl⟩)
  · exact upd_slot_keeps _ _ _ (fun _ => ⟨rfl, rfl⟩)
  · -- Rread
    unfold handle_reply
    simp only []
    split_ifs
    · unfold handle_dir_Rread
      simp only []
      split
      · exact ⟨rfl, rfl, rfl⟩
      · split_ifs
        all_goals first
          | exact ⟨rfl, rfl, rfl⟩
          | exact upd_slot_keeps _ _ _ (fun _ => ⟨rfl, rfl⟩)
    · unfold handle_file_Rread
      split
      · exact upd_slot_keeps _ _ _ (fun _ => ⟨rfl, rfl⟩)
      · split_ifs
        all_goals exact upd_slot_keeps _ _ _ (fun _ => ⟨rfl, rfl⟩)
  · -- Rwrite
    unfold handle_reply
    simp only []
    split_ifs
    · exact upd_slot_keeps _ _ _ (fun _ => ⟨rfl, rfl⟩)
    · exact ⟨rfl, rfl, rfl⟩
  · exact upd_slot_keeps _ _ _ (fun _ => ⟨rfl, rfl⟩)
  · -- Rstat
    unfold handle_reply handle_Rstat
    simp only []
    split
    all_goals exact upd_slot_keeps _ _ _ (fun _ => ⟨rfl, rfl⟩)
  · exact upd_slot_keeps _ _ _ (fun _ => ⟨rfl, rfl⟩)

/-- C33: completion keeps the slot owned by the caller. In state Mounted, with a tag
table of at most 255 slots, for a tag below its size whose slot is active and pending,
when the receive buffer starts with a complete frame with that tag (within
`bufferLen`) of type Rerror or of one of the types Rwalk, Ropen, Rcreate, Rread,
Rwrite, Rremove, Rstat, Rwstat that is the `expectedType` of the slot: after the
activation of `parse` that meets it the slot is active, not pending, and its
`expectedType` is what it was, so `tag_response` is true and `tag_response_type` is
true for that type; `get_free_tag` does not return the tag and leaves the slot as it
is; `clear_tag` and every result accessor, which ends in `clear_tag`, zero the slot.
When the frame is all that was received, `parse` returns with that session. -/
theorem completion_keeps_slot (cfg : Config) (s : Session) (t : MsgType) (len tag : Nat)
    (hst : s.state = State.Mounted) (hN : s.request.length ≤ 255)
    (ht : hdr_type s.receive = t.toByte)
    (hk : t = .Rerror ∨ t = .Rwalk ∨ t = .Ropen ∨ t = .Rcreate ∨ t = .Rread ∨ t = .Rwrite ∨
      t = .Rremove ∨ t = .Rstat ∨ t = .Rwstat)
    (htag : hdr_tag s.receive = tag) (htl : tag < s.request.length)
    (hact : (s.req tag).active = true) (hp : (s.req tag).pending = true)
    (he : t = .Rerror ∨ (s.req tag).expectedType = t.toByte)
    (hlen : hdr_length s.receive ≤ len) (hbl : hdr_length s.receive ≤ s.bufferLen) :
    ((parse_frame cfg s len).1.req tag).active = true ∧
    ((parse_frame cfg s len).1.req tag).pending = false ∧
    ((parse_frame cfg s len).1.req tag).expectedType = (s.req tag).expectedType ∧
    tag_response (parse_frame cfg s len).1 tag = true ∧
    (∀ E : MsgType, (s.req tag).expectedType = E.toByte →
      tag_response_type (parse_frame cfg s len).1 tag E = true) ∧
    (get_free_tag (parse_frame cfg s len).1).1 ≠ tag ∧
    (get_free_tag (parse_frame cfg s len).1).2.req tag = (parse_frame cfg s len).1.req tag ∧
    (clear_tag (parse_frame cfg s len).1 tag).req tag = Request.zero ∧
    ((walk_result (parse_frame cfg s len).1 tag).2.req tag = Request.zero ∧
      (open_result (parse_frame cfg s len).1 tag).2.req tag = Request.zero ∧
      (create_result (parse_frame cfg s len).1 tag).2.req tag = Request.zero ∧
      (∀ is_dir, (read_result (parse_frame cfg s len).1 tag is_dir).2.req tag = Request.zero) ∧
      (write_result (parse_frame cfg s len).1 tag).2.req tag = Request.zero ∧
      (remove_result (parse_frame cfg s len).1 tag).2.req tag = Request.zero ∧
      (stat_result (parse_frame cfg s len).1 tag).2.req tag = Request.zero ∧
      (stat_update_result (parse_frame cfg s len).1 tag).2.req tag = Request.zero) ∧
    (len = hdr_length s.receive →
      ∀ fuel, parse cfg (fuel + 1) s len = some (parse_frame cfg s len).1) := by
  subst htag
  obtain ⟨hreq, -, -, -, -, hparse⟩ := parse_frame_reply cfg s t len hst ht hk htl hp he hlen hbl
  obtain ⟨ha, hx, hl⟩ := handle_reply_keeps_slot cfg s t (hdr_tag s.receive) hk hN hact
  have hlen2 : (parse_frame cfg s len).1.request.length = s.request.length := by
    rw [hreq, length_upd, hl]
  have hslot : (parse_frame cfg s len).1.req (hdr_tag s.receive) =
      { (handle_reply cfg s t (hdr_tag s.receive)).req (hdr_tag s.receive) with
        pending := false } := by
    show (parse_frame cfg s len).1.request.getD _ _ = _
    rw [hreq, getD_upd, if_pos ⟨rfl, by rw [hl]; exact htl⟩]
    rfl
  have h1 : ((parse_frame cfg s len).1.req (hdr_tag s.receive)).active = true := by
    rw [hslot]
    exact ha.trans hact
  have h2 : ((parse_frame cfg s len).1.req (hdr_tag s.receive)).pending = false := by
    rw [hslot]
  have h3 : ((parse_frame cfg s len).1.req (hdr_tag s.receive)).expectedType =
      (s.req (hdr_tag s.receive)).expectedType := by
    rw [hslot]
    exact hx
  have hskip := get_free_tag_skips_active (parse_frame cfg s len).1 (hdr_tag s.receive)
    (by rw [hlen2]; exact hN) (by rw [hlen2]; exact htl) h1
  refine ⟨h1, h2, h3, ?_, ?_, hskip.1, hskip.2, clear_tag_slot _ _, ?_, ?_⟩
  · unfold tag_response
    rw [if_neg (by rw [hlen2]; omega), h1, h2]
    rfl
  · intro E hE
    rw [tag_response_type_iff _ _ _ (by rw [hlen2]; exact htl)]
    exact ⟨h1, h2, h3.trans hE⟩
  · refine ⟨?_, ?_, ?_, fun is_dir => ?_, ?_, ?_, ?_, ?_⟩
    · rw [walk_result_snd]; exact clear_tag_slot _ _
    · rw [open_result_snd]; exact clear_tag_slot _ _
    · rw [create_result_snd]; exact clear_tag_slot _ _
    · rw [read_result_snd]; exact clear_tag_slot _ _
    · rw [write_result_snd]; exact clear_tag_slot _ _
    · rw [remove_result_snd]; exact clear_tag_slot _ _
    · rw [stat_result_snd]; exact clear_tag_slot _ _
    · rw [stat_update_result_snd]; exact clear_tag_slot _ _
  · intro hl2 fuel
    refine hparse ?_ hl2 fuel
    by_cases hte : t = .Rerror
    · subst hte
      exact handle_error_hdr_length s _
    · rw [handle_reply_receive cfg s t _ hte]

/-- C33 at the example session with a file read in flight on tag 0, answered by the
Rread with "hello", and at the same session answered by the Rerror "not found". -/
theorem completion_keeps_slot_witness :
    ((parse_frame cfg0 (received s_reading rread_hello) 16).1.req 0).active = true ∧
    ((parse_frame cfg0 (received s_reading rread_hello) 16).1.req 0).pending = false ∧
    tag_response_type (parse_frame cfg0 (received s_reading rread_hello) 16).1 0 .Rread = true ∧
    (get_free_tag (parse_frame cfg0 (received s_reading rread_hello) 16).1).1 ≠ 0 ∧
    tag_response_type (parse_frame cfg0 (received s_reading rerror_not_found) 18).1 0 .Rread
      = true ∧
    parse cfg0 1 (received s_reading rread_hello) 16 =
      some (parse_frame cfg0 (received s_reading rread_hello) 16).1 :=
  have h := completion_keeps_slot cfg0 (received s_reading rread_hello) .Rread 16 0
    (by decide) (by decide) (by decide) (by decide) (by decide) (by decide) (by decide)
    (by decide) (by decide) (by decide) (by decide)
  have h2 := completion_keeps_slot cfg0 (received s_reading rerror_not_found) .Rerror 18 0
    (by decide) (by decide) (by decide) (by decide) (by decide) (by decide) (by decide)
    (by decide) (by decide) (by decide) (by decide)
  ⟨h.1, h.2.1, h.2.2.2.2.1 .Rread (by decide), h.2.2.2.2.2.1, h2.2.2.2.2.1 .Rread (by decide),
    h.2.2.2.2.2.2.2.2.2 (by decide) 0⟩

/-! ## C34 -/

theorem free_file_id_tables (s : Session) (id t : Nat) (hst : s.state = State.Mounted)
    (hv : valid_file_id s id = true)
    (hfree : scan_free Request.active s.request 0 = some t)
    (hN : s.request.length ≤ 255) :
    (free_file_id s id).request =
      upd (upd s.request t (fun q => { q with active := true })) t (fun q =>
        { q with pending := true, expectedType := MsgType.Rclunk.toByte, clunk_fileId := id }) ∧
    (free_file_id s id).fileIds =
      upd s.fileIds (fid_index id) (fun f => { f with clunked := true }) ∧
    (free_file_id s id).state = s.state ∧
    (free_file_id s id).bufferLen = s.bufferLen := by
  rw [free_file_id_eq s id t hst hv hfree hN]
  exact sock_send_tables _

theorem dispatch_rclunk (cfg : Config) (s : Session)
    (ht : hdr_type s.receive = MsgType.Rclunk.toByte) :
    dispatch cfg s =
      if hdr_tag s.receive ≥ s.request.length || !(s.req (hdr_tag s.receive)).pending then
        (internal_error s, true)
      else if (s.req (hdr_tag s.receive)).expectedType ≠ MsgType.Rclunk.toByte then
        (internal_error s, true)
      else (clear_tag (clear_file_id s (s.req (hdr_tag s.receive)).clunk_fileId)
        (hdr_tag s.receive), false) := by
  unfold dispatch
  rw [ht]
  rfl

theorem dispatch_rclunk_rejected (cfg : Config) (s : Session)
    (ht : hdr_type s.receive = MsgType.Rclunk.toByte)
    (hrej : s.request.length ≤ hdr_tag s.receive ∨
      (s.req (hdr_tag s.receive)).pending = false ∨
      (s.req (hdr_tag s.receive)).expectedType ≠ MsgType.Rclunk.toByte) :
    dispatch cfg s = (internal_error s, true) := by
  rw [dispatch_rclunk cfg s ht]
  split_ifs with h1 h2
  · rfl
  · rfl
  · exfalso
    rcases hrej with h | h | h
    · simp at h1; omega
    · simp [h] at h1
    · exact h2 h

theorem dispatch_rclunk_accepted (cfg : Config) (s : Session)
    (ht : hdr_type s.receive = MsgType.Rclunk.toByte)
    (htl : hdr_tag s.receive < s.request.length)
    (hp : (s.req (hdr_tag s.receive)).pending = true)
    (he : (s.req (hdr_tag s.receive)).expectedType = MsgType.Rclunk.toByte) :
    dispatch cfg s =
      (clear_tag (clear_file_id s (s.req (hdr_tag s.receive)).clunk_fileId)
        (hdr_tag s.receive), false) := by
  rw [dispatch_rclunk cfg s ht, if_neg (by simp [hp]; omega), if_neg (by simp [he])]

theorem clear_file_id_active (s : Session) (id : Nat)
    (hi : fid_index id < s.fileIds.length) (ha : (s.fid (fid_index id)).active = true) :
    clear_file_id s id = { s with
      fileIds := upd s.fileIds (fid_index id) (fun f => { f with active := false }) } := by
  unfold clear_file_id
  simp only []
  rw [if_neg (by simp [ha]; omega)]

/-- C34: two-phase FID release. In state Mounted, with tables of at most 255 slots,
`free_file_id(id)` on a valid `id`, `t` being the lowest free tag: the FID slot of
`id` is still active and now clunked, `valid_file_id(id)` is false,
`generate_unique_file_id` does not return `id`, and slot `t` is active and pending for
an Rclunk with that `id`. When the receive buffer then starts with a complete Rclunk
frame with tag `t` (within `bufferLen`), the activation of `parse` that meets it
leaves the FID slot of `id` inactive, so that `generate_unique_file_id` succeeds with
an id not above `id`, and tag slot `t` zeroed; the other slots of both tables are as
before the release and nothing is sent; when the frame is all that was received,
`parse` returns with that session. For any session whose receive buffer starts with an
Rclunk whose tag is not below the size of the tag table, or whose slot is not pending
or does not expect Rclunk, the activation leaves both tables as they were and `parse`
returns. -/
theorem two_phase_release (cfg : Config) (s : Session) (id t len : Nat) (bytes : List Nat)
    (hst : s.state = State.Mounted) (hN : s.request.length ≤ 255)
    (hF : s.fileIds.length ≤ 255)
    (hv : valid_file_id s id = true)
    (hfree : scan_free Request.active s.request 0 = some t)
    (ht : hdr_type (received (free_file_id s id) bytes).receive = MsgType.Rclunk.toByte)
    (htag : hdr_tag (received (free_file_id s id) bytes).receive = t)
    (hlen : hdr_length (received (free_file_id s id) bytes).receive ≤ len)
    (hbl : hdr_length (received (free_file_id s id) bytes).receive ≤ s.bufferLen) :
    (((free_file_id s id).fid (fid_index id)).active = true ∧
      ((free_file_id s id).fid (fid_index id)).clunked = true ∧
      valid_file_id (free_file_id s id) id = false ∧
      (generate_unique_file_id (free_file_id s id)).1 ≠ id ∧
      ((free_file_id s id).req t).active = true ∧
      ((free_file_id s id).req t).pending = true ∧
      ((free_file_id s id).req t).expectedType = MsgType.Rclunk.toByte ∧
      ((free_file_id s id).req t).clunk_fileId = id) ∧
    (((parse_frame cfg (received (free_file_id s id) bytes) len).1.fid (fid_index id)).active
        = false ∧
      (∃ j, j ≤ fid_index id ∧
        (generate_unique_file_id
          (parse_frame cfg (received (free_file_id s id) bytes) len).1).1 = j + 1) ∧
      (parse_frame cfg (received (free_file_id s id) bytes) len).1.req t = Request.zero ∧
      (∀ j, j ≠ fid_index id →
        (parse_frame cfg (received (free_file_id s id) bytes) len).1.fid j = s.fid j) ∧
      (∀ j, j ≠ t →
        (parse_frame cfg (received (free_file_id s id) bytes) len).1.req j = s.req j) ∧
      (parse_frame cfg (received (free_file_id s id) bytes) len).1.sent =
        (free_file_id s id).sent ∧
      (len = hdr_length (received (free_file_id s id) bytes).receive →
        ∀ fuel, parse cfg (fuel + 1) (received (free_file_id s id) bytes) len =
          some (parse_frame cfg (received (free_file_id s id) bytes) len).1)) ∧
    (∀ (r : Session) (n : Nat), hdr_type r.receive = MsgType.Rclunk.toByte →
      (r.request.length ≤ hdr_tag r.receive ∨ (r.req (hdr_tag r.receive)).pending = false ∨
        (r.req (hdr_tag r.receive)).expectedType ≠ MsgType.Rclunk.toByte) →
      (parse_frame cfg r n).1.request = r.request ∧
      (parse_frame cfg r n).1.fileIds = r.fileIds ∧
      (parse_frame cfg r n).1.sent = r.sent ∧
      ∀ fuel, parse cfg (fuel + 1) r n = some (parse_frame cfg r n).1) := by
  obtain ⟨hreq, hfid, hstate, hblen⟩ := free_file_id_tables s id t hst hv hfree hN
  have hb := scan_free_bounds Request.active s.request 0 t hfree
  have htl : t < s.request.length := by omega
  have hvv := hv
  unfold valid_file_id at hvv
  simp only [Bool.and_eq_true, decide_eq_true_eq, Bool.not_eq_true'] at hvv
  obtain ⟨⟨hidx, hactive⟩, hcl⟩ := hvv
  -- the FID slot after the release
  have hslotF : (free_file_id s id).fid (fid_index id) =
      { s.fid (fid_index id) with clunked := true } := by
    show (free_file_id s id).fileIds.getD _ _ = _
    rw [hfid, getD_upd, if_pos ⟨rfl, hidx⟩]
    rfl
  have hslotT : (free_file_id s id).req t =
      { s.req t with
        active := true, pending := true, expectedType := MsgType.Rclunk.toByte,
        clunk_fileId := id } := by
    show (free_file_id s id).request.getD _ _ = _
    rw [hreq, getD_upd_upd _ _ _ _ _ htl]
    rfl
  have hlenF : (free_file_id s id).fileIds.length = s.fileIds.length := by
    rw [hfid, length_upd]
  have hlenT : (free_file_id s id).request.length = s.request.length := by
    rw [hreq, length_upd, length_upd]
  refine ⟨⟨?_, ?_, ?_, ?_, ?_, ?_, ?_, ?_⟩, ?_, ?_⟩
  · rw [hslotF]; exact hactive
  · rw [hslotF]
  · unfold valid_file_id
    simp only []
    rw [hslotF]
    simp
  · intro hg
    unfold generate_unique_file_id at hg
    cases hsc : scan_free FileId.active (free_file_id s id).fileIds 0 with
    | none =>
      rw [hsc] at hg
      simp only [] at hg
      rw [← hg] at hidx
      unfold fid_index at hidx
      simp at hidx
      omega
    | some i =>
      rw [hsc] at hg
      simp only [] at hg
      have hbi := scan_free_bounds FileId.active _ 0 i hsc
      have hfalse := (scan_free_some FileId.active FileId.zero _ 0 i hsc).1
      rw [Nat.sub_zero] at hfalse
      have hi : fid_index id = i := by
        rw [← hg]
        exact fid_index_succ i (by omega)
      rw [← hi] at hfalse
      have : ((free_file_id s id).fid (fid_index id)).active = false := hfalse
      rw [hslotF] at this
      simp only [] at this
      rw [hactive] at this
      cases this
  · rw [hslotT]
  · rw [hslotT]
  · rw [hslotT]
  · rw [hslotT]
  · -- the Rclunk
    have hrcv : ∀ x, (received (free_file_id s id) bytes).req x = (free_file_id s id).req x :=
      fun _ => rfl
    have hd := dispatch_rclunk_accepted cfg (received (free_file_id s id) bytes) ht
      (by rw [htag]; show t < (free_file_id s id).request.length; omega)
      (by rw [htag, hrcv, hslotT])
      (by rw [htag, hrcv, hslotT])
    rw [htag, hrcv, hslotT] at hd
    simp only [] at hd
    rw [clear_file_id_active _ id (by show fid_index id < (free_file_id s id).fileIds.length; omega)
      (by show ((free_file_id s id).fid (fid_index id)).active = true
          rw [hslotF]; exact hactive)] at hd
    rw [clear_tag_req _ t (by show t < (free_file_id s id).request.length; omega)] at hd
    obtain ⟨⟨rcv, hpf⟩, hparse⟩ := parse_frame_of_dispatch cfg _ _ len hd hlen
      (by show _ ≤ (free_file_id s id).bufferLen; rw [hblen]; exact hbl)
    have hF2 : (parse_frame cfg (received (free_file_id s id) bytes) len).1.fileIds =
        upd (free_file_id s id).fileIds (fid_index id) (fun f => { f with active := false }) := by
      rw [hpf]; rfl
    have hR2 : (parse_frame cfg (received (free_file_id s id) bytes) len).1.request =
        upd (free_file_id s id).request t (fun _ => Request.zero) := by
      rw [hpf]; rfl
    have hinact :
        ((parse_frame cfg (received (free_file_id s id) bytes) len).1.fid (fid_index id)).active
          = false := by
      show ((parse_frame cfg _ len).1.fileIds.getD _ _).active = false
      rw [hF2, getD_upd, if_pos ⟨rfl, by omega⟩]
    refine ⟨hinact, ?_, ?_, ?_, ?_, ?_, ?_⟩
    · unfold generate_unique_file_id
      cases hsc : scan_free FileId.active
          (parse_frame cfg (received (free_file_id s id) bytes) len).1.fileIds 0 with
      | none =>
        exfalso
        have hall := (scan_free_none FileId.active _ 0).1 hsc
        have hmem : (parse_frame cfg (received (free_file_id s id) bytes) len).1.fid
            (fid_index id) ∈
            (parse_frame cfg (received (free_file_id s id) bytes) len).1.fileIds := by
          show List.getD _ _ _ ∈ _
          rw [List.getD_eq_getElem _ _ (by rw [hF2, length_upd]; omega)]
          exact List.getElem_mem _
        have := hall _ hmem
        rw [hinact] at this
        cases this
      | some i =>
        refine ⟨i, ?_, rfl⟩
        by_contra hgt
        have hlow := (scan_free_some FileId.active FileId.zero _ 0 i hsc).2 (fid_index id)
          (by omega)
        have : ((parse_frame cfg (received (free_file_id s id) bytes) len).1.fid
            (fid_index id)).active = true := hlow
        rw [hinact] at this
        cases this
    · show (parse_frame cfg _ len).1.request.getD _ _ = _
      rw [hR2, getD_upd, if_pos ⟨rfl, by omega⟩]
    · intro j hj
      show (parse_frame cfg _ len).1.fileIds.getD _ _ = _
      rw [hF2, getD_upd, if_neg (fun h => hj h.1), hfid, getD_upd, if_neg (fun h => hj h.1)]
      rfl
    · intro j hj
      show (parse_frame cfg _ len).1.request.getD _ _ = _
      rw [hR2, getD_upd, if_neg (fun h => hj h.1), hreq, getD_upd, if_neg (fun h => hj h.1),
        getD_upd, if_neg (fun h => hj h.1)]
      rfl
    · rw [hpf]; rfl
    · intro hl fuel
      exact hparse rfl hl fuel
  · intro r n htr hrej
    have hd := dispatch_rclunk_rejected cfg r htr hrej
    obtain ⟨h1, -, h3⟩ := parse_frame_return cfg r n hd
    refine ⟨?_, ?_, ?_, h3⟩
    all_goals
      rcases h1 with h | h
      · rw [h]
      · rw [h]; rfl

/-- C34 at the example session with FID 1 valid and every tag free: `free_file_id(1)`
takes tag 0, and the Rclunk for tag 0 releases the FID slot and the tag slot. -/
theorem two_phase_release_witness :
    valid_file_id s_walked 1 = true ∧
    valid_file_id (free_file_id s_walked 1) 1 = false ∧
    ((parse_frame cfg0 (received (free_file_id s_walked 1) (frame .Rclunk 0 [])) 7).1.fid
      (fid_index 1)).active = false ∧
    (parse_frame cfg0 (received (free_file_id s_walked 1) (frame .Rclunk 0 [])) 7).1.req 0 =
      Request.zero ∧
    parse cfg0 1 (received (free_file_id s_walked 1) (frame .Rclunk 0 [])) 7 =
      some (parse_frame cfg0 (received (free_file_id s_walked 1) (frame .Rclunk 0 [])) 7).1 :=
  have h := two_phase_release cfg0 s_walked 1 0 7 (frame .Rclunk 0 []) (by decide) (by decide)
    (by decide) (by decide) (by decide) (by decide) (by decide) (by decide) (by decide)
  ⟨by decide, h.1.2.2.1, h.2.1.1, h.2.1.2.2.1, h.2.1.2.2.2.2.2.2 (by decide) 0⟩

/-! ## C35 -/

/-- C35 (the code at the failing input): in the mounted example session (4 FID slots,
none taken) `walk("data/log.bin", File)` takes FID slot 0; the Rerror "not found" for
its tag makes `walk_result` return 0 and the tag is free again, but FID slot 0 is
still active and nothing was sent to release it. After four such walks every FID slot
is active while no tag is taken: `generate_unique_file_id` returns 0 and a fifth walk
is refused. -/
theorem failed_walk_keeps_fid :
    s_mounted.fileIds.map (fun f => f.active) = [false, false, false, false] ∧
    (request_walk s_mounted (cstr "data/log.bin") walkType.File).1 = 0 ∧
    (s_walk_file.req 0).walk_fileId = 1 ∧
    (update cfg0 4 s_walk_file (Recv.data rerror_not_found)).map
      (fun r => ((walk_result r.1 0).1,
        (walk_result r.1 0).2.request.map (fun q => q.active),
        (walk_result r.1 0).2.fileIds.map (fun f => f.active))) =
      some (0, [false, false, false, false], [true, false, false, false]) ∧
    (update cfg0 4 s_walk_file (Recv.data rerror_not_found)).map (fun r => r.1.sent) =
      some s_walk_file.sent ∧
    (failed_walk s_mounted).fileIds.map (fun f => f.active) = [true, false, false, false] ∧
    (generate_unique_file_id (failed_walk s_mounted)).1 = 2 ∧
    (failed_walk (failed_walk (failed_walk (failed_walk s_mounted)))).fileIds.map
      (fun f => f.active) = [true, true, true, true] ∧
    (failed_walk (failed_walk (failed_walk (failed_walk s_mounted)))).request.map
      (fun q => q.active) = [false, false, false, false] ∧
    (generate_unique_file_id
      (failed_walk (failed_walk (failed_walk (failed_walk s_mounted))))).1 = 0 ∧
    (request_walk (failed_walk (failed_walk (failed_walk (failed_walk s_mounted))))
      (cstr "data/log.bin") walkType.File).1 = NOTAG := by
  decide

/-! ## C36 -/

/-- C36 (the code at the failing input): the Twalk of `walk("data/log.bin", Any)`
carries two names; an Rwalk with one qid (a directory), the answer to a partial walk,
makes `walk_result` return the new file id 1, which stays valid for the client, and
nothing is sent to release it. The same holds for `walk("data/logs", Directory)`; for
`walk("data/log.bin", File)` the kind check rejects the directory qid and
`walk_result` returns 0. -/
theorem partial_walk_is_accepted :
    s_walk_any.sent.getLast?.map (fun m => rd m 15 2) = some 2 ∧
    rd (rwalk_one QTDIR) 7 2 = 1 ∧
    (update cfg0 4 s_walk_any (Recv.data (rwalk_one QTDIR))).map
      (fun r => ((walk_result r.1 0).1, r.1.sent)) = some (1, s_walk_any.sent) ∧
    (update cfg0 4 s_walk_any (Recv.data (rwalk_one QTDIR))).map
      (fun r => valid_file_id (walk_result r.1 0).2 1) = some true ∧
    s_walk_dir_two.sent.getLast?.map (fun m => rd m 15 2) = some 2 ∧
    (update cfg0 4 s_walk_dir_two (Recv.data (rwalk_one QTDIR))).map
      (fun r => ((walk_result r.1 0).1, r.1.sent)) = some (1, s_walk_dir_two.sent) ∧
    s_walk_file.sent.getLast?.map (fun m => rd m 15 2) = some 2 ∧
    (update cfg0 4 s_walk_file (Recv.data (rwalk_one QTDIR))).map
      (fun r => (walk_result r.1 0).1) = some 0 := by
  decide

/-! ## C37 -/

/-- C37 (the code at the failing input): in the example session FID 1 was released
with `free_file_id`, which took tag 0 for the Tclunk. The Rerror for tag 0 counts an
internal error and leaves tag slot 0 active (no longer pending, still expecting
Rclunk) and FID slot 0 active and clunked: `get_free_tag` gives tag 1,
`generate_unique_file_id` gives 2, and `valid_file_id(1)` is false. An Rclunk for the
same tag zeroes the tag slot and makes the FID slot inactive. -/
theorem rerror_for_clunk_keeps_tag_and_fid :
    (s_clunking.req 0).pending = true ∧
    (s_clunking.req 0).expectedType = MsgType.Rclunk.toByte ∧
    (s_clunking.req 0).clunk_fileId = 1 ∧
    (update cfg0 4 s_clunking (Recv.data rerror_not_found)).map
      (fun r => (r.1.request.map (fun q => (q.active, q.pending, q.expectedType)),
        r.1.fileIds.map (fun f => (f.active, f.clunked)))) =
      some ([(true, false, MsgType.Rclunk.toByte), (false, false, 0), (false, false, 0),
             (false, false, 0)],
            [(true, true), (false, false), (false, false), (false, false)]) ∧
    (update cfg0 4 s_clunking (Recv.data rerror_not_found)).map
      (fun r => (r.1.internal_errors, (get_free_tag r.1).1, (generate_unique_file_id r.1).1,
        valid_file_id r.1 1)) = some (1, 1, 2, false) ∧
    (update cfg0 4 s_clunking (Recv.data (frame .Rclunk 0 []))).map
      (fun r => (r.1.request.map (fun q => (q.active, q.pending, q.expectedType)),
        r.1.fileIds.map (fun f => f.active))) =
      some ([(false, false, 0), (false, false, 0), (false, false, 0), (false, false, 0)],
            [false, false, false, false]) ∧
    (update cfg0 4 s_clunking (Recv.data (frame .Rclunk 0 []))).map
      (fun r => (r.1.internal_errors, (get_free_tag r.1).1, (generate_unique_file_id r.1).1)) =
      some (0, 0, 1) := by
  decide

/-! ## C38 -/

/-- C38 (the code at the failing input): on a platform whose `d_name` has 4 bytes,
with a directory read in flight on tag 0, the Rread with the stat of "logs" (a name
of 4 bytes) is accepted, `read_result` returns 53, and the 4 bytes of `d_name` are
"logs": none of them is zero. -/
theorem d_name_is_not_terminated :
    cfg_short.dNameSize = 4 ∧ rd rread_stat_logs 52 2 = 4 ∧
    (update cfg_short 4 s_dir_reading (Recv.data rread_stat_logs)).map
      (fun r => (r.1.dirents, (read_result r.1 0 true).1)) =
      some ([{ d_name := cstr "logs", d_type := cfg_short.DT_DIR }], 53) ∧
    (cstr "logs").length = cfg_short.dNameSize ∧
    (cstr "logs").all (fun b => b != 0) = true := by
  decide

/-! ## C39 -/

/-- C39 (the code at the failing input): in the example session a first read was
answered with "hello" and collected, and a second read of 8 bytes is pending on tag 0.
The answer is an Rread of 11 bytes, header and count only, whose count field says 8.
`handle_file_Rread` copies the 8 bytes that follow the frame in the receive buffer,
"hello" of the earlier answer and three zeros, to the destination, and `read_result`
returns 8, although `sizeof(header) + sizeof(Rread) + 8` is more than the length of
the frame. -/
theorem file_read_copies_beyond_frame :
    (frame .Rread 0 (le 4 8)).length = 11 ∧ hdr_length (frame .Rread 0 (le 4 8)) = 11 ∧
    (s_read_again.req 0).pending = true ∧ (s_read_again.req 0).read_count = 8 ∧
    s_read_again.bufs = [cstr "hello" ++ List.replicate 3 0xEE] ∧
    (update cfg0 4 s_read_again (Recv.data (frame .Rread 0 (le 4 8)))).map
      (fun r => (r.1.bufs, (read_result r.1 0 false).1, r.1.internal_errors)) =
      some ([cstr "hello" ++ List.replicate 3 0], 8, 0) ∧
    hdr_length (frame .Rread 0 (le 4 8)) < sizeof_header + sizeof_Rread + 8 := by
  decide

/-! ## C40 -/

/-- C40 (the code at the failing input): in the mounted example session (4 FID slots,
none active, every tag free) no id is valid. `free_file_id(0)` counts an internal
error and goes on: the index `0 - 1` is 4294967295, the write to `fileIds` at that
index is out of the table, and a Tclunk for FID 0, the root, is sent. For id 9 the
index 8 is out of the table as well. For id 3, in range but not valid, slot 2 is
marked clunked and a Tclunk for FID 3 is sent. -/
theorem free_file_id_indexes_out_of_range :
    s_mounted.fileIds.length = 4 ∧
    valid_file_id s_mounted 0 = false ∧ fid_index 0 = 4294967295 ∧
    (free_file_id s_mounted 0).fault = true ∧
    (free_file_id s_mounted 0).internal_errors = s_mounted.internal_errors + 1 ∧
    (free_file_id s_mounted 0).sent = s_mounted.sent ++ [frame .Tclunk 0 (le 4 0)] ∧
    valid_file_id s_mounted 9 = false ∧ fid_index 9 = 8 ∧
    (free_file_id s_mounted 9).fault = true ∧
    (free_file_id s_mounted 9).sent = s_mounted.sent ++ [frame .Tclunk 0 (le 4 9)] ∧
    valid_file_id s_mounted 3 = false ∧
    s_mounted.fileIds.map (fun f => f.clunked) = [false, false, false, false] ∧
    (free_file_id s_mounted 3).fileIds.map (fun f => f.clunked) = [false, false, true, false] ∧
    (free_file_id s_mounted 3).sent = s_mounted.sent ++ [frame .Tclunk 0 (le 4 3)] := by
  decide

end NineP2000
